import Mathlib

/-!
# MH150 demos: TTTR record decoding and overflow correction

Shallow embedding of `ProcessT2` / `ProcessT3` and of the four event callbacks
of `Windows/32bit/C/advanced/tttrmode_eventfilter_main/tttrmode.c`.

* `unsigned int` is 32 bits wide, `uint64_t` is 64 bits wide; both are modelled
  as `Nat`, and every `uint64_t` addition is reduced modulo `2 ^ 64`.
* The anonymous `union { unsigned allbits; struct {...} bits; }` is modelled by
  explicit shift-and-mask extraction: the bit-fields of the struct are laid out
  in declaration order starting at the least significant bit of `allbits`
  (the layout of all compilers listed in the file header, on x86).
* The callbacks only print their arguments to `fpout`; the embedding records
  each invocation, with its arguments, in an ordered trace.
* The `while (1)` loop of `main` is a step function over the responses of the
  device, one `Poll` per pass, and logs the device calls it makes; the macros
  `FLAG_FIFOFULL` and `MAXDEVNUM` of `mhdefin.h` are parameters.
-/

namespace EventFilter

/-! ## Data model -/

/-- Number of values of a `uint64_t`. -/
def UINT64_RANGE : Nat := 2 ^ 64

/-- Number of values of an `unsigned int` (one raw TTTR record). -/
def UINT32_RANGE : Nat := 2 ^ 32

/-- Addition of two `uint64_t` values (wraps around modulo `2 ^ 64`). -/
def add64 (x y : Nat) : Nat := (x + y) % UINT64_RANGE

/-- Product of two values converted to `uint64_t` (wraps around modulo `2 ^ 64`). -/
def mul64 (x y : Nat) : Nat := (x * y) % UINT64_RANGE

/-- Read of an unsigned bit-field of `width` bits that starts `offset` bits above the
least significant bit of the word `allbits`. -/
def bitfield (allbits offset width : Nat) : Nat :=
  (allbits >>> offset) &&& (2 ^ width - 1)

/-- The `bits` view of the union `T2Rec` in `ProcessT2`. -/
structure T2Bits where
  /-- Field `unsigned timetag :25`. -/
  timetag : Nat
  /-- Field `unsigned channel :6`. -/
  channel : Nat
  /-- Field `unsigned special :1`. -/
  special : Nat
  deriving DecidableEq, Repr

/-- The `bits` view of the union `T3Rec` in `ProcessT3`. -/
structure T3Bits where
  /-- Field `unsigned nsync :10`. -/
  nsync : Nat
  /-- Field `unsigned dtime :15`. -/
  dtime : Nat
  /-- Field `unsigned channel :6`. -/
  channel : Nat
  /-- Field `unsigned special :1`. -/
  special : Nat
  deriving DecidableEq, Repr

/-- The union `T2Rec` after `T2Rec.allbits = TTTRRecord`: fields of 25, 6 and 1 bits,
allocated in this order from bit 0 upwards. -/
def T2Rec (allbits : Nat) : T2Bits :=
  { timetag := bitfield allbits 0 25
    channel := bitfield allbits 25 6
    special := bitfield allbits (25 + 6) 1 }

/-- The union `T3Rec` after `T3Rec.allbits = TTTRRecord`: fields of 10, 15, 6 and 1 bits,
allocated in this order from bit 0 upwards. -/
def T3Rec (allbits : Nat) : T3Bits :=
  { nsync := bitfield allbits 0 10
    dtime := bitfield allbits 10 15
    channel := bitfield allbits (10 + 15) 6
    special := bitfield allbits (10 + 15 + 6) 1 }

/-- One invocation of an event callback, with the arguments it was called with. -/
inductive Event where
  /-- Call `GotPhotonT2(TimeTag, Channel)`. -/
  | photonT2 (TimeTag : Nat) (Channel : Nat)
  /-- Call `GotMarkerT2(TimeTag, Markers)`. -/
  | markerT2 (TimeTag : Nat) (Markers : Nat)
  /-- Call `GotPhotonT3(NSync, Channel, DTime)`. -/
  | photonT3 (NSync : Nat) (Channel : Nat) (DTime : Nat)
  /-- Call `GotMarkerT3(NSync, Markers)`. -/
  | markerT3 (NSync : Nat) (Markers : Nat)
  deriving DecidableEq, Repr

/-- The mutable state the record processing works on: the global `oflcorrection`
(a `uint64_t`) and the callback invocations made so far, oldest first. -/
structure State where
  /-- Global `uint64_t oflcorrection`. -/
  oflcorrection : Nat
  /-- Callback invocations so far, oldest first (one output line each). -/
  events : List Event
  deriving DecidableEq, Repr

/-! ## Callbacks -/

/-- Callback `GotPhotonT2`: one output line for a T2 photon (or sync) event. -/
def GotPhotonT2 (s : State) (TimeTag Channel : Nat) : State :=
  { s with events := s.events ++ [Event.photonT2 TimeTag Channel] }

/-- Callback `GotMarkerT2`: one output line for a T2 marker event. -/
def GotMarkerT2 (s : State) (TimeTag Markers : Nat) : State :=
  { s with events := s.events ++ [Event.markerT2 TimeTag Markers] }

/-- Callback `GotPhotonT3`: one output line for a T3 photon event. -/
def GotPhotonT3 (s : State) (NSync Channel DTime : Nat) : State :=
  { s with events := s.events ++ [Event.photonT3 NSync Channel DTime] }

/-- Callback `GotMarkerT3`: one output line for a T3 marker event. -/
def GotMarkerT3 (s : State) (NSync Markers : Nat) : State :=
  { s with events := s.events ++ [Event.markerT3 NSync Markers] }

/-! ## Record processing -/

/-- Constant `T2WRAPAROUND_V2` of `ProcessT2`. -/
def T2WRAPAROUND_V2 : Nat := 33554432

/-- Constant `T3WRAPAROUND` of `ProcessT3`. -/
def T3WRAPAROUND : Nat := 1024

/-- Function `ProcessT2`: the three tests of the `special` branch are sequential `if`s
(not `else if`), each working on the state the previous one left. The local `int ch`
holds values of at most 64. -/
def ProcessT2 (s : State) (TTTRRecord : Nat) : State :=
  let bits := T2Rec TTTRRecord
  if bits.special = 1 then
    let s1 :=
      if bits.channel = 0x3F then
        { s with oflcorrection := add64 s.oflcorrection (mul64 T2WRAPAROUND_V2 bits.timetag) }
      else s
    let s2 :=
      if 1 ≤ bits.channel ∧ bits.channel ≤ 15 then
        GotMarkerT2 s1 (add64 s1.oflcorrection bits.timetag) bits.channel
      else s1
    if bits.channel = 0 then
      GotPhotonT2 s2 (add64 s2.oflcorrection bits.timetag) 0
    else s2
  else
    GotPhotonT2 s (add64 s.oflcorrection bits.timetag) (bits.channel + 1)

/-- Function `ProcessT3`: the two tests of the `special` branch are sequential `if`s.
The locals `int ch`, `int dt` hold values of at most 64 and `2 ^ 15 - 1`. -/
def ProcessT3 (s : State) (TTTRRecord : Nat) : State :=
  let bits := T3Rec TTTRRecord
  if bits.special = 1 then
    let s1 :=
      if bits.channel = 0x3F then
        { s with oflcorrection := add64 s.oflcorrection (mul64 T3WRAPAROUND bits.nsync) }
      else s
    if 1 ≤ bits.channel ∧ bits.channel ≤ 15 then
      GotMarkerT3 s1 (add64 s1.oflcorrection bits.nsync) bits.channel
    else s1
  else
    GotPhotonT3 s (add64 s.oflcorrection bits.nsync) (bits.channel + 1) bits.dtime

/-! ## Streams of records -/

/-- The measurement mode held by the local `Mode` of `main`. -/
inductive MeasMode where
  /-- Value `MODE_T2`. -/
  | MODE_T2
  /-- Any other value; `main` then treats the records as T3 records. -/
  | MODE_T3
  deriving DecidableEq, Repr

/-- The two `for (i = 0; i < nRecords; i++)` loops of `main`: every record of the buffer
is handed to `ProcessT2` (if `Mode == MODE_T2`) or else to `ProcessT3`, in buffer order. -/
def ProcessRecords (Mode : MeasMode) (s : State) (buffer : List Nat) : State :=
  match Mode with
  | MeasMode.MODE_T2 => buffer.foldl ProcessT2 s
  | MeasMode.MODE_T3 => buffer.foldl ProcessT3 s

/-- The state `main` starts the acquisition loop with: `oflcorrection = 0`, nothing
dispatched yet. -/
def State.zero : State := { oflcorrection := 0, events := [] }

/-! ## Output lines -/

/-- Right alignment of `s` in a field of `width` characters, the padding `printf` applies
to a conversion with a field width. -/
def padLeft (width : Nat) (s : String) : String :=
  String.mk (List.replicate (width - s.length) ' ') ++ s

/-- The text `GotPhotonT2` writes to `fpout`, format `"CH %2d %14.0lf\n"` applied to
`Channel` and `TimeTag * Resolution`, for a `Resolution` that is a whole number of
picoseconds. The product is a `double`; when it is below `2 ^ 53` it is exact and
`%14.0lf` prints it as a decimal integer. Larger products are outside this model
(`none`). -/
def GotPhotonT2_line (Resolution TimeTag Channel : Nat) : Option String :=
  if TimeTag * Resolution < 2 ^ 53 then
    some ("CH " ++ padLeft 2 (toString Channel) ++ " "
      ++ padLeft 14 (toString (TimeTag * Resolution)) ++ "\n")
  else none

/-! ## Vocabulary of the monotonicity property -/

/-- The time argument of a callback invocation (`TimeTag` or `NSync`). -/
def Event.time : Event → Nat
  | Event.photonT2 t _ => t
  | Event.markerT2 t _ => t
  | Event.photonT3 t _ _ => t
  | Event.markerT3 t _ => t

/-- The T2 record is an overflow record (`special = 1` and `channel = 63`). -/
def isOverflowT2 (r : Nat) : Bool :=
  decide ((T2Rec r).special = 1 ∧ (T2Rec r).channel = 63)

/-- The T2 record makes `ProcessT2` invoke a callback: a regular record, a sync record
or a marker record. -/
def isEventT2 (r : Nat) : Bool :=
  decide ((T2Rec r).special = 0 ∨ (T2Rec r).channel ≤ 15)

/-- The T3 record is an overflow record (`special = 1` and `channel = 63`). -/
def isOverflowT3 (r : Nat) : Bool :=
  decide ((T3Rec r).special = 1 ∧ (T3Rec r).channel = 63)

/-- The T3 record makes `ProcessT3` invoke a callback: a regular record or a marker
record. -/
def isEventT3 (r : Nat) : Bool :=
  decide ((T3Rec r).special = 0 ∨ (1 ≤ (T3Rec r).channel ∧ (T3Rec r).channel ≤ 15))

/-- Well-formedness of a record stream, in the words of the monotonicity property:
whenever an event-producing record has a smaller local time field than the previous
event-producing record, an overflow record with count at least 1 lies between the two.
`last` is the local time field of the previous event-producing record, if any; `ovf`
tells whether an overflow record with count at least 1 was met since. -/
def wellFormedFrom (isOverflow isEvent : Nat → Bool) (count localTime : Nat → Nat) :
    Option Nat → Bool → List Nat → Bool
  | _, _, [] => true
  | last, ovf, r :: rs =>
    if isOverflow r then
      wellFormedFrom isOverflow isEvent count localTime last (ovf || decide (1 ≤ count r)) rs
    else if isEvent r then
      (match last with
        | none => true
        | some l => decide (l ≤ localTime r) || ovf)
      && wellFormedFrom isOverflow isEvent count localTime (some (localTime r)) false rs
    else
      wellFormedFrom isOverflow isEvent count localTime last ovf rs

/-- Well-formed T2 stream: local time and overflow count are both the `timetag` field. -/
def wellFormedT2 (rs : List Nat) : Bool :=
  wellFormedFrom isOverflowT2 isEventT2 (fun r => (T2Rec r).timetag)
    (fun r => (T2Rec r).timetag) none false rs

/-- Well-formed T3 stream: local time and overflow count are both the `nsync` field. -/
def wellFormedT3 (rs : List Nat) : Bool :=
  wellFormedFrom isOverflowT3 isEventT3 (fun r => (T3Rec r).nsync)
    (fun r => (T3Rec r).nsync) none false rs

/-- Sum of the count fields of the overflow records of a stream. -/
def overflowTotal (isOverflow : Nat → Bool) (count : Nat → Nat) (rs : List Nat) : Nat :=
  ((rs.filter isOverflow).map count).sum

/-! ## The acquisition loop of `main` -/

/-- What the device hands back during one pass of the `while (1)` loop: return code and
flags of `MH_GetFlags`, return code and records of `MH_ReadFiFo` (`nRecords` is the
length of `buffer`), return code and status of `MH_CTCStatus`. A pass that leaves the
loop early does not look at the later entries. -/
structure Poll where
  /-- Return code of `MH_GetFlags`. -/
  flagsRet : Int
  /-- The `flags` word. -/
  flags : Nat
  /-- Return code of `MH_ReadFiFo`. -/
  readRet : Int
  /-- The records delivered into `buffer`, in order. -/
  buffer : List Nat
  /-- Return code of `MH_CTCStatus`. -/
  ctcRet : Int
  /-- The value stored into `ctcstatus`. -/
  ctcstatus : Int
  deriving DecidableEq, Repr

/-- Calls that `main` makes from the start of the loop onwards. -/
inductive DeviceCall where
  /-- Call `MH_GetFlags(dev[0], &flags)`. -/
  | MH_GetFlags
  /-- Call `MH_ReadFiFo(dev[0], buffer, &nRecords)` with its return code and records. -/
  | MH_ReadFiFo (retcode : Int) (records : List Nat)
  /-- Call `MH_CTCStatus(dev[0], &ctcstatus)`. -/
  | MH_CTCStatus
  /-- Call `MH_StopMeas(dev[0])`. -/
  | MH_StopMeas
  /-- Call `MH_CloseDevice(i)`. -/
  | MH_CloseDevice (i : Nat)
  /-- Call `fclose(fpout)`. -/
  | fclose
  deriving DecidableEq, Repr

/-- The two labels the loop is left through. -/
inductive Label where
  /-- Label `stoptttr:` (stop the measurement, then clean up). -/
  | stoptttr
  /-- Label `ex:` (clean up only). -/
  | ex
  deriving DecidableEq, Repr

/-- The variables of `main` the loop works on. -/
structure MainState where
  /-- Globals `oflcorrection` and the output written through the callbacks. -/
  decode : State
  /-- Local `int stopretry`. -/
  stopretry : Nat
  /-- Local `unsigned int Progress`. -/
  Progress : Nat
  /-- Device and file calls made so far, oldest first. -/
  calls : List DeviceCall
  deriving DecidableEq, Repr

/-- State on entry to the loop: `oflcorrection = 0`, `stopretry = 0`, `Progress = 0`. -/
def MainState.start : MainState :=
  { decode := State.zero, stopretry := 0, Progress := 0, calls := [] }

/-- One pass through the body of `while (1)`. The result is the new state and the label
jumped to, if the pass leaves the loop. `FLAG_FIFOFULL` is the macro of `mhdefin.h`. -/
def loopBody (FLAG_FIFOFULL : Nat) (Mode : MeasMode) (m : MainState) (p : Poll) :
    MainState × Option Label :=
  let m1 := { m with calls := m.calls ++ [DeviceCall.MH_GetFlags] }
  if p.flagsRet < 0 then (m1, some Label.ex)
  else if p.flags &&& FLAG_FIFOFULL ≠ 0 then (m1, some Label.stoptttr)
  else
    let m2 := { m1 with calls := m1.calls ++ [DeviceCall.MH_ReadFiFo p.readRet p.buffer] }
    if p.readRet < 0 then (m2, some Label.stoptttr)
    else if p.buffer.length ≠ 0 then
      ({ m2 with
          decode := ProcessRecords Mode m2.decode p.buffer
          Progress := (m2.Progress + p.buffer.length) % UINT32_RANGE }, none)
    else
      let m3 := { m2 with calls := m2.calls ++ [DeviceCall.MH_CTCStatus] }
      if p.ctcRet < 0 then (m3, some Label.ex)
      else if p.ctcstatus ≠ 0 then
        let m4 := { m3 with stopretry := m3.stopretry + 1 }
        if m4.stopretry > 5 then (m4, some Label.stoptttr) else (m4, none)
      else (m3, none)

/-- The loop `while (1)`, driven by the device responses of the successive passes. The
result carries the label the loop was left through, or `none` if the responses given
did not make it leave. -/
def acquisitionLoop (FLAG_FIFOFULL : Nat) (Mode : MeasMode) :
    List Poll → MainState → MainState × Option Label
  | [], m => (m, none)
  | p :: ps, m =>
    match loopBody FLAG_FIFOFULL Mode m p with
    | (m1, some l) => (m1, some l)
    | (m1, none) => acquisitionLoop FLAG_FIFOFULL Mode ps m1

/-- The code of `main` from the label jumped to down to `return`: `stoptttr:` calls
`MH_StopMeas` and falls through (also on an error return) to `ex:`, which closes all
`MAXDEVNUM` devices and the output file. -/
def afterLoop (MAXDEVNUM : Nat) (l : Label) (m : MainState) : MainState :=
  let m1 :=
    match l with
    | Label.stoptttr => { m with calls := m.calls ++ [DeviceCall.MH_StopMeas] }
    | Label.ex => m
  { m1 with
    calls := m1.calls ++ (List.range MAXDEVNUM).map DeviceCall.MH_CloseDevice
      ++ [DeviceCall.fclose] }

/-- The part of `main` from the start of the loop to `return`: the loop, then the code
from the label it was left through. The result is `none` if the responses given did not
make the loop leave. -/
def mainFromLoop (FLAG_FIFOFULL MAXDEVNUM : Nat) (Mode : MeasMode) (responses : List Poll) :
    Option MainState :=
  match acquisitionLoop FLAG_FIFOFULL Mode responses MainState.start with
  | (m, some l) => some (afterLoop MAXDEVNUM l m)
  | (_, none) => none

/-- The records of all batches that `MH_ReadFiFo` delivered successfully, concatenated in
the order of the calls. -/
def batchesRead : List DeviceCall → List Nat
  | [] => []
  | DeviceCall.MH_ReadFiFo retcode records :: cs =>
    (if retcode < 0 then [] else records) ++ batchesRead cs
  | _ :: cs => batchesRead cs

/-- Device response of a pass that reads the batch `b` without error or overrun. -/
def Poll.batch (b : List Nat) : Poll :=
  { flagsRet := 0, flags := 0, readRet := 0, buffer := b, ctcRet := 0, ctcstatus := 0 }

/-- Device response of a pass that reads an empty batch and finds the
end-of-acquisition status set, without error or overrun. -/
def Poll.drained : Poll :=
  { flagsRet := 0, flags := 0, readRet := 0, buffer := [], ctcRet := 0, ctcstatus := 1 }

/-- The pass meets no error return and no FIFO overrun. -/
def Poll.clean (FLAG_FIFOFULL : Nat) (p : Poll) : Bool :=
  decide (0 ≤ p.flagsRet ∧ p.flags &&& FLAG_FIFOFULL = 0 ∧ 0 ≤ p.readRet ∧ 0 ≤ p.ctcRet)

/-- The pass reads an empty batch and finds the end-of-acquisition status set. -/
def Poll.idleAtEnd (p : Poll) : Bool :=
  decide (p.buffer = [] ∧ p.ctcstatus ≠ 0)

end EventFilter

/-!
# MH150 demos: instant histogramming of T3 records

Shallow embedding of `GotPhotonT3`, `GotMarkerT3`, `ProcessT3` and of the histogram
output loop of `Windows/64bit/C/advanced/t3mode_instant_histogramming/tttrmode.c`.
The union `T3Rec` and the constant `T3WRAPAROUND` are the same as in the event filter
program. The macro `MAXINPCHAN` comes from `mhdefin.h` and is a parameter here.
-/

namespace Histogramming

open EventFilter (T3Rec add64 mul64 T3WRAPAROUND UINT32_RANGE)

/-- Macro `T3HISTBINS`. -/
def T3HISTBINS : Nat := 32768

/-- The globals the record processing works on: `oflcorrection` and the table
`unsigned int histogram[MAXINPCHAN][T3HISTBINS]`, where `histogram c d` is the cell
`histogram[c][d]`. -/
structure State where
  /-- Global `uint64_t oflcorrection`. -/
  oflcorrection : Nat
  /-- Global `histogram`. -/
  histogram : Nat → Nat → Nat

/-- The globals when the loop of `main` starts: `memset(histogram, 0, ...)` and
`oflcorrection = 0`. -/
def State.cleared : State := { oflcorrection := 0, histogram := fun _ _ => 0 }

/-- Callback `GotPhotonT3`: `histogram[Channel][DTime]++` on an `unsigned int` cell. An
index outside `histogram[MAXINPCHAN][T3HISTBINS]` is an access outside the array and has
no defined result (`none`). -/
def GotPhotonT3 (MAXINPCHAN : Nat) (s : State) (_NSync Channel DTime : Nat) : Option State :=
  if Channel < MAXINPCHAN ∧ DTime < T3HISTBINS then
    some { s with
      histogram := fun c d =>
        if c = Channel ∧ d = DTime then (s.histogram c d + 1) % UINT32_RANGE
        else s.histogram c d }
  else none

/-- Callback `GotMarkerT3`: empty body. -/
def GotMarkerT3 (s : State) (_NSync _Markers : Nat) : State := s

/-- Function `ProcessT3` of the histogramming program. -/
def ProcessT3 (MAXINPCHAN : Nat) (s : State) (TTTRRecord : Nat) : Option State :=
  let bits := T3Rec TTTRRecord
  if bits.special = 1 then
    let s1 :=
      if bits.channel = 0x3F then
        { s with oflcorrection := add64 s.oflcorrection (mul64 T3WRAPAROUND bits.nsync) }
      else s
    if 1 ≤ bits.channel ∧ bits.channel ≤ 15 then
      some (GotMarkerT3 s1 (add64 s1.oflcorrection bits.nsync) bits.channel)
    else some s1
  else
    GotPhotonT3 MAXINPCHAN s (add64 s.oflcorrection bits.nsync) (bits.channel + 1) bits.dtime

/-- The loop `for (i = 0; i < nRecords; i++) ProcessT3(buffer[i]);` of `main`. -/
def ProcessRecords (MAXINPCHAN : Nat) : State → List Nat → Option State
  | s, [] => some s
  | s, r :: rs =>
    match ProcessT3 MAXINPCHAN s r with
    | some s1 => ProcessRecords MAXINPCHAN s1 rs
    | none => none

/-- The numbers printed by the output loops of `main`
(`for (i = 0; i < T3HISTBINS; i++) for (j = 0; j < NumChannels; j++)` printing
`histogram[j][i]`): one row per `i`, one entry per `j`. -/
def histogramTable (NumChannels : Nat) (s : State) : List (List Nat) :=
  (List.range T3HISTBINS).map fun i => (List.range NumChannels).map fun j => s.histogram j i

/-- The cell index used for the record lies inside the table: every record with
`special = 0` has `channel + 1 < MAXINPCHAN`. -/
def inTable (MAXINPCHAN : Nat) (r : Nat) : Prop :=
  (T3Rec r).special = 0 → (T3Rec r).channel + 1 < MAXINPCHAN

/-- The predicate `inTable` is decided by evaluating the record. -/
instance inTable.decidable (MAXINPCHAN r : Nat) : Decidable (inTable MAXINPCHAN r) :=
  inferInstanceAs (Decidable ((T3Rec r).special = 0 → (T3Rec r).channel + 1 < MAXINPCHAN))

/-- Number of records of the stream with `special = 0` that address the cell
`(c, d)`, that is with `channel + 1 = c` and `dtime = d`. -/
def photonCount (c d : Nat) (rs : List Nat) : Nat :=
  (rs.filter fun r =>
    decide ((T3Rec r).special = 0 ∧ (T3Rec r).channel + 1 = c ∧ (T3Rec r).dtime = d)).length

/-- Number of records of the stream with `special = 0` and raw channel below
`NumChannels`. -/
def photonsOfChannels (NumChannels : Nat) (rs : List Nat) : Nat :=
  (rs.filter fun r => decide ((T3Rec r).special = 0 ∧ (T3Rec r).channel < NumChannels)).length

end Histogramming

/-!
# MH150 demos: TTTR measurement on multiple devices

Shallow embedding of the measurement loop of
`Windows/32bit/C/advanced/tttrmode_multiple_devices/tttrmode.c`. Every exit of the
nested loops `while (1) { for (n = 0; n < NDEVICES; n++) { ... } }` is a `goto` out of
both, so the nesting is flattened: the state carries the loop variable `n`, one pass is
the body of the `for` loop for device `n`, and after a pass `n` is advanced, starting
again at 0 when the `for` loop ends. The files are sequences of bytes; `fwrite` stores
each `unsigned int` as 4 bytes, least significant byte first (the byte order of the x86
platforms the file lists). The macro `FLAG_FIFOFULL` of `mhdefin.h` is a parameter.
-/

namespace MultipleDevices

/-- Macro `NDEVICES`. -/
def NDEVICES : Nat := 2

/-- What one pass of the `for` loop gets back: return code and flags of `MH_GetFlags`,
return code and records of `MH_ReadFiFo` (`nRecords` is the length of `buffer`), the
number of items `fwrite` reports as written, return code and status of `MH_CTCStatus`.
A pass that leaves the loop early does not look at the later entries. -/
structure Poll where
  /-- Return code of `MH_GetFlags`. -/
  flagsRet : Int
  /-- The `flags` word. -/
  flags : Nat
  /-- Return code of `MH_ReadFiFo`. -/
  readRet : Int
  /-- The records delivered into `buffer[n]`, in order. -/
  buffer : List Nat
  /-- Return value of `fwrite`. -/
  fwriteRet : Nat
  /-- Return code of `MH_CTCStatus`. -/
  ctcRet : Int
  /-- The value stored into `ctcstatus`. -/
  ctcstatus : Int
  deriving DecidableEq, Repr

/-- Calls made by the loop, with the position `n` of the device or file they are for. -/
inductive Call where
  /-- Call `MH_GetFlags(dev[n], &flags)`. -/
  | MH_GetFlags (n : Nat)
  /-- Call `MH_ReadFiFo(dev[n], buffer[n], &nRecords)` with its return code and records. -/
  | MH_ReadFiFo (n : Nat) (retcode : Int) (records : List Nat)
  /-- Call `fwrite(buffer[n], 4, nRecords, fpout[n])` with its return value. -/
  | fwrite (n : Nat) (written : Nat)
  /-- Call `MH_CTCStatus(dev[n], &ctcstatus)`. -/
  | MH_CTCStatus (n : Nat)
  deriving DecidableEq, Repr

/-- The ways the loop is left. -/
inductive Exit where
  /-- `MH_GetFlags` failed (`goto ex`). -/
  | flagsError
  /-- The flags have `FLAG_FIFOFULL` set (`goto stoptttr`). -/
  | fifoOverrun
  /-- `MH_ReadFiFo` failed (`goto stoptttr`). -/
  | readError
  /-- `fwrite` wrote fewer items than asked (`goto stoptttr`). -/
  | writeError
  /-- `MH_CTCStatus` failed (`goto ex`). -/
  | ctcError
  /-- All devices are done, message `Done` (`goto stoptttr`). -/
  | done
  deriving DecidableEq, Repr

/-- The variables of `main` the loop works on. -/
structure State where
  /-- Loop variable `n` of the `for` loop. -/
  n : Nat
  /-- Array `int done[NDEVICES]`. -/
  done : Nat → Nat
  /-- Local `unsigned int Progress`. -/
  Progress : Nat
  /-- Contents of the files `fpout[n]`, as bytes. -/
  fpout : Nat → List Nat
  /-- Calls made so far, oldest first. -/
  calls : List Call

/-- State on entry to the loop: `done[n] = 0` for all devices, `Progress = 0`, the files
just opened for writing, `n = 0`. -/
def State.start : State :=
  { n := 0, done := fun _ => 0, Progress := 0, fpout := fun _ => [], calls := [] }

/-- The 4 bytes `fwrite` stores for one `unsigned int`, least significant byte first. -/
def bytesOf (r : Nat) : List Nat :=
  [r % 256, r / 256 % 256, r / 65536 % 256, r / 16777216 % 256]

/-- End of a pass that stays in the loop: `n++`, and when `n < NDEVICES` fails the `for`
loop ends and `while (1)` starts it again with `n = 0`. -/
def State.advance (s : State) : State :=
  { s with n := if s.n + 1 < NDEVICES then s.n + 1 else 0 }

/-- One pass through the body of the `for` loop, for device `n`. The result is the new
state and the way the loop is left, if the pass leaves it. -/
def loopBody (FLAG_FIFOFULL : Nat) (s : State) (p : Poll) : State × Option Exit :=
  let s1 := { s with calls := s.calls ++ [Call.MH_GetFlags s.n] }
  if p.flagsRet < 0 then (s1, some Exit.flagsError)
  else if p.flags &&& FLAG_FIFOFULL ≠ 0 then (s1, some Exit.fifoOverrun)
  else
    let s2 := { s1 with calls := s1.calls ++ [Call.MH_ReadFiFo s.n p.readRet p.buffer] }
    if p.readRet < 0 then (s2, some Exit.readError)
    else if p.buffer.length ≠ 0 then
      let s3 := { s2 with
        fpout := fun j =>
          if j = s.n then s2.fpout j ++ (p.buffer.take p.fwriteRet).flatMap bytesOf
          else s2.fpout j
        calls := s2.calls ++ [Call.fwrite s.n p.fwriteRet] }
      if p.fwriteRet ≠ p.buffer.length then (s3, some Exit.writeError)
      else
        (State.advance
          { s3 with Progress := (s3.Progress + p.buffer.length) % EventFilter.UINT32_RANGE },
          none)
    else
      let s3 := { s2 with calls := s2.calls ++ [Call.MH_CTCStatus s.n] }
      if p.ctcRet < 0 then (s3, some Exit.ctcError)
      else if p.ctcstatus ≠ 0 then
        let s4 := { s3 with done := fun j => if j = s.n then 1 else s3.done j }
        let alldone := ((List.range NDEVICES).map s4.done).sum
        if alldone = NDEVICES then (s4, some Exit.done) else (State.advance s4, none)
      else (State.advance s3, none)

/-- The measurement loop, driven by the responses of the successive passes. The result
carries the way the loop was left, or `none` if the responses given did not make it
leave. -/
def measurementLoop (FLAG_FIFOFULL : Nat) : List Poll → State → State × Option Exit
  | [], s => (s, none)
  | p :: ps, s =>
    match loopBody FLAG_FIFOFULL s p with
    | (s1, some e) => (s1, some e)
    | (s1, none) => measurementLoop FLAG_FIFOFULL ps s1

/-- The devices whose flags were queried, in the order of the queries. -/
def polledDevices : List Call → List Nat
  | [] => []
  | Call.MH_GetFlags n :: cs => n :: polledDevices cs
  | _ :: cs => polledDevices cs

/-- The batches delivered by the passes for device `j`, in order, when the first
response of the list belongs to pass number `k` (passes are numbered from 0 and pass `i`
is for device `i % NDEVICES`). -/
def batchesFrom (j : Nat) : Nat → List Poll → List (List Nat)
  | _, [] => []
  | k, p :: ps => (if k % NDEVICES = j then [p.buffer] else []) ++ batchesFrom j (k + 1) ps

/-- The pass meets no error return, no FIFO overrun and no short write. -/
def Poll.clean (FLAG_FIFOFULL : Nat) (p : Poll) : Bool :=
  decide (0 ≤ p.flagsRet ∧ p.flags &&& FLAG_FIFOFULL = 0 ∧ 0 ≤ p.readRet ∧
    (p.buffer ≠ [] → p.fwriteRet = p.buffer.length) ∧ 0 ≤ p.ctcRet)

/-- The pass reads an empty batch and finds the end-of-acquisition status set. -/
def Poll.idleAtEnd (p : Poll) : Bool :=
  decide (p.buffer = [] ∧ p.ctcstatus ≠ 0)

/-- Response of a pass that reads the batch `b` and writes it completely. -/
def Poll.batch (b : List Nat) : Poll :=
  { flagsRet := 0, flags := 0, readRet := 0, buffer := b, fwriteRet := b.length, ctcRet := 0,
    ctcstatus := 0 }

/-- Response of a pass that reads an empty batch and finds the end-of-acquisition
status set. -/
def Poll.drained : Poll :=
  { flagsRet := 0, flags := 0, readRet := 0, buffer := [], fwriteRet := 0, ctcRet := 0,
    ctcstatus := 1 }

end MultipleDevices

namespace EventFilter

/-! ## Bit-field extraction -/

theorem bitfield_eq_div_mod (allbits offset width : Nat) :
    bitfield allbits offset width = allbits / 2 ^ offset % 2 ^ width := by
  unfold bitfield
  rw [Nat.and_pow_two_sub_one_eq_mod, Nat.shiftRight_eq_div_pow]

theorem bitfield_lt (allbits offset width : Nat) :
    bitfield allbits offset width < 2 ^ width := by
  rw [bitfield_eq_div_mod]
  exact Nat.mod_lt _ (Nat.two_pow_pos width)

theorem T2Rec_timetag (r : Nat) : (T2Rec r).timetag = r % 2 ^ 25 := by
  simp [T2Rec, bitfield_eq_div_mod]

theorem T2Rec_channel (r : Nat) : (T2Rec r).channel = r / 2 ^ 25 % 64 := by
  simp [T2Rec, bitfield_eq_div_mod]

theorem T2Rec_special (r : Nat) : (T2Rec r).special = r / 2 ^ 31 % 2 := by
  simp [T2Rec, bitfield_eq_div_mod]

theorem T3Rec_nsync (r : Nat) : (T3Rec r).nsync = r % 2 ^ 10 := by
  simp [T3Rec, bitfield_eq_div_mod]

theorem T3Rec_dtime (r : Nat) : (T3Rec r).dtime = r / 2 ^ 10 % 2 ^ 15 := by
  simp [T3Rec, bitfield_eq_div_mod]

theorem T3Rec_channel (r : Nat) : (T3Rec r).channel = r / 2 ^ 25 % 64 := by
  simp [T3Rec, bitfield_eq_div_mod]

theorem T3Rec_special (r : Nat) : (T3Rec r).special = r / 2 ^ 31 % 2 := by
  simp [T3Rec, bitfield_eq_div_mod]

/-! ## Case analysis of the record processing -/

theorem add64_mul64 (a c t : Nat) : add64 a (mul64 c t) = (a + c * t) % 2 ^ 64 := by
  simp [add64, mul64, UINT64_RANGE]

theorem add64_eq_iff (a t : Nat) : add64 a t = a + t ↔ a + t < 2 ^ 64 := by
  simp only [add64, UINT64_RANGE]
  constructor
  · intro h
    have := Nat.mod_lt (a + t) (Nat.two_pow_pos 64)
    omega
  · intro h
    exact Nat.mod_eq_of_lt h

theorem wrap64_eq_iff (n : Nat) : n % 2 ^ 64 = n ↔ n < 2 ^ 64 := by
  constructor
  · intro h
    have := Nat.mod_lt n (Nat.two_pow_pos 64)
    omega
  · intro h
    exact Nat.mod_eq_of_lt h

theorem ProcessT2_of_overflow (s : State) (r : Nat)
    (hs : (T2Rec r).special = 1) (hc : (T2Rec r).channel = 63) :
    ProcessT2 s r =
      { s with oflcorrection := add64 s.oflcorrection (mul64 T2WRAPAROUND_V2 (T2Rec r).timetag) } := by
  simp [ProcessT2, hs, hc]

theorem ProcessT2_of_marker (s : State) (r : Nat)
    (hs : (T2Rec r).special = 1) (h1 : 1 ≤ (T2Rec r).channel) (h15 : (T2Rec r).channel ≤ 15) :
    ProcessT2 s r =
      GotMarkerT2 s (add64 s.oflcorrection (T2Rec r).timetag) (T2Rec r).channel := by
  have h63 : ¬ (T2Rec r).channel = 63 := by omega
  have h0 : ¬ (T2Rec r).channel = 0 := by omega
  simp [ProcessT2, hs, h1, h15, h63, h0]

theorem ProcessT2_of_sync (s : State) (r : Nat)
    (hs : (T2Rec r).special = 1) (hc : (T2Rec r).channel = 0) :
    ProcessT2 s r = GotPhotonT2 s (add64 s.oflcorrection (T2Rec r).timetag) 0 := by
  simp [ProcessT2, hs, hc]

theorem ProcessT2_of_reserved (s : State) (r : Nat)
    (hs : (T2Rec r).special = 1) (h16 : 16 ≤ (T2Rec r).channel) (h62 : (T2Rec r).channel ≤ 62) :
    ProcessT2 s r = s := by
  have h63 : ¬ (T2Rec r).channel = 63 := by omega
  have h0 : ¬ (T2Rec r).channel = 0 := by omega
  have h1 : ¬ (T2Rec r).channel ≤ 15 := by omega
  simp [ProcessT2, hs, h63, h0, h1]

theorem ProcessT2_of_regular (s : State) (r : Nat) (hs : (T2Rec r).special = 0) :
    ProcessT2 s r =
      GotPhotonT2 s (add64 s.oflcorrection (T2Rec r).timetag) ((T2Rec r).channel + 1) := by
  simp [ProcessT2, hs]

theorem ProcessT3_of_overflow (s : State) (r : Nat)
    (hs : (T3Rec r).special = 1) (hc : (T3Rec r).channel = 63) :
    ProcessT3 s r =
      { s with oflcorrection := add64 s.oflcorrection (mul64 T3WRAPAROUND (T3Rec r).nsync) } := by
  simp [ProcessT3, hs, hc]

theorem ProcessT3_of_marker (s : State) (r : Nat)
    (hs : (T3Rec r).special = 1) (h1 : 1 ≤ (T3Rec r).channel) (h15 : (T3Rec r).channel ≤ 15) :
    ProcessT3 s r =
      GotMarkerT3 s (add64 s.oflcorrection (T3Rec r).nsync) (T3Rec r).channel := by
  have h63 : ¬ (T3Rec r).channel = 63 := by omega
  simp [ProcessT3, hs, h1, h15, h63]

theorem ProcessT3_of_reserved (s : State) (r : Nat) (hs : (T3Rec r).special = 1)
    (hc : (T3Rec r).channel = 0 ∨ (16 ≤ (T3Rec r).channel ∧ (T3Rec r).channel ≤ 62)) :
    ProcessT3 s r = s := by
  have h63 : ¬ (T3Rec r).channel = 63 := by omega
  have h1 : ¬ (1 ≤ (T3Rec r).channel ∧ (T3Rec r).channel ≤ 15) := by omega
  simp [ProcessT3, hs, h63, h1]

theorem ProcessT3_of_regular (s : State) (r : Nat) (hs : (T3Rec r).special = 0) :
    ProcessT3 s r =
      GotPhotonT3 s (add64 s.oflcorrection (T3Rec r).nsync) ((T3Rec r).channel + 1)
        (T3Rec r).dtime := by
  simp [ProcessT3, hs]

theorem T2Rec_special_cases (r : Nat) : (T2Rec r).special = 0 ∨ (T2Rec r).special = 1 := by
  have := T2Rec_special r
  omega

theorem T2Rec_channel_le (r : Nat) : (T2Rec r).channel ≤ 63 := by
  have := T2Rec_channel r
  omega

theorem T3Rec_special_cases (r : Nat) : (T3Rec r).special = 0 ∨ (T3Rec r).special = 1 := by
  have := T3Rec_special r
  omega

theorem T3Rec_channel_le (r : Nat) : (T3Rec r).channel ≤ 63 := by
  have := T3Rec_channel r
  omega

theorem ProcessT2_oflcorrection (s : State) (r : Nat) :
    (ProcessT2 s r).oflcorrection =
      if (T2Rec r).special = 1 ∧ (T2Rec r).channel = 63 then
        (s.oflcorrection + 33554432 * (T2Rec r).timetag) % 2 ^ 64
      else s.oflcorrection := by
  have hch := T2Rec_channel_le r
  rcases T2Rec_special_cases r with hs | hs
  · rw [ProcessT2_of_regular s r hs]
    simp [hs, GotPhotonT2]
  · by_cases h63 : (T2Rec r).channel = 63
    · rw [ProcessT2_of_overflow s r hs h63, if_pos ⟨hs, h63⟩]
      exact add64_mul64 _ _ _
    · rw [if_neg (fun h => h63 h.2)]
      by_cases h0 : (T2Rec r).channel = 0
      · rw [ProcessT2_of_sync s r hs h0]
        rfl
      · by_cases h15 : (T2Rec r).channel ≤ 15
        · rw [ProcessT2_of_marker s r hs (by omega) h15]
          rfl
        · rw [ProcessT2_of_reserved s r hs (by omega) (by omega)]

theorem ProcessT3_oflcorrection (s : State) (r : Nat) :
    (ProcessT3 s r).oflcorrection =
      if (T3Rec r).special = 1 ∧ (T3Rec r).channel = 63 then
        (s.oflcorrection + 1024 * (T3Rec r).nsync) % 2 ^ 64
      else s.oflcorrection := by
  have hch := T3Rec_channel_le r
  rcases T3Rec_special_cases r with hs | hs
  · rw [ProcessT3_of_regular s r hs]
    simp [hs, GotPhotonT3]
  · by_cases h63 : (T3Rec r).channel = 63
    · rw [ProcessT3_of_overflow s r hs h63, if_pos ⟨hs, h63⟩]
      exact add64_mul64 _ _ _
    · rw [if_neg (fun h => h63 h.2)]
      by_cases h15 : 1 ≤ (T3Rec r).channel ∧ (T3Rec r).channel ≤ 15
      · rw [ProcessT3_of_marker s r hs h15.1 h15.2]
        rfl
      · rw [ProcessT3_of_reserved s r hs (by omega)]

/-- C1: for every 32-bit raw record `r`, the T2 view has `timetag = r mod 2^25`,
`channel = (r div 2^25) mod 64` and `special = r div 2^31`; the fields are below
`2^25`, at most 63 and at most 1, and `r` is recovered as
`timetag + 2^25 * channel + 2^31 * special`. -/
theorem T2Rec_decode (r : Nat) (hr : r < UINT32_RANGE) :
    (T2Rec r).timetag = r % 2 ^ 25 ∧
    (T2Rec r).channel = r / 2 ^ 25 % 64 ∧
    (T2Rec r).special = r / 2 ^ 31 ∧
    (T2Rec r).timetag < 2 ^ 25 ∧
    (T2Rec r).channel ≤ 63 ∧
    (T2Rec r).special ≤ 1 ∧
    r = (T2Rec r).timetag + 2 ^ 25 * (T2Rec r).channel + 2 ^ 31 * (T2Rec r).special := by
  simp only [UINT32_RANGE] at hr
  rw [T2Rec_timetag, T2Rec_channel, T2Rec_special]
  omega

theorem T2Rec_decode_witness :
    (T2Rec 0xFE000002).timetag = 0xFE000002 % 2 ^ 25 ∧
    (T2Rec 0xFE000002).channel = 0xFE000002 / 2 ^ 25 % 64 ∧
    (T2Rec 0xFE000002).special = 0xFE000002 / 2 ^ 31 ∧
    (T2Rec 0xFE000002).timetag < 2 ^ 25 ∧
    (T2Rec 0xFE000002).channel ≤ 63 ∧
    (T2Rec 0xFE000002).special ≤ 1 ∧
    0xFE000002 = (T2Rec 0xFE000002).timetag + 2 ^ 25 * (T2Rec 0xFE000002).channel
      + 2 ^ 31 * (T2Rec 0xFE000002).special :=
  T2Rec_decode 0xFE000002 (by decide)

/-- C2: for every 32-bit raw record `r`, the T3 view has `nsync = r mod 2^10`,
`dtime = (r div 2^10) mod 2^15`, `channel = (r div 2^25) mod 64` and
`special = r div 2^31`; the fields are below 1024, below 32768, at most 63 and at
most 1, and `r` is recovered as
`nsync + 2^10 * dtime + 2^25 * channel + 2^31 * special`. -/
theorem T3Rec_decode (r : Nat) (hr : r < UINT32_RANGE) :
    (T3Rec r).nsync = r % 2 ^ 10 ∧
    (T3Rec r).dtime = r / 2 ^ 10 % 2 ^ 15 ∧
    (T3Rec r).channel = r / 2 ^ 25 % 64 ∧
    (T3Rec r).special = r / 2 ^ 31 ∧
    (T3Rec r).nsync < 1024 ∧
    (T3Rec r).dtime < 32768 ∧
    (T3Rec r).channel ≤ 63 ∧
    (T3Rec r).special ≤ 1 ∧
    r = (T3Rec r).nsync + 2 ^ 10 * (T3Rec r).dtime + 2 ^ 25 * (T3Rec r).channel
      + 2 ^ 31 * (T3Rec r).special := by
  simp only [UINT32_RANGE] at hr
  rw [T3Rec_nsync, T3Rec_dtime, T3Rec_channel, T3Rec_special]
  omega

theorem T3Rec_decode_witness :
    (T3Rec 0x86001403).nsync = 0x86001403 % 2 ^ 10 ∧
    (T3Rec 0x86001403).dtime = 0x86001403 / 2 ^ 10 % 2 ^ 15 ∧
    (T3Rec 0x86001403).channel = 0x86001403 / 2 ^ 25 % 64 ∧
    (T3Rec 0x86001403).special = 0x86001403 / 2 ^ 31 ∧
    (T3Rec 0x86001403).nsync < 1024 ∧
    (T3Rec 0x86001403).dtime < 32768 ∧
    (T3Rec 0x86001403).channel ≤ 63 ∧
    (T3Rec 0x86001403).special ≤ 1 ∧
    0x86001403 = (T3Rec 0x86001403).nsync + 2 ^ 10 * (T3Rec 0x86001403).dtime
      + 2 ^ 25 * (T3Rec 0x86001403).channel + 2 ^ 31 * (T3Rec 0x86001403).special :=
  T3Rec_decode 0x86001403 (by decide)

/-! ## Overflow records -/

/-- C3 (as amended): for every accumulator value `a` and every T2 record with
`special = 1` and `channel = 63`, `ProcessT2` invokes no callback and leaves the
accumulator equal to `(a + 33554432 * timetag) mod 2^64`; that is `a + 33554432 * timetag`
exactly when this sum is below `2^64`. -/
theorem ProcessT2_overflow_record (s : State) (r : Nat)
    (hs : (T2Rec r).special = 1) (hc : (T2Rec r).channel = 63) :
    (ProcessT2 s r).events = s.events ∧
    (ProcessT2 s r).oflcorrection = (s.oflcorrection + 33554432 * (T2Rec r).timetag) % 2 ^ 64 ∧
    ((ProcessT2 s r).oflcorrection = s.oflcorrection + 33554432 * (T2Rec r).timetag ↔
      s.oflcorrection + 33554432 * (T2Rec r).timetag < 2 ^ 64) := by
  rw [ProcessT2_of_overflow s r hs hc]
  have e := add64_mul64 s.oflcorrection T2WRAPAROUND_V2 (T2Rec r).timetag
  simp only [T2WRAPAROUND_V2] at e
  refine ⟨rfl, e, ?_⟩
  show add64 s.oflcorrection (mul64 33554432 (T2Rec r).timetag) = _ ↔ _
  rw [e]
  exact wrap64_eq_iff _

/-- C3, witness: the overflow record `0xFE000002` (count 2) from accumulator 7. -/
theorem ProcessT2_overflow_record_witness :
    ((T2Rec 0xFE000002).special = 1 ∧ (T2Rec 0xFE000002).channel = 63) ∧
    (ProcessT2 ⟨7, []⟩ 0xFE000002).events = [] ∧
    (ProcessT2 ⟨7, []⟩ 0xFE000002).oflcorrection
      = (7 + 33554432 * (T2Rec 0xFE000002).timetag) % 2 ^ 64 ∧
    ((ProcessT2 ⟨7, []⟩ 0xFE000002).oflcorrection = 7 + 33554432 * (T2Rec 0xFE000002).timetag ↔
      7 + 33554432 * (T2Rec 0xFE000002).timetag < 2 ^ 64) :=
  ⟨by decide, ProcessT2_overflow_record ⟨7, []⟩ 0xFE000002 (by decide) (by decide)⟩

/-- C3, counterexample: from the accumulator `2^64 - 2^25` the T2 overflow record
`0xFE000001` (count 1) leaves the accumulator at 0, not at `a + 33554432 * 1 = 2^64`. -/
theorem ProcessT2_overflow_record_wraps :
    (T2Rec 0xFE000001).special = 1 ∧ (T2Rec 0xFE000001).channel = 63 ∧
    (T2Rec 0xFE000001).timetag = 1 ∧
    (ProcessT2 ⟨2 ^ 64 - 2 ^ 25, []⟩ 0xFE000001).oflcorrection = 0 ∧
    (ProcessT2 ⟨2 ^ 64 - 2 ^ 25, []⟩ 0xFE000001).oflcorrection
      ≠ (2 ^ 64 - 2 ^ 25) + 33554432 * (T2Rec 0xFE000001).timetag := by
  decide

/-- C4 (as amended): for every accumulator value `a` and every T3 record with
`special = 1` and `channel = 63`, `ProcessT3` invokes no callback and leaves the
accumulator equal to `(a + 1024 * nsync) mod 2^64`; that is `a + 1024 * nsync` exactly
when this sum is below `2^64`. -/
theorem ProcessT3_overflow_record (s : State) (r : Nat)
    (hs : (T3Rec r).special = 1) (hc : (T3Rec r).channel = 63) :
    (ProcessT3 s r).events = s.events ∧
    (ProcessT3 s r).oflcorrection = (s.oflcorrection + 1024 * (T3Rec r).nsync) % 2 ^ 64 ∧
    ((ProcessT3 s r).oflcorrection = s.oflcorrection + 1024 * (T3Rec r).nsync ↔
      s.oflcorrection + 1024 * (T3Rec r).nsync < 2 ^ 64) := by
  rw [ProcessT3_of_overflow s r hs hc]
  have e := add64_mul64 s.oflcorrection T3WRAPAROUND (T3Rec r).nsync
  simp only [T3WRAPAROUND] at e
  refine ⟨rfl, e, ?_⟩
  show add64 s.oflcorrection (mul64 1024 (T3Rec r).nsync) = _ ↔ _
  rw [e]
  exact wrap64_eq_iff _

/-- C4, witness: the overflow record `0xFE000003` (count 3) from accumulator 2048. -/
theorem ProcessT3_overflow_record_witness :
    ((T3Rec 0xFE000003).special = 1 ∧ (T3Rec 0xFE000003).channel = 63) ∧
    (ProcessT3 ⟨2048, []⟩ 0xFE000003).events = [] ∧
    (ProcessT3 ⟨2048, []⟩ 0xFE000003).oflcorrection
      = (2048 + 1024 * (T3Rec 0xFE000003).nsync) % 2 ^ 64 ∧
    ((ProcessT3 ⟨2048, []⟩ 0xFE000003).oflcorrection
        = 2048 + 1024 * (T3Rec 0xFE000003).nsync ↔
      2048 + 1024 * (T3Rec 0xFE000003).nsync < 2 ^ 64) :=
  ⟨by decide, ProcessT3_overflow_record ⟨2048, []⟩ 0xFE000003 (by decide) (by decide)⟩

/-- C4, counterexample: from the accumulator `2^64 - 1024` the T3 overflow record
`0xFE000001` (count 1) leaves the accumulator at 0, not at `a + 1024 * 1 = 2^64`. -/
theorem ProcessT3_overflow_record_wraps :
    (T3Rec 0xFE000001).special = 1 ∧ (T3Rec 0xFE000001).channel = 63 ∧
    (T3Rec 0xFE000001).nsync = 1 ∧
    (ProcessT3 ⟨2 ^ 64 - 1024, []⟩ 0xFE000001).oflcorrection = 0 ∧
    (ProcessT3 ⟨2 ^ 64 - 1024, []⟩ 0xFE000001).oflcorrection
      ≠ (2 ^ 64 - 1024) + 1024 * (T3Rec 0xFE000001).nsync := by
  decide

/-! ## Regular input channels -/

/-- A T2 record with `special = 0` makes `ProcessT2` invoke `GotPhotonT2` once, with time
`(a + timetag) mod 2^64` (which is `a + timetag` whenever `a + timetag < 2^64`) and channel
`raw channel + 1`, a value in `1..64`, and leaves the accumulator `a` unchanged. -/
theorem ProcessT2_regular_record (s : State) (r : Nat) (hs : (T2Rec r).special = 0) :
    (ProcessT2 s r).events
      = s.events ++ [Event.photonT2 ((s.oflcorrection + (T2Rec r).timetag) % 2 ^ 64)
          ((T2Rec r).channel + 1)] ∧
    (s.oflcorrection + (T2Rec r).timetag < 2 ^ 64 →
      (ProcessT2 s r).events
        = s.events ++ [Event.photonT2 (s.oflcorrection + (T2Rec r).timetag)
            ((T2Rec r).channel + 1)]) ∧
    1 ≤ (T2Rec r).channel + 1 ∧ (T2Rec r).channel + 1 ≤ 64 ∧
    (ProcessT2 s r).oflcorrection = s.oflcorrection := by
  have hch := T2Rec_channel_le r
  rw [ProcessT2_of_regular s r hs]
  refine ⟨rfl, fun h => ?_, by omega, by omega, rfl⟩
  rw [(add64_eq_iff _ _).2 h]
  rfl

/-- A T3 record with `special = 0` makes `ProcessT3` invoke `GotPhotonT3` once, with sync
index `(a + nsync) mod 2^64` (which is `a + nsync` whenever `a + nsync < 2^64`), channel
`raw channel + 1` and delay equal to the raw `dtime` field, and leaves the accumulator `a`
unchanged. -/
theorem ProcessT3_regular_record (s : State) (r : Nat) (hs : (T3Rec r).special = 0) :
    (ProcessT3 s r).events
      = s.events ++ [Event.photonT3 ((s.oflcorrection + (T3Rec r).nsync) % 2 ^ 64)
          ((T3Rec r).channel + 1) (T3Rec r).dtime] ∧
    (s.oflcorrection + (T3Rec r).nsync < 2 ^ 64 →
      (ProcessT3 s r).events
        = s.events ++ [Event.photonT3 (s.oflcorrection + (T3Rec r).nsync)
            ((T3Rec r).channel + 1) (T3Rec r).dtime]) ∧
    (ProcessT3 s r).oflcorrection = s.oflcorrection := by
  rw [ProcessT3_of_regular s r hs]
  refine ⟨rfl, fun h => ?_, rfl⟩
  rw [(add64_eq_iff _ _).2 h]
  rfl

/-! ## Marker and sync records -/

/-- A T2 record with `special = 1` and `1 <= channel <= 15` makes `ProcessT2` invoke
`GotMarkerT2` once, with the raw channel value as bitfield and time
`(a + timetag) mod 2^64` (which is `a + timetag` whenever `a + timetag < 2^64`), and
leaves the accumulator `a` unchanged. -/
theorem ProcessT2_marker_record (s : State) (r : Nat) (hs : (T2Rec r).special = 1)
    (h1 : 1 ≤ (T2Rec r).channel) (h15 : (T2Rec r).channel ≤ 15) :
    (ProcessT2 s r).events
      = s.events ++ [Event.markerT2 ((s.oflcorrection + (T2Rec r).timetag) % 2 ^ 64)
          (T2Rec r).channel] ∧
    (s.oflcorrection + (T2Rec r).timetag < 2 ^ 64 →
      (ProcessT2 s r).events
        = s.events ++ [Event.markerT2 (s.oflcorrection + (T2Rec r).timetag)
            (T2Rec r).channel]) ∧
    (ProcessT2 s r).oflcorrection = s.oflcorrection := by
  rw [ProcessT2_of_marker s r hs h1 h15]
  refine ⟨rfl, fun h => ?_, rfl⟩
  rw [(add64_eq_iff _ _).2 h]
  rfl

/-- A T3 record with `special = 1` and `1 <= channel <= 15` makes `ProcessT3` invoke
`GotMarkerT3` once, with the raw channel value as bitfield and time
`(a + nsync) mod 2^64` (which is `a + nsync` whenever `a + nsync < 2^64`), and leaves the
accumulator `a` unchanged. -/
theorem ProcessT3_marker_record (s : State) (r : Nat) (hs : (T3Rec r).special = 1)
    (h1 : 1 ≤ (T3Rec r).channel) (h15 : (T3Rec r).channel ≤ 15) :
    (ProcessT3 s r).events
      = s.events ++ [Event.markerT3 ((s.oflcorrection + (T3Rec r).nsync) % 2 ^ 64)
          (T3Rec r).channel] ∧
    (s.oflcorrection + (T3Rec r).nsync < 2 ^ 64 →
      (ProcessT3 s r).events
        = s.events ++ [Event.markerT3 (s.oflcorrection + (T3Rec r).nsync)
            (T3Rec r).channel]) ∧
    (ProcessT3 s r).oflcorrection = s.oflcorrection := by
  rw [ProcessT3_of_marker s r hs h1 h15]
  refine ⟨rfl, fun h => ?_, rfl⟩
  rw [(add64_eq_iff _ _).2 h]
  rfl

/-- A T2 record with `special = 1` and `channel = 0` makes `ProcessT2` invoke
`GotPhotonT2` once, on channel 0 with time `(a + timetag) mod 2^64` (which is
`a + timetag` whenever `a + timetag < 2^64`), and leaves the accumulator `a` unchanged;
and whenever `ProcessT2` reports a photon, its channel is 0 if and only if the record has
`special = 1` and `channel = 0`. -/
theorem ProcessT2_sync_record (s : State) (r : Nat) :
    ((T2Rec r).special = 1 → (T2Rec r).channel = 0 →
      (ProcessT2 s r).events
        = s.events ++ [Event.photonT2 ((s.oflcorrection + (T2Rec r).timetag) % 2 ^ 64) 0] ∧
      (s.oflcorrection + (T2Rec r).timetag < 2 ^ 64 →
        (ProcessT2 s r).events
          = s.events ++ [Event.photonT2 (s.oflcorrection + (T2Rec r).timetag) 0]) ∧
      (ProcessT2 s r).oflcorrection = s.oflcorrection) ∧
    (∀ t ch, (ProcessT2 s r).events = s.events ++ [Event.photonT2 t ch] →
      (ch = 0 ↔ (T2Rec r).special = 1 ∧ (T2Rec r).channel = 0)) := by
  have hch := T2Rec_channel_le r
  constructor
  · intro hs hc
    rw [ProcessT2_of_sync s r hs hc]
    refine ⟨rfl, fun h => ?_, rfl⟩
    rw [(add64_eq_iff _ _).2 h]
    rfl
  · intro t ch h
    rcases T2Rec_special_cases r with hs | hs
    · rw [ProcessT2_of_regular s r hs] at h
      simp [GotPhotonT2] at h
      omega
    · by_cases h63 : (T2Rec r).channel = 63
      · rw [ProcessT2_of_overflow s r hs h63] at h
        simp at h
      · by_cases h0 : (T2Rec r).channel = 0
        · rw [ProcessT2_of_sync s r hs h0] at h
          simp [GotPhotonT2] at h
          omega
        · by_cases h15 : (T2Rec r).channel ≤ 15
          · rw [ProcessT2_of_marker s r hs (by omega) h15] at h
            simp [GotMarkerT2] at h
          · rw [ProcessT2_of_reserved s r hs (by omega) (by omega)] at h
            simp at h

/-! ## The overflow accumulator -/

/-- C10 (as amended): for every accumulator value and every record, in T2 mode and in
T3 mode, the accumulator after processing the record differs from the value before only
if the record is an overflow record (`special = 1` and `channel = 63`), and it is greater
than or equal to the value before unless the record is an overflow record whose
increment carries the 64-bit accumulator to `2^64` or beyond (where it wraps around). -/
theorem oflcorrection_monotone (s : State) (r : Nat) :
    (((ProcessT2 s r).oflcorrection ≠ s.oflcorrection →
        (T2Rec r).special = 1 ∧ (T2Rec r).channel = 63) ∧
      (((T2Rec r).special = 1 → (T2Rec r).channel = 63 →
          s.oflcorrection + 33554432 * (T2Rec r).timetag < 2 ^ 64) →
        s.oflcorrection ≤ (ProcessT2 s r).oflcorrection)) ∧
    (((ProcessT3 s r).oflcorrection ≠ s.oflcorrection →
        (T3Rec r).special = 1 ∧ (T3Rec r).channel = 63) ∧
      (((T3Rec r).special = 1 → (T3Rec r).channel = 63 →
          s.oflcorrection + 1024 * (T3Rec r).nsync < 2 ^ 64) →
        s.oflcorrection ≤ (ProcessT3 s r).oflcorrection)) := by
  rw [ProcessT2_oflcorrection, ProcessT3_oflcorrection]
  refine ⟨⟨?_, ?_⟩, ⟨?_, ?_⟩⟩
  · intro h
    by_contra hn
    exact h (if_neg hn)
  · intro h
    split
    · rename_i hov
      rw [Nat.mod_eq_of_lt (h hov.1 hov.2)]
      exact Nat.le_add_right _ _
    · exact Nat.le_refl _
  · intro h
    by_contra hn
    exact h (if_neg hn)
  · intro h
    split
    · rename_i hov
      rw [Nat.mod_eq_of_lt (h hov.1 hov.2)]
      exact Nat.le_add_right _ _
    · exact Nat.le_refl _

/-- C10, witness: the overflow record `0xFE000002` (count 2) from accumulator `2^63`
changes the accumulator in both modes, without wraparound, and does not decrease it. -/
theorem oflcorrection_monotone_witness :
    ((ProcessT2 ⟨2 ^ 63, []⟩ 0xFE000002).oflcorrection ≠ 2 ^ 63 ∧
      ((T2Rec 0xFE000002).special = 1 ∧ (T2Rec 0xFE000002).channel = 63) ∧
      2 ^ 63 + 33554432 * (T2Rec 0xFE000002).timetag < 2 ^ 64 ∧
      2 ^ 63 ≤ (ProcessT2 ⟨2 ^ 63, []⟩ 0xFE000002).oflcorrection) ∧
    ((ProcessT3 ⟨2 ^ 63, []⟩ 0xFE000002).oflcorrection ≠ 2 ^ 63 ∧
      ((T3Rec 0xFE000002).special = 1 ∧ (T3Rec 0xFE000002).channel = 63) ∧
      2 ^ 63 + 1024 * (T3Rec 0xFE000002).nsync < 2 ^ 64 ∧
      2 ^ 63 ≤ (ProcessT3 ⟨2 ^ 63, []⟩ 0xFE000002).oflcorrection) :=
  ⟨⟨by decide,
      (oflcorrection_monotone ⟨2 ^ 63, []⟩ 0xFE000002).1.1 (by decide),
      by decide,
      (oflcorrection_monotone ⟨2 ^ 63, []⟩ 0xFE000002).1.2 (fun _ _ => by decide)⟩,
    ⟨by decide,
      (oflcorrection_monotone ⟨2 ^ 63, []⟩ 0xFE000002).2.1 (by decide),
      by decide,
      (oflcorrection_monotone ⟨2 ^ 63, []⟩ 0xFE000002).2.2 (fun _ _ => by decide)⟩⟩

/-- C10, counterexample: the overflow record `0xFE000001` (count 1) takes the
accumulator from `2^64 - 2^25` down to 0 in T2 mode, and from `2^64 - 1024` down to 0
in T3 mode. -/
theorem oflcorrection_decreases :
    ((T2Rec 0xFE000001).special = 1 ∧ (T2Rec 0xFE000001).channel = 63 ∧
      ¬ (2 ^ 64 - 2 ^ 25 ≤ (ProcessT2 ⟨2 ^ 64 - 2 ^ 25, []⟩ 0xFE000001).oflcorrection)) ∧
    ((T3Rec 0xFE000001).special = 1 ∧ (T3Rec 0xFE000001).channel = 63 ∧
      ¬ (2 ^ 64 - 1024 ≤ (ProcessT3 ⟨2 ^ 64 - 1024, []⟩ 0xFE000001).oflcorrection)) := by
  decide

/-! ## Streams of overflow records -/

theorem foldl_ProcessT2_overflows (rs : List Nat) (s : State) (hs : s.oflcorrection < 2 ^ 64)
    (h : ∀ r ∈ rs, (T2Rec r).special = 1 ∧ (T2Rec r).channel = 63) :
    (rs.foldl ProcessT2 s).events = s.events ∧
    (rs.foldl ProcessT2 s).oflcorrection
      = (s.oflcorrection + 33554432 * (rs.map fun r => (T2Rec r).timetag).sum) % 2 ^ 64 := by
  induction rs generalizing s with
  | nil =>
    have := (wrap64_eq_iff s.oflcorrection).2 hs
    refine ⟨rfl, ?_⟩
    simp only [List.foldl_nil, List.map_nil, List.sum_nil, Nat.mul_zero, Nat.add_zero]
    exact this.symm
  | cons r rs ih =>
    have hr := h r (List.mem_cons_self r rs)
    have hstep := ProcessT2_oflcorrection s r
    rw [if_pos hr] at hstep
    have hev : (ProcessT2 s r).events = s.events := by
      rw [ProcessT2_of_overflow s r hr.1 hr.2]
    have hlt : (ProcessT2 s r).oflcorrection < 2 ^ 64 := by
      rw [hstep]
      exact Nat.mod_lt _ (Nat.two_pow_pos 64)
    have := ih (ProcessT2 s r) hlt (fun x hx => h x (List.mem_cons_of_mem r hx))
    rw [List.foldl_cons, this.1, this.2, hev, hstep]
    refine ⟨rfl, ?_⟩
    simp only [List.map_cons, List.sum_cons]
    omega

theorem foldl_ProcessT3_overflows (rs : List Nat) (s : State) (hs : s.oflcorrection < 2 ^ 64)
    (h : ∀ r ∈ rs, (T3Rec r).special = 1 ∧ (T3Rec r).channel = 63) :
    (rs.foldl ProcessT3 s).events = s.events ∧
    (rs.foldl ProcessT3 s).oflcorrection
      = (s.oflcorrection + 1024 * (rs.map fun r => (T3Rec r).nsync).sum) % 2 ^ 64 := by
  induction rs generalizing s with
  | nil =>
    have := (wrap64_eq_iff s.oflcorrection).2 hs
    refine ⟨rfl, ?_⟩
    simp only [List.foldl_nil, List.map_nil, List.sum_nil, Nat.mul_zero, Nat.add_zero]
    exact this.symm
  | cons r rs ih =>
    have hr := h r (List.mem_cons_self r rs)
    have hstep := ProcessT3_oflcorrection s r
    rw [if_pos hr] at hstep
    have hev : (ProcessT3 s r).events = s.events := by
      rw [ProcessT3_of_overflow s r hr.1 hr.2]
    have hlt : (ProcessT3 s r).oflcorrection < 2 ^ 64 := by
      rw [hstep]
      exact Nat.mod_lt _ (Nat.two_pow_pos 64)
    have := ih (ProcessT3 s r) hlt (fun x hx => h x (List.mem_cons_of_mem r hx))
    rw [List.foldl_cons, this.1, this.2, hev, hstep]
    refine ⟨rfl, ?_⟩
    simp only [List.map_cons, List.sum_cons]
    omega

theorem sum_map_of_const (f : Nat → Nat) (c : Nat) (rs : List Nat) (h : ∀ r ∈ rs, f r = c) :
    (rs.map f).sum = rs.length * c := by
  induction rs with
  | nil => simp
  | cons r rs ih =>
    rw [List.map_cons, List.sum_cons, List.length_cons, h r (List.mem_cons_self r rs),
      ih (fun x hx => h x (List.mem_cons_of_mem r hx))]
    ring

/-- C11 (as amended): for every stream `rs` of `k` overflow records whose count field is
1, processed from a zero accumulator, no callback is invoked and the accumulator ends at
`(k * 33554432) mod 2^64` in T2 mode, which is exactly `k * 33554432` for `k < 2^39`, and
at `(k * 1024) mod 2^64` in T3 mode, which is exactly `k * 1024` for `k < 2^54`. -/
theorem overflow_stream_accumulator (rs : List Nat) :
    ((∀ r ∈ rs, (T2Rec r).special = 1 ∧ (T2Rec r).channel = 63 ∧ (T2Rec r).timetag = 1) →
      (ProcessRecords MeasMode.MODE_T2 State.zero rs).events = [] ∧
      (ProcessRecords MeasMode.MODE_T2 State.zero rs).oflcorrection
        = (rs.length * 33554432) % 2 ^ 64 ∧
      (rs.length < 2 ^ 39 →
        (ProcessRecords MeasMode.MODE_T2 State.zero rs).oflcorrection
          = rs.length * 33554432)) ∧
    ((∀ r ∈ rs, (T3Rec r).special = 1 ∧ (T3Rec r).channel = 63 ∧ (T3Rec r).nsync = 1) →
      (ProcessRecords MeasMode.MODE_T3 State.zero rs).events = [] ∧
      (ProcessRecords MeasMode.MODE_T3 State.zero rs).oflcorrection
        = (rs.length * 1024) % 2 ^ 64 ∧
      (rs.length < 2 ^ 54 →
        (ProcessRecords MeasMode.MODE_T3 State.zero rs).oflcorrection
          = rs.length * 1024)) := by
  constructor
  · intro h
    have hz : State.zero.oflcorrection < 2 ^ 64 := by decide
    have key := foldl_ProcessT2_overflows rs State.zero hz (fun r hr => ⟨(h r hr).1, (h r hr).2.1⟩)
    have hsum := sum_map_of_const (fun r => (T2Rec r).timetag) 1 rs (fun r hr => (h r hr).2.2)
    rw [hsum] at key
    have e : State.zero.oflcorrection + 33554432 * (rs.length * 1) = rs.length * 33554432 := by
      simp [State.zero]; ring
    rw [e] at key
    refine ⟨key.1, key.2, fun hk => ?_⟩
    show (rs.foldl ProcessT2 State.zero).oflcorrection = _
    rw [key.2]
    apply Nat.mod_eq_of_lt
    omega
  · intro h
    have hz : State.zero.oflcorrection < 2 ^ 64 := by decide
    have key := foldl_ProcessT3_overflows rs State.zero hz (fun r hr => ⟨(h r hr).1, (h r hr).2.1⟩)
    have hsum := sum_map_of_const (fun r => (T3Rec r).nsync) 1 rs (fun r hr => (h r hr).2.2)
    rw [hsum] at key
    have e : State.zero.oflcorrection + 1024 * (rs.length * 1) = rs.length * 1024 := by
      simp [State.zero]; ring
    rw [e] at key
    refine ⟨key.1, key.2, fun hk => ?_⟩
    show (rs.foldl ProcessT3 State.zero).oflcorrection = _
    rw [key.2]
    apply Nat.mod_eq_of_lt
    omega

/-- C11, witness: three overflow records with count 1, in T2 mode and in T3 mode. -/
theorem overflow_stream_accumulator_witness :
    ((∀ r ∈ [0xFE000001, 0xFE000001, 0xFE000001],
        (T2Rec r).special = 1 ∧ (T2Rec r).channel = 63 ∧ (T2Rec r).timetag = 1) ∧
      (ProcessRecords MeasMode.MODE_T2 State.zero [0xFE000001, 0xFE000001, 0xFE000001]).events
        = [] ∧
      (ProcessRecords MeasMode.MODE_T2 State.zero
          [0xFE000001, 0xFE000001, 0xFE000001]).oflcorrection
        = 3 * 33554432) ∧
    ((∀ r ∈ [0xFE000001, 0xFE003401, 0xFFFFFC01],
        (T3Rec r).special = 1 ∧ (T3Rec r).channel = 63 ∧ (T3Rec r).nsync = 1) ∧
      (ProcessRecords MeasMode.MODE_T3 State.zero [0xFE000001, 0xFE003401, 0xFFFFFC01]).events
        = [] ∧
      (ProcessRecords MeasMode.MODE_T3 State.zero
          [0xFE000001, 0xFE003401, 0xFFFFFC01]).oflcorrection
        = 3 * 1024) :=
  ⟨⟨by decide,
      ((overflow_stream_accumulator [0xFE000001, 0xFE000001, 0xFE000001]).1 (by decide)).1,
      ((overflow_stream_accumulator [0xFE000001, 0xFE000001, 0xFE000001]).1 (by decide)).2.2
        (by decide)⟩,
    ⟨by decide,
      ((overflow_stream_accumulator [0xFE000001, 0xFE003401, 0xFFFFFC01]).2 (by decide)).1,
      ((overflow_stream_accumulator [0xFE000001, 0xFE003401, 0xFFFFFC01]).2 (by decide)).2.2
        (by decide)⟩⟩

/-- C11, counterexample: `2^39` T2 overflow records `0xFE000001` (count 1) leave the
accumulator at 0, not at `2^39 * 33554432 = 2^64`; likewise `2^54` T3 overflow records
leave 0, not `2^54 * 1024`. -/
theorem overflow_stream_accumulator_wraps :
    ((∀ r ∈ List.replicate (2 ^ 39) 0xFE000001,
        (T2Rec r).special = 1 ∧ (T2Rec r).channel = 63 ∧ (T2Rec r).timetag = 1) ∧
      (ProcessRecords MeasMode.MODE_T2 State.zero
          (List.replicate (2 ^ 39) 0xFE000001)).oflcorrection = 0 ∧
      (ProcessRecords MeasMode.MODE_T2 State.zero
          (List.replicate (2 ^ 39) 0xFE000001)).oflcorrection
        ≠ (List.replicate (2 ^ 39) 0xFE000001).length * 33554432) ∧
    ((∀ r ∈ List.replicate (2 ^ 54) 0xFE000001,
        (T3Rec r).special = 1 ∧ (T3Rec r).channel = 63 ∧ (T3Rec r).nsync = 1) ∧
      (ProcessRecords MeasMode.MODE_T3 State.zero
          (List.replicate (2 ^ 54) 0xFE000001)).oflcorrection = 0 ∧
      (ProcessRecords MeasMode.MODE_T3 State.zero
          (List.replicate (2 ^ 54) 0xFE000001)).oflcorrection
        ≠ (List.replicate (2 ^ 54) 0xFE000001).length * 1024) := by
  have hz : State.zero.oflcorrection < 2 ^ 64 := by decide
  have h2 : ∀ r ∈ List.replicate (2 ^ 39) 0xFE000001,
      (T2Rec r).special = 1 ∧ (T2Rec r).channel = 63 ∧ (T2Rec r).timetag = 1 := by
    intro r hr
    rw [List.eq_of_mem_replicate hr]
    decide
  have h3 : ∀ r ∈ List.replicate (2 ^ 54) 0xFE000001,
      (T3Rec r).special = 1 ∧ (T3Rec r).channel = 63 ∧ (T3Rec r).nsync = 1 := by
    intro r hr
    rw [List.eq_of_mem_replicate hr]
    decide
  have k2 := (foldl_ProcessT2_overflows _ State.zero hz
    (fun r hr => ⟨(h2 r hr).1, (h2 r hr).2.1⟩)).2
  rw [sum_map_of_const (fun r => (T2Rec r).timetag) 1 _ (fun r hr => (h2 r hr).2.2),
    List.length_replicate] at k2
  have k3 := (foldl_ProcessT3_overflows _ State.zero hz
    (fun r hr => ⟨(h3 r hr).1, (h3 r hr).2.1⟩)).2
  rw [sum_map_of_const (fun r => (T3Rec r).nsync) 1 _ (fun r hr => (h3 r hr).2.2),
    List.length_replicate] at k3
  have e2 : (ProcessRecords MeasMode.MODE_T2 State.zero
      (List.replicate (2 ^ 39) 0xFE000001)).oflcorrection = 0 := by
    show (List.foldl ProcessT2 State.zero _).oflcorrection = 0
    rw [k2]
    simp [State.zero]
  have e3 : (ProcessRecords MeasMode.MODE_T3 State.zero
      (List.replicate (2 ^ 54) 0xFE000001)).oflcorrection = 0 := by
    show (List.foldl ProcessT3 State.zero _).oflcorrection = 0
    rw [k3]
    simp [State.zero]
  refine ⟨⟨h2, e2, ?_⟩, ⟨h3, e3, ?_⟩⟩
  · rw [e2, List.length_replicate]
    decide
  · rw [e3, List.length_replicate]
    decide

/-! ## Monotonicity of the absolute time -/

/-- Invariant argument behind the monotonicity property, for any record step that adds
`W * count` to the accumulator on overflow records, reports `accumulator + localTime` on
event-producing records, and does nothing else. -/
theorem times_sorted_of_wellFormed (W K : Nat) (hK : 2 ^ 64 = W * K)
    (step : State → Nat → State) (isOverflow isEvent : Nat → Bool) (count localTime : Nat → Nat)
    (hovf : ∀ s r, isOverflow r = true →
      (step s r).events = s.events ∧
      (step s r).oflcorrection = (s.oflcorrection + W * count r) % 2 ^ 64)
    (hev : ∀ s r, isOverflow r = false → isEvent r = true →
      (step s r).oflcorrection = s.oflcorrection ∧
      ∃ e, e.time = (s.oflcorrection + localTime r) % 2 ^ 64 ∧
        (step s r).events = s.events ++ [e])
    (hno : ∀ s r, isOverflow r = false → isEvent r = false → step s r = s)
    (hloc : ∀ r, localTime r < W) :
    ∀ (rs : List Nat) (s : State) (last : Option Nat) (ovf : Bool),
      (∃ C, s.oflcorrection = W * C) →
      s.oflcorrection + W * overflowTotal isOverflow count rs < 2 ^ 64 →
      wellFormedFrom isOverflow isEvent count localTime last ovf rs = true →
      List.Pairwise (fun a b => a ≤ b) (s.events.map Event.time) →
      (∀ t ∈ s.events.map Event.time,
        t ≤ s.oflcorrection + (if ovf = true then 0 else last.getD 0)) →
      last.getD 0 < W →
      List.Pairwise (fun a b => a ≤ b) ((rs.foldl step s).events.map Event.time) := by
  intro rs
  induction rs with
  | nil =>
    intro s last ovf _ _ _ hsorted _ _
    exact hsorted
  | cons r rs ih =>
    intro s last ovf hC hfit hwf hsorted hbound hlast
    obtain ⟨C, hC⟩ := hC
    rw [List.foldl_cons]
    by_cases ho : isOverflow r = true
    · -- overflow record
      obtain ⟨he, ha⟩ := hovf s r ho
      have htot : overflowTotal isOverflow count (r :: rs)
          = count r + overflowTotal isOverflow count rs := by
        simp [overflowTotal, List.filter_cons, ho]
      rw [htot, Nat.mul_add] at hfit
      have hacc : (step s r).oflcorrection = s.oflcorrection + W * count r := by
        rw [ha]
        apply Nat.mod_eq_of_lt
        omega
      simp only [wellFormedFrom, ho, if_true] at hwf
      apply ih (step s r) last (ovf || decide (1 ≤ count r))
      · exact ⟨C + count r, by rw [hacc, hC, Nat.mul_add]⟩
      · rw [hacc]; omega
      · exact hwf
      · rw [he]; exact hsorted
      · intro t ht
        rw [he] at ht
        have hb := hbound t ht
        rw [hacc]
        cases ovf with
        | true =>
          simp only [if_true, Bool.true_or] at hb ⊢
          omega
        | false =>
          simp only [Bool.false_eq_true, if_false, Bool.false_or, decide_eq_true_eq] at hb ⊢
          by_cases hc : 1 ≤ count r
          · have hWc : W ≤ W * count r := Nat.le_mul_of_pos_right W hc
            rw [if_pos hc]
            omega
          · have hc0 : count r = 0 := by omega
            rw [if_neg hc, hc0, Nat.mul_zero]
            omega
      · exact hlast
    · have ho : isOverflow r = false := by simpa using ho
      have htot : overflowTotal isOverflow count (r :: rs)
          = overflowTotal isOverflow count rs := by
        simp [overflowTotal, List.filter_cons, ho]
      rw [htot] at hfit
      by_cases hevr : isEvent r = true
      · -- event-producing record
        obtain ⟨ha, e, het, hee⟩ := hev s r ho hevr
        have hCK : C < K := by
          have h1 : W * C < W * K := by rw [← hK, ← hC]; omega
          exact Nat.lt_of_mul_lt_mul_left h1
        have hW1 : W * C + W ≤ W * K := by
          have := Nat.mul_le_mul_left W (Nat.succ_le_of_lt hCK)
          rwa [Nat.mul_succ] at this
        have hlr := hloc r
        have htime : e.time = s.oflcorrection + localTime r := by
          rw [het]
          apply Nat.mod_eq_of_lt
          omega
        simp only [wellFormedFrom, ho, hevr, if_true, if_false, Bool.false_eq_true,
          Bool.and_eq_true] at hwf
        obtain ⟨hw1, hw2⟩ := hwf
        have hle : ∀ t ∈ s.events.map Event.time, t ≤ s.oflcorrection + localTime r := by
          intro t ht
          have hb := hbound t ht
          cases ovf with
          | true =>
            simp only [if_true] at hb
            omega
          | false =>
            simp only [Bool.false_eq_true, if_false] at hb
            cases last with
            | none =>
              simp only [Option.getD_none] at hb
              omega
            | some l =>
              simp only [Bool.or_false, decide_eq_true_eq] at hw1
              simp only [Option.getD_some] at hb
              omega
        apply ih (step s r) (some (localTime r)) false
        · exact ⟨C, by rw [ha, hC]⟩
        · rw [ha]; exact hfit
        · exact hw2
        · rw [hee, List.map_append, List.pairwise_append]
          refine ⟨hsorted, by simp, ?_⟩
          intro a ha1 b hb1
          simp only [List.map_cons, List.map_nil, List.mem_singleton] at hb1
          rw [hb1, htime]
          exact hle a ha1
        · intro t ht
          rw [hee, List.map_append, List.mem_append] at ht
          rw [ha]
          simp only [Bool.false_eq_true, if_false, Option.getD_some]
          rcases ht with ht | ht
          · exact hle t ht
          · simp only [List.map_cons, List.map_nil, List.mem_singleton] at ht
            rw [ht, htime]
        · simpa using hloc r
      · -- any other record
        have hevr : isEvent r = false := by simpa using hevr
        rw [hno s r ho hevr]
        simp only [wellFormedFrom, ho, hevr, if_false, Bool.false_eq_true] at hwf
        exact ih s last ovf ⟨C, hC⟩ hfit hwf hsorted hbound hlast

theorem ProcessT2_step_overflow (s : State) (r : Nat) (h : isOverflowT2 r = true) :
    (ProcessT2 s r).events = s.events ∧
    (ProcessT2 s r).oflcorrection
      = (s.oflcorrection + 33554432 * (T2Rec r).timetag) % 2 ^ 64 := by
  have h1 : (T2Rec r).special = 1 ∧ (T2Rec r).channel = 63 := of_decide_eq_true h
  exact ⟨by rw [ProcessT2_of_overflow s r h1.1 h1.2], by rw [ProcessT2_oflcorrection, if_pos h1]⟩

theorem ProcessT2_step_event (s : State) (r : Nat) (ho : isOverflowT2 r = false)
    (he : isEventT2 r = true) :
    (ProcessT2 s r).oflcorrection = s.oflcorrection ∧
    ∃ e, e.time = (s.oflcorrection + (T2Rec r).timetag) % 2 ^ 64 ∧
      (ProcessT2 s r).events = s.events ++ [e] := by
  have h1 : ¬ ((T2Rec r).special = 1 ∧ (T2Rec r).channel = 63) := of_decide_eq_false ho
  have h2 : (T2Rec r).special = 0 ∨ (T2Rec r).channel ≤ 15 := of_decide_eq_true he
  refine ⟨by rw [ProcessT2_oflcorrection, if_neg h1], ?_⟩
  rcases T2Rec_special_cases r with hs | hs
  · exact ⟨Event.photonT2 (add64 s.oflcorrection (T2Rec r).timetag) ((T2Rec r).channel + 1),
      rfl, by rw [ProcessT2_of_regular s r hs]; rfl⟩
  · have h15 : (T2Rec r).channel ≤ 15 := by omega
    by_cases h0 : (T2Rec r).channel = 0
    · exact ⟨Event.photonT2 (add64 s.oflcorrection (T2Rec r).timetag) 0,
        rfl, by rw [ProcessT2_of_sync s r hs h0]; rfl⟩
    · exact ⟨Event.markerT2 (add64 s.oflcorrection (T2Rec r).timetag) (T2Rec r).channel,
        rfl, by rw [ProcessT2_of_marker s r hs (by omega) h15]; rfl⟩

theorem ProcessT2_step_other (s : State) (r : Nat) (ho : isOverflowT2 r = false)
    (he : isEventT2 r = false) : ProcessT2 s r = s := by
  have h1 : ¬ ((T2Rec r).special = 1 ∧ (T2Rec r).channel = 63) := of_decide_eq_false ho
  have h2 : ¬ ((T2Rec r).special = 0 ∨ (T2Rec r).channel ≤ 15) := of_decide_eq_false he
  have hch := T2Rec_channel_le r
  rcases T2Rec_special_cases r with hs | hs
  · exact absurd (Or.inl hs) h2
  · exact ProcessT2_of_reserved s r hs (by omega) (by omega)

theorem ProcessT3_step_overflow (s : State) (r : Nat) (h : isOverflowT3 r = true) :
    (ProcessT3 s r).events = s.events ∧
    (ProcessT3 s r).oflcorrection
      = (s.oflcorrection + 1024 * (T3Rec r).nsync) % 2 ^ 64 := by
  have h1 : (T3Rec r).special = 1 ∧ (T3Rec r).channel = 63 := of_decide_eq_true h
  exact ⟨by rw [ProcessT3_of_overflow s r h1.1 h1.2], by rw [ProcessT3_oflcorrection, if_pos h1]⟩

theorem ProcessT3_step_event (s : State) (r : Nat) (ho : isOverflowT3 r = false)
    (he : isEventT3 r = true) :
    (ProcessT3 s r).oflcorrection = s.oflcorrection ∧
    ∃ e, e.time = (s.oflcorrection + (T3Rec r).nsync) % 2 ^ 64 ∧
      (ProcessT3 s r).events = s.events ++ [e] := by
  have h1 : ¬ ((T3Rec r).special = 1 ∧ (T3Rec r).channel = 63) := of_decide_eq_false ho
  have h2 : (T3Rec r).special = 0 ∨ (1 ≤ (T3Rec r).channel ∧ (T3Rec r).channel ≤ 15) :=
    of_decide_eq_true he
  refine ⟨by rw [ProcessT3_oflcorrection, if_neg h1], ?_⟩
  rcases T3Rec_special_cases r with hs | hs
  · exact ⟨Event.photonT3 (add64 s.oflcorrection (T3Rec r).nsync) ((T3Rec r).channel + 1)
      (T3Rec r).dtime, rfl, by rw [ProcessT3_of_regular s r hs]; rfl⟩
  · have h15 : 1 ≤ (T3Rec r).channel ∧ (T3Rec r).channel ≤ 15 := by omega
    exact ⟨Event.markerT3 (add64 s.oflcorrection (T3Rec r).nsync) (T3Rec r).channel,
      rfl, by rw [ProcessT3_of_marker s r hs h15.1 h15.2]; rfl⟩

theorem ProcessT3_step_other (s : State) (r : Nat) (ho : isOverflowT3 r = false)
    (he : isEventT3 r = false) : ProcessT3 s r = s := by
  have h1 : ¬ ((T3Rec r).special = 1 ∧ (T3Rec r).channel = 63) := of_decide_eq_false ho
  have h2 : ¬ ((T3Rec r).special = 0 ∨ (1 ≤ (T3Rec r).channel ∧ (T3Rec r).channel ≤ 15)) :=
    of_decide_eq_false he
  have hch := T3Rec_channel_le r
  rcases T3Rec_special_cases r with hs | hs
  · exact absurd (Or.inl hs) h2
  · exact ProcessT3_of_reserved s r hs (by omega)

theorem T2Rec_timetag_lt (r : Nat) : (T2Rec r).timetag < 33554432 := by
  have := T2Rec_timetag r
  omega

theorem T3Rec_nsync_lt (r : Nat) : (T3Rec r).nsync < 1024 := by
  have := T3Rec_nsync r
  omega

/-- C12 (as amended): for every record stream processed from a zero accumulator that is
well formed (whenever an event-producing record has a smaller local time field than the
previous event-producing record, an overflow record with count at least 1 lies between
the two) and whose overflow counts, times the wraparound constant, sum to less than
`2^64` (the 64-bit accumulator never wraps), the times of the emitted events form a
non-decreasing sequence, in T2 mode and in T3 mode. -/
theorem absolute_time_nondecreasing (rs : List Nat) :
    (wellFormedT2 rs = true →
      33554432 * overflowTotal isOverflowT2 (fun r => (T2Rec r).timetag) rs < 2 ^ 64 →
      List.Pairwise (fun a b => a ≤ b)
        ((ProcessRecords MeasMode.MODE_T2 State.zero rs).events.map Event.time)) ∧
    (wellFormedT3 rs = true →
      1024 * overflowTotal isOverflowT3 (fun r => (T3Rec r).nsync) rs < 2 ^ 64 →
      List.Pairwise (fun a b => a ≤ b)
        ((ProcessRecords MeasMode.MODE_T3 State.zero rs).events.map Event.time)) := by
  constructor
  · intro hwf hfit
    refine times_sorted_of_wellFormed 33554432 (2 ^ 39) (by norm_num) ProcessT2
      isOverflowT2 isEventT2 (fun r => (T2Rec r).timetag) (fun r => (T2Rec r).timetag)
      ProcessT2_step_overflow ProcessT2_step_event ProcessT2_step_other T2Rec_timetag_lt
      rs State.zero none false ⟨0, rfl⟩ ?_ hwf ?_ ?_ ?_
    · simpa [State.zero] using hfit
    · simp [State.zero]
    · simp [State.zero]
    · simp
  · intro hwf hfit
    refine times_sorted_of_wellFormed 1024 (2 ^ 54) (by norm_num) ProcessT3
      isOverflowT3 isEventT3 (fun r => (T3Rec r).nsync) (fun r => (T3Rec r).nsync)
      ProcessT3_step_overflow ProcessT3_step_event ProcessT3_step_other T3Rec_nsync_lt
      rs State.zero none false ⟨0, rfl⟩ ?_ hwf ?_ ?_ ?_
    · simpa [State.zero] using hfit
    · simp [State.zero]
    · simp [State.zero]
    · simp

/-- C12, witness: photon (local time 5), overflow (count 1), photon (local time 3); the
times are `5` and `2^25 + 3` in T2 mode, `5` and `1024 + 3` in T3 mode. -/
theorem absolute_time_nondecreasing_witness :
    (wellFormedT2 [0x00000005, 0xFE000001, 0x00000003] = true ∧
      33554432 * overflowTotal isOverflowT2 (fun r => (T2Rec r).timetag)
        [0x00000005, 0xFE000001, 0x00000003] < 2 ^ 64 ∧
      (ProcessRecords MeasMode.MODE_T2 State.zero
        [0x00000005, 0xFE000001, 0x00000003]).events.map Event.time = [5, 33554435] ∧
      List.Pairwise (fun a b => a ≤ b)
        ((ProcessRecords MeasMode.MODE_T2 State.zero
          [0x00000005, 0xFE000001, 0x00000003]).events.map Event.time)) ∧
    (wellFormedT3 [0x00000005, 0xFE000001, 0x00000003] = true ∧
      1024 * overflowTotal isOverflowT3 (fun r => (T3Rec r).nsync)
        [0x00000005, 0xFE000001, 0x00000003] < 2 ^ 64 ∧
      (ProcessRecords MeasMode.MODE_T3 State.zero
        [0x00000005, 0xFE000001, 0x00000003]).events.map Event.time = [5, 1027] ∧
      List.Pairwise (fun a b => a ≤ b)
        ((ProcessRecords MeasMode.MODE_T3 State.zero
          [0x00000005, 0xFE000001, 0x00000003]).events.map Event.time)) :=
  ⟨⟨by decide, by decide, by decide,
      (absolute_time_nondecreasing [0x00000005, 0xFE000001, 0x00000003]).1
        (by decide) (by decide)⟩,
    ⟨by decide, by decide, by decide,
      (absolute_time_nondecreasing [0x00000005, 0xFE000001, 0x00000003]).2
        (by decide) (by decide)⟩⟩

theorem wellFormedFrom_cons_overflow (isOverflow isEvent : Nat → Bool)
    (count localTime : Nat → Nat) (r : Nat) (ho : isOverflow r = true)
    (rs : List Nat) (last : Option Nat) (ovf : Bool) :
    wellFormedFrom isOverflow isEvent count localTime last ovf (r :: rs)
      = wellFormedFrom isOverflow isEvent count localTime last
          (ovf || decide (1 ≤ count r)) rs := by
  simp only [wellFormedFrom, ho, if_true]

theorem wellFormedFrom_cons_first_event (isOverflow isEvent : Nat → Bool)
    (count localTime : Nat → Nat) (r : Nat) (ho : isOverflow r = false)
    (he : isEvent r = true) (rs : List Nat) (ovf : Bool) :
    wellFormedFrom isOverflow isEvent count localTime none ovf (r :: rs)
      = wellFormedFrom isOverflow isEvent count localTime (some (localTime r)) false rs := by
  simp only [wellFormedFrom, ho, he, if_true, if_false, Bool.false_eq_true, Bool.true_and]

theorem wellFormedFrom_replicate_overflow (isOverflow isEvent : Nat → Bool)
    (count localTime : Nat → Nat) (o : Nat) (ho : isOverflow o = true) (hc : 1 ≤ count o)
    (rest : List Nat) (n : Nat) (last : Option Nat) (ovf : Bool) :
    wellFormedFrom isOverflow isEvent count localTime last ovf
        (List.replicate (n + 1) o ++ rest)
      = wellFormedFrom isOverflow isEvent count localTime last true rest := by
  induction n generalizing ovf with
  | zero =>
    show wellFormedFrom isOverflow isEvent count localTime last ovf (o :: rest) = _
    rw [wellFormedFrom_cons_overflow isOverflow isEvent count localTime o ho]
    simp [hc]
  | succ n ih =>
    show wellFormedFrom isOverflow isEvent count localTime last ovf
      (o :: (List.replicate (n + 1) o ++ rest)) = _
    rw [wellFormedFrom_cons_overflow isOverflow isEvent count localTime o ho]
    exact ih _

theorem State.eq_mk (s : State) (a : Nat) (ev : List Event) (h1 : s.events = ev)
    (h2 : s.oflcorrection = a) : s = { oflcorrection := a, events := ev } := by
  cases s
  simp only at h1 h2
  rw [h1, h2]

/-- C12, counterexample: the well-formed T2 stream made of a photon with local time 5,
16384 overflow records with count `2^25 - 1`, one overflow record with count `2^14` and a
photon with local time 0. The counts sum to `2^39`, the accumulator wraps to 0, and the
two photons are reported at times 5 and 0. -/
theorem absolute_time_decreases :
    wellFormedT2 (0x00000005 :: (List.replicate 16384 0xFFFFFFFF ++ [0xFE004000, 0x00000000]))
      = true ∧
    (ProcessRecords MeasMode.MODE_T2 State.zero
        (0x00000005 :: (List.replicate 16384 0xFFFFFFFF
          ++ [0xFE004000, 0x00000000]))).events.map Event.time = [5, 0] ∧
    ¬ List.Pairwise (fun a b => a ≤ b)
      ((ProcessRecords MeasMode.MODE_T2 State.zero
        (0x00000005 :: (List.replicate 16384 0xFFFFFFFF
          ++ [0xFE004000, 0x00000000]))).events.map Event.time) := by
  have hov : isOverflowT2 0xFFFFFFFF = true := by decide
  have hwf : wellFormedT2 (0x00000005 :: (List.replicate 16384 0xFFFFFFFF
      ++ [0xFE004000, 0x00000000])) = true := by
    have h5o : isOverflowT2 0x00000005 = false := by decide
    have h5e : isEventT2 0x00000005 = true := by decide
    unfold wellFormedT2
    rw [wellFormedFrom_cons_first_event isOverflowT2 isEventT2 _ _ 0x00000005 h5o h5e,
      wellFormedFrom_replicate_overflow isOverflowT2 isEventT2 _ _ 0xFFFFFFFF hov
      (by decide) _ 16383]
    decide
  have hall : ∀ r ∈ List.replicate 16384 0xFFFFFFFF,
      (T2Rec r).special = 1 ∧ (T2Rec r).channel = 63 := by
    intro r hr
    rw [List.eq_of_mem_replicate hr]
    decide
  have hcnt : ∀ r ∈ List.replicate 16384 0xFFFFFFFF, (T2Rec r).timetag = 33554431 := by
    intro r hr
    rw [List.eq_of_mem_replicate hr]
    decide
  have h1 : ProcessT2 State.zero 0x00000005
      = { oflcorrection := 0, events := [Event.photonT2 5 1] } := by decide
  have hmid := foldl_ProcessT2_overflows (List.replicate 16384 0xFFFFFFFF)
    { oflcorrection := 0, events := [Event.photonT2 5 1] } (by decide) hall
  rw [sum_map_of_const (fun r => (T2Rec r).timetag) 33554431 _ hcnt,
    List.length_replicate] at hmid
  have h2 := State.eq_mk _ _ _ hmid.1 hmid.2
  have hrun : ProcessRecords MeasMode.MODE_T2 State.zero
      (0x00000005 :: (List.replicate 16384 0xFFFFFFFF ++ [0xFE004000, 0x00000000]))
      = { oflcorrection := 0, events := [Event.photonT2 5 1, Event.photonT2 0 1] } := by
    show List.foldl ProcessT2 State.zero _ = _
    rw [List.foldl_cons, h1, List.foldl_append, h2]
    decide
  refine ⟨hwf, ?_, ?_⟩
  · rw [hrun]
    rfl
  · rw [hrun]
    decide

/-! ## End-to-end scenario -/

/-- C13: processed from a zero accumulator in T2 mode, the batch made of the overflow
record `0xFE000002` (special 1, channel 63, timetag 2) and the photon record `0x06000064`
(special 0, raw channel 3, timetag 100) invokes exactly one callback, `GotPhotonT2` with
time `2 * 33554432 + 100 = 67108964` and channel 4; with a resolution of 1000 ps that
call writes the line `CH  4    67108964000`. -/
theorem end_to_end_T2_scenario :
    ((T2Rec 0xFE000002).special = 1 ∧ (T2Rec 0xFE000002).channel = 63 ∧
      (T2Rec 0xFE000002).timetag = 2) ∧
    ((T2Rec 0x06000064).special = 0 ∧ (T2Rec 0x06000064).channel = 3 ∧
      (T2Rec 0x06000064).timetag = 100) ∧
    (ProcessRecords MeasMode.MODE_T2 State.zero [0xFE000002, 0x06000064]).events
      = [Event.photonT2 (2 * 33554432 + 100) 4] ∧
    2 * 33554432 + 100 = 67108964 ∧
    GotPhotonT2_line 1000 (2 * 33554432 + 100) 4 = some "CH  4    67108964000\n" := by
  decide

/-! ## The acquisition loop -/

theorem ProcessRecords_append (Mode : MeasMode) (s : State) (a b : List Nat) :
    ProcessRecords Mode s (a ++ b) = ProcessRecords Mode (ProcessRecords Mode s a) b := by
  cases Mode <;> simp [ProcessRecords, List.foldl_append]

theorem ProcessRecords_nil (Mode : MeasMode) (s : State) : ProcessRecords Mode s [] = s := by
  cases Mode <;> rfl

theorem batchesRead_append (a b : List DeviceCall) :
    batchesRead (a ++ b) = batchesRead a ++ batchesRead b := by
  induction a with
  | nil => rfl
  | cons c cs ih => cases c <;> simp [batchesRead, ih]

/-- A pass that stays in the loop has read and processed exactly its batch; a pass that
leaves the loop has processed nothing. -/
theorem loopBody_spec (FLAG_FIFOFULL : Nat) (Mode : MeasMode) (m : MainState) (p : Poll) :
    ((loopBody FLAG_FIFOFULL Mode m p).2 = none →
      batchesRead (loopBody FLAG_FIFOFULL Mode m p).1.calls = batchesRead m.calls ++ p.buffer ∧
      (loopBody FLAG_FIFOFULL Mode m p).1.decode = ProcessRecords Mode m.decode p.buffer) ∧
    ((loopBody FLAG_FIFOFULL Mode m p).2 ≠ none →
      batchesRead (loopBody FLAG_FIFOFULL Mode m p).1.calls = batchesRead m.calls ∧
      (loopBody FLAG_FIFOFULL Mode m p).1.decode = m.decode) := by
  unfold loopBody
  by_cases h1 : p.flagsRet < 0
  · simp [h1, batchesRead_append, batchesRead]
  · by_cases h2 : p.flags &&& FLAG_FIFOFULL ≠ 0
    · simp [h1, h2, batchesRead_append, batchesRead]
    · by_cases h3 : p.readRet < 0
      · simp [h1, h2, h3, batchesRead_append, batchesRead]
      · by_cases h4 : p.buffer = []
        · by_cases h5 : p.ctcRet < 0
          · simp [h1, h2, h3, h4, h5, batchesRead_append, batchesRead]
          · by_cases h6 : p.ctcstatus ≠ 0
            · by_cases h7 : m.stopretry + 1 > 5
              · simp [h1, h2, h3, h4, h5, h6, h7, batchesRead_append, batchesRead]
              · simp [h1, h2, h3, h4, h5, h6, h7, batchesRead_append, batchesRead,
                  ProcessRecords_nil]
            · simp [h1, h2, h3, h4, h5, h6, batchesRead_append, batchesRead,
                ProcessRecords_nil]
        · simp [h1, h2, h3, h4, batchesRead_append, batchesRead]

theorem acquisitionLoop_cons (FLAG_FIFOFULL : Nat) (Mode : MeasMode) (p : Poll)
    (ps : List Poll) (m : MainState) :
    acquisitionLoop FLAG_FIFOFULL Mode (p :: ps) m
      = if (loopBody FLAG_FIFOFULL Mode m p).2 = none then
          acquisitionLoop FLAG_FIFOFULL Mode ps (loopBody FLAG_FIFOFULL Mode m p).1
        else loopBody FLAG_FIFOFULL Mode m p := by
  rw [acquisitionLoop]
  rcases h : loopBody FLAG_FIFOFULL Mode m p with ⟨m1, l⟩
  cases l <;> simp

theorem acquisitionLoop_append (FLAG_FIFOFULL : Nat) (Mode : MeasMode) (a b : List Poll)
    (m : MainState) :
    acquisitionLoop FLAG_FIFOFULL Mode (a ++ b) m
      = if (acquisitionLoop FLAG_FIFOFULL Mode a m).2 = none then
          acquisitionLoop FLAG_FIFOFULL Mode b (acquisitionLoop FLAG_FIFOFULL Mode a m).1
        else acquisitionLoop FLAG_FIFOFULL Mode a m := by
  induction a generalizing m with
  | nil => simp [acquisitionLoop]
  | cons p ps ih =>
    rw [List.cons_append, acquisitionLoop_cons, acquisitionLoop_cons]
    by_cases h : (loopBody FLAG_FIFOFULL Mode m p).2 = none
    · rw [if_pos h, if_pos h, ih]
    · rw [if_neg h, if_neg h, if_neg h]

/-- What the loop has read and processed after any sequence of device responses: the
batches of the first `n` passes, all of them if the loop is still running. -/
theorem acquisitionLoop_reads (FLAG_FIFOFULL : Nat) (Mode : MeasMode) (rs : List Poll)
    (m : MainState) :
    ∃ n, n ≤ rs.length ∧
      batchesRead (acquisitionLoop FLAG_FIFOFULL Mode rs m).1.calls
        = batchesRead m.calls ++ ((rs.take n).map Poll.buffer).flatten ∧
      (acquisitionLoop FLAG_FIFOFULL Mode rs m).1.decode
        = ProcessRecords Mode m.decode ((rs.take n).map Poll.buffer).flatten ∧
      ((acquisitionLoop FLAG_FIFOFULL Mode rs m).2 = none → n = rs.length) := by
  induction rs generalizing m with
  | nil =>
    exact ⟨0, Nat.le_refl _, by simp [acquisitionLoop], by simp [acquisitionLoop,
      ProcessRecords_nil], fun _ => rfl⟩
  | cons p ps ih =>
    rw [acquisitionLoop_cons]
    have hspec := loopBody_spec FLAG_FIFOFULL Mode m p
    by_cases h : (loopBody FLAG_FIFOFULL Mode m p).2 = none
    · rw [if_pos h]
      obtain ⟨hb, hd⟩ := hspec.1 h
      obtain ⟨n, hn, h1, h2, h3⟩ := ih (loopBody FLAG_FIFOFULL Mode m p).1
      refine ⟨n + 1, by simpa using hn, ?_, ?_, ?_⟩
      · rw [h1, hb]
        simp
      · rw [h2, hd, ← ProcessRecords_append]
        simp
      · intro hnone
        simp [h3 hnone]
    · rw [if_neg h]
      obtain ⟨hb, hd⟩ := hspec.2 h
      exact ⟨0, Nat.zero_le _, by simp [hb], by simp [hd, ProcessRecords_nil],
        fun hnone => absurd hnone h⟩

/-- C18: for every sequence of device responses, the state of the decoder when the loop
stops (or the responses end) is the one obtained by processing the concatenation of all
batches read, record by record, from a zero accumulator, and these batches are the
batches of the passes made, in order, each once. In the draining scenario (status seen
on an empty batch, three non-empty batches, five more empty batches with the status set)
all records of the three batches are processed and the loop leaves through
`stoptttr`. -/
theorem acquisition_loop_dispatch (FLAG_FIFOFULL : Nat) (Mode : MeasMode) :
    (∀ responses : List Poll,
      (acquisitionLoop FLAG_FIFOFULL Mode responses MainState.start).1.decode
        = ProcessRecords Mode State.zero
            (batchesRead (acquisitionLoop FLAG_FIFOFULL Mode responses MainState.start).1.calls) ∧
      ∃ n, n ≤ responses.length ∧
        batchesRead (acquisitionLoop FLAG_FIFOFULL Mode responses MainState.start).1.calls
          = ((responses.take n).map Poll.buffer).flatten ∧
        ((acquisitionLoop FLAG_FIFOFULL Mode responses MainState.start).2 = none →
          n = responses.length)) ∧
    (∀ (b1 b2 b3 : List Nat) (rest : List Poll), b1 ≠ [] → b2 ≠ [] → b3 ≠ [] →
      (acquisitionLoop FLAG_FIFOFULL Mode
          (Poll.drained :: Poll.batch b1 :: Poll.batch b2 :: Poll.batch b3 :: Poll.drained ::
            Poll.drained :: Poll.drained :: Poll.drained :: Poll.drained :: rest)
          MainState.start).2 = some Label.stoptttr ∧
      (acquisitionLoop FLAG_FIFOFULL Mode
          (Poll.drained :: Poll.batch b1 :: Poll.batch b2 :: Poll.batch b3 :: Poll.drained ::
            Poll.drained :: Poll.drained :: Poll.drained :: Poll.drained :: rest)
          MainState.start).1.decode = ProcessRecords Mode State.zero (b1 ++ b2 ++ b3)) := by
  constructor
  · intro responses
    obtain ⟨n, hn, h1, h2, h3⟩ :=
      acquisitionLoop_reads FLAG_FIFOFULL Mode responses MainState.start
    have e : batchesRead MainState.start.calls = [] := rfl
    rw [e, List.nil_append] at h1
    refine ⟨?_, n, hn, h1, h3⟩
    rw [h1, h2]
    rfl
  · intro b1 b2 b3 rest h1 h2 h3
    simp [acquisitionLoop, loopBody, Poll.drained, Poll.batch, MainState.start, h1, h2, h3,
      ProcessRecords_append]

/-- C18, witness: the draining scenario in T2 mode with the batches `[5]` (a photon),
`[0xFE000001]` (an overflow record) and `[3]` (a photon). -/
theorem acquisition_loop_dispatch_witness :
    (([0x00000005] : List Nat) ≠ [] ∧ ([0xFE000001] : List Nat) ≠ [] ∧
      ([0x00000003] : List Nat) ≠ []) ∧
    ((acquisitionLoop 2 MeasMode.MODE_T2
          (Poll.drained :: Poll.batch [0x00000005] :: Poll.batch [0xFE000001] ::
            Poll.batch [0x00000003] :: Poll.drained :: Poll.drained :: Poll.drained ::
            Poll.drained :: Poll.drained :: [])
          MainState.start).2 = some Label.stoptttr ∧
      (acquisitionLoop 2 MeasMode.MODE_T2
          (Poll.drained :: Poll.batch [0x00000005] :: Poll.batch [0xFE000001] ::
            Poll.batch [0x00000003] :: Poll.drained :: Poll.drained :: Poll.drained ::
            Poll.drained :: Poll.drained :: [])
          MainState.start).1.decode
        = ProcessRecords MeasMode.MODE_T2 State.zero
            ([0x00000005] ++ [0xFE000001] ++ [0x00000003])) ∧
    (ProcessRecords MeasMode.MODE_T2 State.zero
        ([0x00000005] ++ [0xFE000001] ++ [0x00000003])).events
      = [Event.photonT2 5 1, Event.photonT2 33554435 1] :=
  ⟨by decide,
    (acquisition_loop_dispatch 2 MeasMode.MODE_T2).2 [0x00000005] [0xFE000001] [0x00000003] []
      (by decide) (by decide) (by decide),
    by decide⟩

/-- C19: in any pass of the loop in which `MH_GetFlags` succeeds and the flags have the
`FLAG_FIFOFULL` bit set, the loop is left through `stoptttr` in that same pass: the only
call made is `MH_GetFlags` (no `MH_ReadFiFo`), the accumulator and everything dispatched
before are untouched, no later response is looked at, and the code at `stoptttr` then
calls `MH_StopMeas` before cleaning up. -/
theorem fifo_overrun_stops (FLAG_FIFOFULL MAXDEVNUM : Nat) (Mode : MeasMode)
    (pre : List Poll) (p : Poll) (rest : List Poll) (m : MainState)
    (hrun : acquisitionLoop FLAG_FIFOFULL Mode pre MainState.start = (m, none))
    (hret : 0 ≤ p.flagsRet) (hfull : p.flags &&& FLAG_FIFOFULL ≠ 0) :
    acquisitionLoop FLAG_FIFOFULL Mode (pre ++ p :: rest) MainState.start
      = ({ m with calls := m.calls ++ [DeviceCall.MH_GetFlags] }, some Label.stoptttr) ∧
    (afterLoop MAXDEVNUM Label.stoptttr
        { m with calls := m.calls ++ [DeviceCall.MH_GetFlags] }).calls
      = m.calls ++ [DeviceCall.MH_GetFlags] ++ [DeviceCall.MH_StopMeas]
        ++ (List.range MAXDEVNUM).map DeviceCall.MH_CloseDevice ++ [DeviceCall.fclose] ∧
    (afterLoop MAXDEVNUM Label.stoptttr
        { m with calls := m.calls ++ [DeviceCall.MH_GetFlags] }).decode = m.decode := by
  refine ⟨?_, rfl, rfl⟩
  rw [acquisitionLoop_append, hrun, if_pos rfl, acquisitionLoop_cons]
  have hb : loopBody FLAG_FIFOFULL Mode m p
      = ({ m with calls := m.calls ++ [DeviceCall.MH_GetFlags] }, some Label.stoptttr) := by
    unfold loopBody
    have h1 : ¬ p.flagsRet < 0 := by omega
    simp [h1, hfull]
  rw [hb]
  simp

/-- C19, witness: after one pass that processed the batch `[5]`, a pass whose flags are
`2 = FLAG_FIFOFULL` leaves the loop at once although a batch `[7]` was waiting. -/
theorem fifo_overrun_stops_witness :
    (acquisitionLoop 2 MeasMode.MODE_T2 [Poll.batch [0x00000005]] MainState.start
        = ({ decode := { oflcorrection := 0, events := [Event.photonT2 5 1] }, stopretry := 0,
             Progress := 1,
             calls := [DeviceCall.MH_GetFlags, DeviceCall.MH_ReadFiFo 0 [0x00000005]] }, none) ∧
      (0 : Int) ≤ 0 ∧ 2 &&& 2 ≠ 0) ∧
    acquisitionLoop 2 MeasMode.MODE_T2
        ([Poll.batch [0x00000005]] ++
          { flagsRet := 0, flags := 2, readRet := 0, buffer := [0x00000007], ctcRet := 0,
            ctcstatus := 0 } :: [Poll.batch [0x00000009]])
        MainState.start
      = ({ decode := { oflcorrection := 0, events := [Event.photonT2 5 1] }, stopretry := 0,
           Progress := 1,
           calls := [DeviceCall.MH_GetFlags, DeviceCall.MH_ReadFiFo 0 [0x00000005]]
             ++ [DeviceCall.MH_GetFlags] }, some Label.stoptttr) :=
  ⟨by decide,
    (fifo_overrun_stops 2 8 MeasMode.MODE_T2 [Poll.batch [0x00000005]]
      { flagsRet := 0, flags := 2, readRet := 0, buffer := [0x00000007], ctcRet := 0,
        ctcstatus := 0 } [Poll.batch [0x00000009]]
      { decode := { oflcorrection := 0, events := [Event.photonT2 5 1] }, stopretry := 0,
        Progress := 1,
        calls := [DeviceCall.MH_GetFlags, DeviceCall.MH_ReadFiFo 0 [0x00000005]] }
      (by decide) (by decide) (by decide)).1⟩

/-! ## The retry budget -/

theorem loopBody_clean (FLAG_FIFOFULL : Nat) (Mode : MeasMode) (m : MainState) (p : Poll)
    (hc : Poll.clean FLAG_FIFOFULL p = true) :
    (Poll.idleAtEnd p = true →
      (loopBody FLAG_FIFOFULL Mode m p).1.stopretry = m.stopretry + 1 ∧
      (loopBody FLAG_FIFOFULL Mode m p).2
        = if m.stopretry + 1 > 5 then some Label.stoptttr else none) ∧
    (Poll.idleAtEnd p = false →
      (loopBody FLAG_FIFOFULL Mode m p).1.stopretry = m.stopretry ∧
      (loopBody FLAG_FIFOFULL Mode m p).2 = none) := by
  have hc1 : 0 ≤ p.flagsRet ∧ p.flags &&& FLAG_FIFOFULL = 0 ∧ 0 ≤ p.readRet ∧ 0 ≤ p.ctcRet :=
    of_decide_eq_true hc
  obtain ⟨h1, h2, h3, h4⟩ := hc1
  have h1n : ¬ p.flagsRet < 0 := by omega
  have h3n : ¬ p.readRet < 0 := by omega
  have h4n : ¬ p.ctcRet < 0 := by omega
  constructor
  · intro hi
    have hi1 : p.buffer = [] ∧ p.ctcstatus ≠ 0 := of_decide_eq_true hi
    unfold loopBody
    by_cases h7 : m.stopretry + 1 > 5
    · simp [h1n, h2, h3n, h4n, hi1.1, hi1.2, h7]
    · simp [h1n, h2, h3n, h4n, hi1.1, hi1.2, h7]
  · intro hi
    have hi1 : ¬ (p.buffer = [] ∧ p.ctcstatus ≠ 0) := of_decide_eq_false hi
    unfold loopBody
    by_cases hb : p.buffer = []
    · have hz : p.ctcstatus = 0 := by
        by_contra hne
        exact hi1 ⟨hb, hne⟩
      simp [h1n, h2, h3n, h4n, hb, hz]
    · simp [h1n, h2, h3n, hb]

/-- Over passes without error and without overrun, `stopretry` counts the passes that read
an empty batch and found the end-of-acquisition status set, and the loop keeps running
as long as that count is at most 5. -/
theorem acquisitionLoop_clean (FLAG_FIFOFULL : Nat) (Mode : MeasMode) (rs : List Poll)
    (m : MainState) (hclean : ∀ q ∈ rs, Poll.clean FLAG_FIFOFULL q = true)
    (hle : m.stopretry + (rs.filter Poll.idleAtEnd).length ≤ 5) :
    (acquisitionLoop FLAG_FIFOFULL Mode rs m).2 = none ∧
    (acquisitionLoop FLAG_FIFOFULL Mode rs m).1.stopretry
      = m.stopretry + (rs.filter Poll.idleAtEnd).length := by
  induction rs generalizing m with
  | nil => simp [acquisitionLoop]
  | cons p ps ih =>
    have hp := loopBody_clean FLAG_FIFOFULL Mode m p (hclean p (List.mem_cons_self p ps))
    have hps : ∀ q ∈ ps, Poll.clean FLAG_FIFOFULL q = true :=
      fun q hq => hclean q (List.mem_cons_of_mem p hq)
    rw [acquisitionLoop_cons]
    cases hi : Poll.idleAtEnd p with
    | true =>
      simp only [List.filter_cons, hi, if_true, List.length_cons] at hle ⊢
      obtain ⟨hs, hl⟩ := hp.1 hi
      have h5 : ¬ m.stopretry + 1 > 5 := by omega
      rw [if_neg h5] at hl
      rw [if_pos hl]
      have := ih (loopBody FLAG_FIFOFULL Mode m p).1 hps (by rw [hs]; omega)
      rw [hs] at this
      exact ⟨this.1, by rw [this.2]; omega⟩
    | false =>
      simp only [List.filter_cons, hi, if_false, Bool.false_eq_true] at hle ⊢
      obtain ⟨hs, hl⟩ := hp.2 hi
      rw [if_pos hl]
      have := ih (loopBody FLAG_FIFOFULL Mode m p).1 hps (by rw [hs]; exact hle)
      rw [hs] at this
      exact this

/-- C20 (as amended): over passes without error and without overrun, the loop is still
running as long as at most 5 passes have read an empty batch with the end-of-acquisition
status set (the first observation and up to 4 further ones), and it leaves through
`stoptttr` in the 6th such pass, that is after 5 further empty-batch polls with the
status set; no response after that pass is looked at. -/
theorem drain_retry_budget (FLAG_FIFOFULL : Nat) (Mode : MeasMode) (rs : List Poll) (p : Poll)
    (rest : List Poll) (hclean : ∀ q ∈ rs, Poll.clean FLAG_FIFOFULL q = true)
    (hp : Poll.clean FLAG_FIFOFULL p = true) (hidle : Poll.idleAtEnd p = true) :
    ((rs.filter Poll.idleAtEnd).length ≤ 5 →
      (acquisitionLoop FLAG_FIFOFULL Mode rs MainState.start).2 = none ∧
      (acquisitionLoop FLAG_FIFOFULL Mode rs MainState.start).1.stopretry
        = (rs.filter Poll.idleAtEnd).length) ∧
    ((rs.filter Poll.idleAtEnd).length = 5 →
      (acquisitionLoop FLAG_FIFOFULL Mode (rs ++ p :: rest) MainState.start).2
        = some Label.stoptttr ∧
      (acquisitionLoop FLAG_FIFOFULL Mode (rs ++ p :: rest) MainState.start).1.stopretry = 6 ∧
      acquisitionLoop FLAG_FIFOFULL Mode (rs ++ p :: rest) MainState.start
        = acquisitionLoop FLAG_FIFOFULL Mode (rs ++ [p]) MainState.start) := by
  have h0 : MainState.start.stopretry = 0 := rfl
  constructor
  · intro hle
    have := acquisitionLoop_clean FLAG_FIFOFULL Mode rs MainState.start hclean
      (by rw [h0]; omega)
    rw [h0, Nat.zero_add] at this
    exact this
  · intro h5
    have hrun := acquisitionLoop_clean FLAG_FIFOFULL Mode rs MainState.start hclean
      (by rw [h0]; omega)
    rw [h0, Nat.zero_add, h5] at hrun
    have hb := (loopBody_clean FLAG_FIFOFULL Mode
      (acquisitionLoop FLAG_FIFOFULL Mode rs MainState.start).1 p hp).1 hidle
    rw [hrun.2] at hb
    have hne : (loopBody FLAG_FIFOFULL Mode
        (acquisitionLoop FLAG_FIFOFULL Mode rs MainState.start).1 p).2 ≠ none := by
      rw [hb.2]
      simp
    have hgen : ∀ tail : List Poll,
        acquisitionLoop FLAG_FIFOFULL Mode (rs ++ p :: tail) MainState.start
          = loopBody FLAG_FIFOFULL Mode
              (acquisitionLoop FLAG_FIFOFULL Mode rs MainState.start).1 p := by
      intro tail
      rw [acquisitionLoop_append, if_pos hrun.1, acquisitionLoop_cons, if_neg hne]
    rw [hgen rest, hgen []]
    exact ⟨by rw [hb.2]; rfl, hb.1, rfl⟩

/-- C20, witness: five passes with an empty batch and the status set leave the loop
running; the sixth such pass makes it leave, and a seventh response is not used. -/
theorem drain_retry_budget_witness :
    ((∀ q ∈ [Poll.drained, Poll.drained, Poll.drained, Poll.drained, Poll.drained],
        Poll.clean 2 q = true) ∧
      Poll.clean 2 Poll.drained = true ∧ Poll.idleAtEnd Poll.drained = true ∧
      ([Poll.drained, Poll.drained, Poll.drained, Poll.drained, Poll.drained].filter
        Poll.idleAtEnd).length = 5) ∧
    ((acquisitionLoop 2 MeasMode.MODE_T2
        [Poll.drained, Poll.drained, Poll.drained, Poll.drained, Poll.drained]
        MainState.start).2 = none ∧
      (acquisitionLoop 2 MeasMode.MODE_T2
        [Poll.drained, Poll.drained, Poll.drained, Poll.drained, Poll.drained]
        MainState.start).1.stopretry
        = ([Poll.drained, Poll.drained, Poll.drained, Poll.drained, Poll.drained].filter
            Poll.idleAtEnd).length) ∧
    ((acquisitionLoop 2 MeasMode.MODE_T2
        ([Poll.drained, Poll.drained, Poll.drained, Poll.drained, Poll.drained]
          ++ Poll.drained :: [Poll.drained]) MainState.start).2 = some Label.stoptttr ∧
      (acquisitionLoop 2 MeasMode.MODE_T2
        ([Poll.drained, Poll.drained, Poll.drained, Poll.drained, Poll.drained]
          ++ Poll.drained :: [Poll.drained]) MainState.start).1.stopretry = 6 ∧
      acquisitionLoop 2 MeasMode.MODE_T2
        ([Poll.drained, Poll.drained, Poll.drained, Poll.drained, Poll.drained]
          ++ Poll.drained :: [Poll.drained]) MainState.start
        = acquisitionLoop 2 MeasMode.MODE_T2
          ([Poll.drained, Poll.drained, Poll.drained, Poll.drained, Poll.drained]
            ++ [Poll.drained]) MainState.start) :=
  ⟨by decide,
    (drain_retry_budget 2 MeasMode.MODE_T2
      [Poll.drained, Poll.drained, Poll.drained, Poll.drained, Poll.drained] Poll.drained
      [Poll.drained] (by decide) (by decide) (by decide)).1 (by decide),
    (drain_retry_budget 2 MeasMode.MODE_T2
      [Poll.drained, Poll.drained, Poll.drained, Poll.drained, Poll.drained] Poll.drained
      [Poll.drained] (by decide) (by decide) (by decide)).2 (by decide)⟩

/-- C20, counterexample: the first observation of the status on an empty batch followed
by 5 further such polls already makes the loop leave through `stoptttr`; a 6th further
poll is never made (of 7 such responses only 6 are used). -/
theorem drain_stops_after_five_further :
    (acquisitionLoop 2 MeasMode.MODE_T2
        [Poll.drained, Poll.drained, Poll.drained, Poll.drained, Poll.drained, Poll.drained]
        MainState.start).2 = some Label.stoptttr ∧
    ((acquisitionLoop 2 MeasMode.MODE_T2
        [Poll.drained, Poll.drained, Poll.drained, Poll.drained, Poll.drained, Poll.drained,
          Poll.drained]
        MainState.start).1.calls.filter (fun c => decide (c = DeviceCall.MH_CTCStatus))).length
      = 6 := by
  decide

/-! ## Leaving the loop -/

/-- C21, the code at the failing inputs: when `MH_GetFlags` fails in a pass (return code
-1), or when `MH_CTCStatus` fails after an empty batch, the loop is left through `ex` and
`main` closes the 8 devices and the file without ever calling `MH_StopMeas`; a failing
`MH_ReadFiFo` in the same position leaves through `stoptttr` and calls `MH_StopMeas`
once before the cleanup. -/
theorem failed_status_query_skips_stop :
    ((mainFromLoop 2 8 MeasMode.MODE_T2
        [{ flagsRet := -1, flags := 0, readRet := 0, buffer := [], ctcRet := 0,
           ctcstatus := 0 }]).map MainState.calls
      = some [DeviceCall.MH_GetFlags,
          DeviceCall.MH_CloseDevice 0, DeviceCall.MH_CloseDevice 1, DeviceCall.MH_CloseDevice 2,
          DeviceCall.MH_CloseDevice 3, DeviceCall.MH_CloseDevice 4, DeviceCall.MH_CloseDevice 5,
          DeviceCall.MH_CloseDevice 6, DeviceCall.MH_CloseDevice 7, DeviceCall.fclose]) ∧
    ((mainFromLoop 2 8 MeasMode.MODE_T2
        [{ flagsRet := 0, flags := 0, readRet := 0, buffer := [], ctcRet := -1,
           ctcstatus := 0 }]).map MainState.calls
      = some [DeviceCall.MH_GetFlags, DeviceCall.MH_ReadFiFo 0 [], DeviceCall.MH_CTCStatus,
          DeviceCall.MH_CloseDevice 0, DeviceCall.MH_CloseDevice 1, DeviceCall.MH_CloseDevice 2,
          DeviceCall.MH_CloseDevice 3, DeviceCall.MH_CloseDevice 4, DeviceCall.MH_CloseDevice 5,
          DeviceCall.MH_CloseDevice 6, DeviceCall.MH_CloseDevice 7, DeviceCall.fclose]) ∧
    ((mainFromLoop 2 8 MeasMode.MODE_T2
        [{ flagsRet := 0, flags := 0, readRet := -1, buffer := [], ctcRet := 0,
           ctcstatus := 0 }]).map MainState.calls
      = some [DeviceCall.MH_GetFlags, DeviceCall.MH_ReadFiFo (-1) [], DeviceCall.MH_StopMeas,
          DeviceCall.MH_CloseDevice 0, DeviceCall.MH_CloseDevice 1, DeviceCall.MH_CloseDevice 2,
          DeviceCall.MH_CloseDevice 3, DeviceCall.MH_CloseDevice 4, DeviceCall.MH_CloseDevice 5,
          DeviceCall.MH_CloseDevice 6, DeviceCall.MH_CloseDevice 7, DeviceCall.fclose]) := by
  decide

/-- C25: a pass that reads a non-empty batch without error leaves `stopretry` unchanged
and stays in the loop; hence, over passes without error and without overrun, the loop is
still running while at most 5 passes have read an empty batch with the
end-of-acquisition status set, and it leaves through `stoptttr` in the 6th such pass in
total, however many non-empty batches were read in between. -/
theorem stopretry_never_reset (FLAG_FIFOFULL : Nat) (Mode : MeasMode) :
    (∀ (m : MainState) (p : Poll), Poll.clean FLAG_FIFOFULL p = true → p.buffer ≠ [] →
      (loopBody FLAG_FIFOFULL Mode m p).1.stopretry = m.stopretry ∧
      (loopBody FLAG_FIFOFULL Mode m p).2 = none) ∧
    (∀ (rs : List Poll) (p : Poll) (rest : List Poll),
      (∀ q ∈ rs, Poll.clean FLAG_FIFOFULL q = true) → Poll.clean FLAG_FIFOFULL p = true →
      Poll.idleAtEnd p = true → (rs.filter Poll.idleAtEnd).length = 5 →
      (acquisitionLoop FLAG_FIFOFULL Mode rs MainState.start).2 = none ∧
      (acquisitionLoop FLAG_FIFOFULL Mode rs MainState.start).1.stopretry = 5 ∧
      (acquisitionLoop FLAG_FIFOFULL Mode (rs ++ p :: rest) MainState.start).2
        = some Label.stoptttr) := by
  constructor
  · intro m p hc hb
    have hi : Poll.idleAtEnd p = false := by
      apply decide_eq_false
      exact fun h => hb h.1
    exact (loopBody_clean FLAG_FIFOFULL Mode m p hc).2 hi
  · intro rs p rest hclean hp hidle h5
    have h0 : MainState.start.stopretry = 0 := rfl
    have hrun := acquisitionLoop_clean FLAG_FIFOFULL Mode rs MainState.start hclean
      (by rw [h0]; omega)
    rw [h0, Nat.zero_add, h5] at hrun
    have hb := (loopBody_clean FLAG_FIFOFULL Mode
      (acquisitionLoop FLAG_FIFOFULL Mode rs MainState.start).1 p hp).1 hidle
    rw [hrun.2] at hb
    refine ⟨hrun.1, hrun.2, ?_⟩
    rw [acquisitionLoop_append, if_pos hrun.1, acquisitionLoop_cons]
    have hne : (loopBody FLAG_FIFOFULL Mode
        (acquisitionLoop FLAG_FIFOFULL Mode rs MainState.start).1 p).2 ≠ none := by
      rw [hb.2]
      simp
    rw [if_neg hne, hb.2]
    rfl

/-- C25, witness: five empty polls with the status set, with the non-empty batches `[5]`
and `[3]` read in between, leave the loop running with `stopretry = 5`; the sixth empty
poll with the status set makes it leave. -/
theorem stopretry_never_reset_witness :
    ((Poll.clean 2 (Poll.batch [0x00000005]) = true ∧ Poll.batch [0x00000005] ≠ Poll.drained ∧
        (Poll.batch [0x00000005]).buffer ≠ []) ∧
      (∀ q ∈ [Poll.drained, Poll.batch [0x00000005], Poll.drained, Poll.drained,
          Poll.batch [0x00000003], Poll.drained, Poll.drained], Poll.clean 2 q = true) ∧
      Poll.clean 2 Poll.drained = true ∧ Poll.idleAtEnd Poll.drained = true ∧
      ([Poll.drained, Poll.batch [0x00000005], Poll.drained, Poll.drained,
          Poll.batch [0x00000003], Poll.drained, Poll.drained].filter Poll.idleAtEnd).length
        = 5) ∧
    ((loopBody 2 MeasMode.MODE_T2 MainState.start (Poll.batch [0x00000005])).1.stopretry
        = MainState.start.stopretry ∧
      (loopBody 2 MeasMode.MODE_T2 MainState.start (Poll.batch [0x00000005])).2 = none) ∧
    ((acquisitionLoop 2 MeasMode.MODE_T2
        [Poll.drained, Poll.batch [0x00000005], Poll.drained, Poll.drained,
          Poll.batch [0x00000003], Poll.drained, Poll.drained] MainState.start).2 = none ∧
      (acquisitionLoop 2 MeasMode.MODE_T2
        [Poll.drained, Poll.batch [0x00000005], Poll.drained, Poll.drained,
          Poll.batch [0x00000003], Poll.drained, Poll.drained] MainState.start).1.stopretry
        = 5 ∧
      (acquisitionLoop 2 MeasMode.MODE_T2
        ([Poll.drained, Poll.batch [0x00000005], Poll.drained, Poll.drained,
          Poll.batch [0x00000003], Poll.drained, Poll.drained] ++ Poll.drained :: [])
        MainState.start).2 = some Label.stoptttr) :=
  ⟨by decide,
    (stopretry_never_reset 2 MeasMode.MODE_T2).1 MainState.start (Poll.batch [0x00000005])
      (by decide) (by decide),
    (stopretry_never_reset 2 MeasMode.MODE_T2).2
      [Poll.drained, Poll.batch [0x00000005], Poll.drained, Poll.drained,
        Poll.batch [0x00000003], Poll.drained, Poll.drained] Poll.drained []
      (by decide) (by decide) (by decide) (by decide)⟩

/-! ## Reserved records and the round trip -/

/-- C26: for every accumulator value, a T2 record with `special = 1` and channel in
`16..62`, and a T3 record with `special = 1` and channel 0 or in `16..62`, leaves the
whole state as it was (no callback, accumulator unchanged); and every record, in either
mode, makes at most one callback invocation. -/
theorem reserved_records_dropped (s : State) (r : Nat) :
    ((T2Rec r).special = 1 → 16 ≤ (T2Rec r).channel → (T2Rec r).channel ≤ 62 →
      ProcessT2 s r = s) ∧
    ((T3Rec r).special = 1 →
      ((T3Rec r).channel = 0 ∨ (16 ≤ (T3Rec r).channel ∧ (T3Rec r).channel ≤ 62)) →
      ProcessT3 s r = s) ∧
    (∃ es : List Event, es.length ≤ 1 ∧ (ProcessT2 s r).events = s.events ++ es) ∧
    (∃ es : List Event, es.length ≤ 1 ∧ (ProcessT3 s r).events = s.events ++ es) := by
  refine ⟨ProcessT2_of_reserved s r, ProcessT3_of_reserved s r, ?_, ?_⟩
  · cases ho : isOverflowT2 r with
    | true => exact ⟨[], by simp, by rw [(ProcessT2_step_overflow s r ho).1]; simp⟩
    | false =>
      cases he : isEventT2 r with
      | true =>
        obtain ⟨_, e, _, hev⟩ := ProcessT2_step_event s r ho he
        exact ⟨[e], by simp, hev⟩
      | false => exact ⟨[], by simp, by rw [ProcessT2_step_other s r ho he]; simp⟩
  · cases ho : isOverflowT3 r with
    | true => exact ⟨[], by simp, by rw [(ProcessT3_step_overflow s r ho).1]; simp⟩
    | false =>
      cases he : isEventT3 r with
      | true =>
        obtain ⟨_, e, _, hev⟩ := ProcessT3_step_event s r ho he
        exact ⟨[e], by simp, hev⟩
      | false => exact ⟨[], by simp, by rw [ProcessT3_step_other s r ho he]; simp⟩

/-- C26, witness: the record `0xA0000007` has `special = 1` and channel 16, the record
`0x80000007` has `special = 1` and channel 0. -/
theorem reserved_records_dropped_witness :
    (((T2Rec 0xA0000007).special = 1 ∧ 16 ≤ (T2Rec 0xA0000007).channel ∧
        (T2Rec 0xA0000007).channel ≤ 62) ∧
      ProcessT2 { oflcorrection := 9, events := [] } 0xA0000007
        = { oflcorrection := 9, events := [] }) ∧
    (((T3Rec 0x80000007).special = 1 ∧ (T3Rec 0x80000007).channel = 0) ∧
      ProcessT3 { oflcorrection := 9, events := [] } 0x80000007
        = { oflcorrection := 9, events := [] }) :=
  ⟨⟨by decide,
      (reserved_records_dropped { oflcorrection := 9, events := [] } 0xA0000007).1
        (by decide) (by decide) (by decide)⟩,
    ⟨by decide,
      (reserved_records_dropped { oflcorrection := 9, events := [] } 0x80000007).2.1
        (by decide) (Or.inl (by decide))⟩⟩

/-- C28: for every `t < 2^50`, processing from a zero accumulator a T2 overflow record
with count `t div 2^25` and then a T2 photon record with timetag `t mod 2^25` invokes one
callback, `GotPhotonT2` with time exactly `t`; for every `t < 2^20`, a T3 overflow record
with `nsync = t div 1024` followed by a T3 photon record with `nsync = t mod 1024`
invokes one callback, `GotPhotonT3` with sync index exactly `t`. -/
theorem time_round_trip (t ro rp : Nat) :
    (t < 2 ^ 50 →
      (T2Rec ro).special = 1 → (T2Rec ro).channel = 63 → (T2Rec ro).timetag = t / 2 ^ 25 →
      (T2Rec rp).special = 0 → (T2Rec rp).timetag = t % 2 ^ 25 →
      (ProcessRecords MeasMode.MODE_T2 State.zero [ro, rp]).events
        = [Event.photonT2 t ((T2Rec rp).channel + 1)]) ∧
    (t < 2 ^ 20 →
      (T3Rec ro).special = 1 → (T3Rec ro).channel = 63 → (T3Rec ro).nsync = t / 1024 →
      (T3Rec rp).special = 0 → (T3Rec rp).nsync = t % 1024 →
      (ProcessRecords MeasMode.MODE_T3 State.zero [ro, rp]).events
        = [Event.photonT3 t ((T3Rec rp).channel + 1) (T3Rec rp).dtime]) := by
  constructor
  · intro ht hs hc hcount hps hptime
    have h1 : ProcessT2 State.zero ro
        = { oflcorrection := (33554432 * (t / 2 ^ 25)) % 2 ^ 64, events := [] } := by
      rw [ProcessT2_of_overflow State.zero ro hs hc, hcount]
      simp [State.zero, add64, mul64, T2WRAPAROUND_V2, UINT64_RANGE]
    show (List.foldl ProcessT2 State.zero [ro, rp]).events = _
    rw [List.foldl_cons, List.foldl_cons, List.foldl_nil, h1, ProcessT2_of_regular _ rp hps,
      hptime]
    have e : add64 ((33554432 * (t / 2 ^ 25)) % 2 ^ 64) (t % 2 ^ 25) = t := by
      simp only [add64, UINT64_RANGE]
      omega
    simp only [GotPhotonT2, e]
    rfl
  · intro ht hs hc hcount hps hptime
    have h1 : ProcessT3 State.zero ro
        = { oflcorrection := (1024 * (t / 1024)) % 2 ^ 64, events := [] } := by
      rw [ProcessT3_of_overflow State.zero ro hs hc, hcount]
      simp [State.zero, add64, mul64, T3WRAPAROUND, UINT64_RANGE]
    show (List.foldl ProcessT3 State.zero [ro, rp]).events = _
    rw [List.foldl_cons, List.foldl_cons, List.foldl_nil, h1, ProcessT3_of_regular _ rp hps,
      hptime]
    have e : add64 ((1024 * (t / 1024)) % 2 ^ 64) (t % 1024) = t := by
      simp only [add64, UINT64_RANGE]
      omega
    simp only [GotPhotonT3, e]
    rfl

/-- C28, witness: `t = 2^50 - 1` in T2 mode (overflow record `0xFFFFFFFF`, photon record
`0x01FFFFFF`) and `t = 2^20 - 1` in T3 mode (overflow record `0xFE0003FF`, photon record
`0x000003FF`). -/
theorem time_round_trip_witness :
    ((2 ^ 50 - 1 < 2 ^ 50 ∧
        (T2Rec 0xFFFFFFFF).special = 1 ∧ (T2Rec 0xFFFFFFFF).channel = 63 ∧
        (T2Rec 0xFFFFFFFF).timetag = (2 ^ 50 - 1) / 2 ^ 25 ∧
        (T2Rec 0x01FFFFFF).special = 0 ∧ (T2Rec 0x01FFFFFF).timetag = (2 ^ 50 - 1) % 2 ^ 25) ∧
      (ProcessRecords MeasMode.MODE_T2 State.zero [0xFFFFFFFF, 0x01FFFFFF]).events
        = [Event.photonT2 (2 ^ 50 - 1) ((T2Rec 0x01FFFFFF).channel + 1)]) ∧
    ((2 ^ 20 - 1 < 2 ^ 20 ∧
        (T3Rec 0xFE0003FF).special = 1 ∧ (T3Rec 0xFE0003FF).channel = 63 ∧
        (T3Rec 0xFE0003FF).nsync = (2 ^ 20 - 1) / 1024 ∧
        (T3Rec 0x000003FF).special = 0 ∧ (T3Rec 0x000003FF).nsync = (2 ^ 20 - 1) % 1024) ∧
      (ProcessRecords MeasMode.MODE_T3 State.zero [0xFE0003FF, 0x000003FF]).events
        = [Event.photonT3 (2 ^ 20 - 1) ((T3Rec 0x000003FF).channel + 1)
            (T3Rec 0x000003FF).dtime]) :=
  ⟨⟨by decide,
      (time_round_trip (2 ^ 50 - 1) 0xFFFFFFFF 0x01FFFFFF).1 (by decide) (by decide)
        (by decide) (by decide) (by decide) (by decide)⟩,
    ⟨by decide,
      (time_round_trip (2 ^ 20 - 1) 0xFE0003FF 0x000003FF).2 (by decide) (by decide)
        (by decide) (by decide) (by decide) (by decide)⟩⟩

/-! ## Events on the accumulator values a run reaches -/

/-- Processing T2 records keeps the accumulator a multiple of `2^25` below `2^64`. -/
theorem foldl_ProcessT2_aligned (rs : List Nat) (s : State) (h1 : s.oflcorrection < 2 ^ 64)
    (h2 : s.oflcorrection % 33554432 = 0) :
    (rs.foldl ProcessT2 s).oflcorrection < 2 ^ 64 ∧
    (rs.foldl ProcessT2 s).oflcorrection % 33554432 = 0 := by
  induction rs generalizing s with
  | nil => exact ⟨h1, h2⟩
  | cons r rs ih =>
    rw [List.foldl_cons]
    have hstep := ProcessT2_oflcorrection s r
    apply ih
    · rw [hstep]
      split <;> omega
    · rw [hstep]
      split <;> omega

/-- Processing T3 records keeps the accumulator a multiple of 1024 below `2^64`. -/
theorem foldl_ProcessT3_aligned (rs : List Nat) (s : State) (h1 : s.oflcorrection < 2 ^ 64)
    (h2 : s.oflcorrection % 1024 = 0) :
    (rs.foldl ProcessT3 s).oflcorrection < 2 ^ 64 ∧
    (rs.foldl ProcessT3 s).oflcorrection % 1024 = 0 := by
  induction rs generalizing s with
  | nil => exact ⟨h1, h2⟩
  | cons r rs ih =>
    rw [List.foldl_cons]
    have hstep := ProcessT3_oflcorrection s r
    apply ih
    · rw [hstep]
      split <;> omega
    · rw [hstep]
      split <;> omega

/-- On every accumulator value a T2 run reaches from `oflcorrection = 0`, adding a
`timetag` field does not wrap around. -/
theorem reached_T2_no_wrap (a : Nat) (rs : List Nat) (r : Nat)
    (ha : a = (ProcessRecords MeasMode.MODE_T2 State.zero rs).oflcorrection) :
    a + (T2Rec r).timetag < 2 ^ 64 := by
  have h := foldl_ProcessT2_aligned rs State.zero (by decide) (by decide)
  have ht := T2Rec_timetag_lt r
  have e : (ProcessRecords MeasMode.MODE_T2 State.zero rs).oflcorrection
      = (rs.foldl ProcessT2 State.zero).oflcorrection := rfl
  rw [ha, e]
  omega

/-- On every accumulator value a T3 run reaches from `oflcorrection = 0`, adding an
`nsync` field does not wrap around. -/
theorem reached_T3_no_wrap (a : Nat) (rs : List Nat) (r : Nat)
    (ha : a = (ProcessRecords MeasMode.MODE_T3 State.zero rs).oflcorrection) :
    a + (T3Rec r).nsync < 2 ^ 64 := by
  have h := foldl_ProcessT3_aligned rs State.zero (by decide) (by decide)
  have ht := T3Rec_nsync_lt r
  have e : (ProcessRecords MeasMode.MODE_T3 State.zero rs).oflcorrection
      = (rs.foldl ProcessT3 State.zero).oflcorrection := rfl
  rw [ha, e]
  omega

/-- C5: for every accumulator value `a` that a T2 run reaches (the value of
`oflcorrection` after any list `rs` of records processed from `oflcorrection = 0`) and
every T2 record with `special = 0`, `ProcessT2` makes exactly one callback invocation,
`GotPhotonT2`, with time `a + timetag` and channel `raw channel + 1`, which lies in
`1..64` and is never 0, and leaves the accumulator unchanged. -/
theorem ProcessT2_photon_event (s : State) (rs : List Nat) (r : Nat)
    (ha : s.oflcorrection = (ProcessRecords MeasMode.MODE_T2 State.zero rs).oflcorrection)
    (hs : (T2Rec r).special = 0) :
    (ProcessT2 s r).events
      = s.events ++ [Event.photonT2 (s.oflcorrection + (T2Rec r).timetag)
          ((T2Rec r).channel + 1)] ∧
    1 ≤ (T2Rec r).channel + 1 ∧ (T2Rec r).channel + 1 ≤ 64 ∧ (T2Rec r).channel + 1 ≠ 0 ∧
    (ProcessT2 s r).oflcorrection = s.oflcorrection := by
  obtain ⟨_, h2, h3, h4, h5⟩ := ProcessT2_regular_record s r hs
  exact ⟨h2 (reached_T2_no_wrap s.oflcorrection rs r ha), h3, h4, Nat.succ_ne_zero _, h5⟩

/-- C5, witness: after the overflow record `0xFE000002` (count 2) the accumulator is
`2^26`; the photon record `0x06000064` (raw channel 3, timetag 100) is then reported with
time `2^26 + 100` on channel 4. -/
theorem ProcessT2_photon_event_witness :
    ((2 ^ 26 : Nat) = (ProcessRecords MeasMode.MODE_T2 State.zero [0xFE000002]).oflcorrection ∧
      (T2Rec 0x06000064).special = 0) ∧
    (ProcessT2 { oflcorrection := 2 ^ 26, events := [] } 0x06000064).events
      = [] ++ [Event.photonT2 (2 ^ 26 + (T2Rec 0x06000064).timetag)
          ((T2Rec 0x06000064).channel + 1)] ∧
    1 ≤ (T2Rec 0x06000064).channel + 1 ∧ (T2Rec 0x06000064).channel + 1 ≤ 64 ∧
    (T2Rec 0x06000064).channel + 1 ≠ 0 ∧
    (ProcessT2 { oflcorrection := 2 ^ 26, events := [] } 0x06000064).oflcorrection = 2 ^ 26 :=
  ⟨by decide,
    ProcessT2_photon_event { oflcorrection := 2 ^ 26, events := [] } [0xFE000002] 0x06000064
      (by decide) (by decide)⟩

/-- C6: for every accumulator value `a` that a T3 run reaches (the value of
`oflcorrection` after any list `rs` of records processed from `oflcorrection = 0`) and
every T3 record with `special = 0`, `ProcessT3` makes exactly one callback invocation,
`GotPhotonT3`, with sync index `a + nsync`, channel `raw channel + 1` and delay equal to
the raw `dtime` field, and leaves the accumulator unchanged. -/
theorem ProcessT3_photon_event (s : State) (rs : List Nat) (r : Nat)
    (ha : s.oflcorrection = (ProcessRecords MeasMode.MODE_T3 State.zero rs).oflcorrection)
    (hs : (T3Rec r).special = 0) :
    (ProcessT3 s r).events
      = s.events ++ [Event.photonT3 (s.oflcorrection + (T3Rec r).nsync)
          ((T3Rec r).channel + 1) (T3Rec r).dtime] ∧
    (ProcessT3 s r).oflcorrection = s.oflcorrection := by
  obtain ⟨_, h2, h3⟩ := ProcessT3_regular_record s r hs
  exact ⟨h2 (reached_T3_no_wrap s.oflcorrection rs r ha), h3⟩

/-- C6, witness: after the overflow record `0xFE000001` (count 1) the accumulator is
1024; the photon record `0x06001405` (raw channel 3, dtime 5, nsync 5) is then reported
with sync index 1029, channel 4 and delay 5. -/
theorem ProcessT3_photon_event_witness :
    ((1024 : Nat) = (ProcessRecords MeasMode.MODE_T3 State.zero [0xFE000001]).oflcorrection ∧
      (T3Rec 0x06001405).special = 0) ∧
    (ProcessT3 { oflcorrection := 1024, events := [] } 0x06001405).events
      = [] ++ [Event.photonT3 (1024 + (T3Rec 0x06001405).nsync)
          ((T3Rec 0x06001405).channel + 1) (T3Rec 0x06001405).dtime] ∧
    (ProcessT3 { oflcorrection := 1024, events := [] } 0x06001405).oflcorrection = 1024 :=
  ⟨by decide,
    ProcessT3_photon_event { oflcorrection := 1024, events := [] } [0xFE000001] 0x06001405
      (by decide) (by decide)⟩

/-- C7: for every accumulator value `a` that a T2 run reaches (the value of
`oflcorrection` after any list `rs` of records processed from `oflcorrection = 0`) and
every T2 record with `special = 1` and `1 <= channel <= 15`, `ProcessT2` makes exactly
one callback invocation, `GotMarkerT2`, whose bitfield is the raw channel value and
whose time is `a + timetag`, and leaves the accumulator unchanged. -/
theorem ProcessT2_marker_event (s : State) (rs : List Nat) (r : Nat)
    (ha : s.oflcorrection = (ProcessRecords MeasMode.MODE_T2 State.zero rs).oflcorrection)
    (hs : (T2Rec r).special = 1) (h1 : 1 ≤ (T2Rec r).channel) (h15 : (T2Rec r).channel ≤ 15) :
    (ProcessT2 s r).events
      = s.events ++ [Event.markerT2 (s.oflcorrection + (T2Rec r).timetag) (T2Rec r).channel] ∧
    (ProcessT2 s r).oflcorrection = s.oflcorrection := by
  obtain ⟨_, h2, h3⟩ := ProcessT2_marker_record s r hs h1 h15
  exact ⟨h2 (reached_T2_no_wrap s.oflcorrection rs r ha), h3⟩

/-- C7, witness: after the overflow record `0xFE000001` (count 1) the accumulator is
`2^25`; the marker record `0x8A000064` (bitfield 5, timetag 100) is then reported as one
marker event with bitfield 5 and time `2^25 + 100`. -/
theorem ProcessT2_marker_event_witness :
    ((2 ^ 25 : Nat) = (ProcessRecords MeasMode.MODE_T2 State.zero [0xFE000001]).oflcorrection ∧
      (T2Rec 0x8A000064).special = 1 ∧ 1 ≤ (T2Rec 0x8A000064).channel ∧
      (T2Rec 0x8A000064).channel ≤ 15) ∧
    (ProcessT2 { oflcorrection := 2 ^ 25, events := [] } 0x8A000064).events
      = [] ++ [Event.markerT2 (2 ^ 25 + (T2Rec 0x8A000064).timetag)
          (T2Rec 0x8A000064).channel] ∧
    (ProcessT2 { oflcorrection := 2 ^ 25, events := [] } 0x8A000064).oflcorrection = 2 ^ 25 :=
  ⟨by decide,
    ProcessT2_marker_event { oflcorrection := 2 ^ 25, events := [] } [0xFE000001] 0x8A000064
      (by decide) (by decide) (by decide) (by decide)⟩

/-- C8: for every accumulator value `a` that a T3 run reaches (the value of
`oflcorrection` after any list `rs` of records processed from `oflcorrection = 0`) and
every T3 record with `special = 1` and `1 <= channel <= 15`, `ProcessT3` makes exactly
one callback invocation, `GotMarkerT3`, whose bitfield is the raw channel value and
whose time is `a + nsync`, and leaves the accumulator unchanged. -/
theorem ProcessT3_marker_event (s : State) (rs : List Nat) (r : Nat)
    (ha : s.oflcorrection = (ProcessRecords MeasMode.MODE_T3 State.zero rs).oflcorrection)
    (hs : (T3Rec r).special = 1) (h1 : 1 ≤ (T3Rec r).channel) (h15 : (T3Rec r).channel ≤ 15) :
    (ProcessT3 s r).events
      = s.events ++ [Event.markerT3 (s.oflcorrection + (T3Rec r).nsync) (T3Rec r).channel] ∧
    (ProcessT3 s r).oflcorrection = s.oflcorrection := by
  obtain ⟨_, h2, h3⟩ := ProcessT3_marker_record s r hs h1 h15
  exact ⟨h2 (reached_T3_no_wrap s.oflcorrection rs r ha), h3⟩

/-- C8, witness: after the overflow record `0xFE000003` (count 3) the accumulator is
3072; the marker record `0x9E000007` (bitfield 15, nsync 7) is then reported as one
marker event with bitfield 15 and time 3079. -/
theorem ProcessT3_marker_event_witness :
    ((3072 : Nat) = (ProcessRecords MeasMode.MODE_T3 State.zero [0xFE000003]).oflcorrection ∧
      (T3Rec 0x9E000007).special = 1 ∧ 1 ≤ (T3Rec 0x9E000007).channel ∧
      (T3Rec 0x9E000007).channel ≤ 15) ∧
    (ProcessT3 { oflcorrection := 3072, events := [] } 0x9E000007).events
      = [] ++ [Event.markerT3 (3072 + (T3Rec 0x9E000007).nsync) (T3Rec 0x9E000007).channel] ∧
    (ProcessT3 { oflcorrection := 3072, events := [] } 0x9E000007).oflcorrection = 3072 :=
  ⟨by decide,
    ProcessT3_marker_event { oflcorrection := 3072, events := [] } [0xFE000003] 0x9E000007
      (by decide) (by decide) (by decide) (by decide)⟩

/-- C9: for every accumulator value `a` that a T2 run reaches (the value of
`oflcorrection` after any list `rs` of records processed from `oflcorrection = 0`) and
every T2 record with `special = 1` and `channel = 0`, `ProcessT2` makes exactly one
callback invocation, `GotPhotonT2`, on channel 0 with time `a + timetag`, and leaves the
accumulator unchanged; and whenever `ProcessT2` reports a photon for a record, its
channel is 0 if and only if the record has `special = 1` and `channel = 0`. -/
theorem ProcessT2_sync_event (s : State) (rs : List Nat) (r : Nat)
    (ha : s.oflcorrection = (ProcessRecords MeasMode.MODE_T2 State.zero rs).oflcorrection) :
    ((T2Rec r).special = 1 → (T2Rec r).channel = 0 →
      (ProcessT2 s r).events
        = s.events ++ [Event.photonT2 (s.oflcorrection + (T2Rec r).timetag) 0] ∧
      (ProcessT2 s r).oflcorrection = s.oflcorrection) ∧
    (∀ t ch, (ProcessT2 s r).events = s.events ++ [Event.photonT2 t ch] →
      (ch = 0 ↔ (T2Rec r).special = 1 ∧ (T2Rec r).channel = 0)) := by
  obtain ⟨h1, h2⟩ := ProcessT2_sync_record s r
  refine ⟨fun hs hc => ?_, h2⟩
  obtain ⟨_, h3, h4⟩ := h1 hs hc
  exact ⟨h3 (reached_T2_no_wrap s.oflcorrection rs r ha), h4⟩

/-- C9, witness: after the overflow record `0xFE000001` (count 1) the accumulator is
`2^25`; the sync record `0x80000064` (timetag 100) is then reported as one photon on
channel 0 with time `2^25 + 100`. -/
theorem ProcessT2_sync_event_witness :
    ((2 ^ 25 : Nat) = (ProcessRecords MeasMode.MODE_T2 State.zero [0xFE000001]).oflcorrection ∧
      (T2Rec 0x80000064).special = 1 ∧ (T2Rec 0x80000064).channel = 0) ∧
    ((ProcessT2 { oflcorrection := 2 ^ 25, events := [] } 0x80000064).events
        = [] ++ [Event.photonT2 (2 ^ 25 + (T2Rec 0x80000064).timetag) 0] ∧
      (ProcessT2 { oflcorrection := 2 ^ 25, events := [] } 0x80000064).oflcorrection
        = 2 ^ 25) ∧
    (ProcessT2 { oflcorrection := 2 ^ 25, events := [] } 0x80000064).events
      = [] ++ [Event.photonT2 (2 ^ 25 + 100) 0] ∧
    ((0 : Nat) = 0 ↔ (T2Rec 0x80000064).special = 1 ∧ (T2Rec 0x80000064).channel = 0) :=
  ⟨by decide,
    (ProcessT2_sync_event { oflcorrection := 2 ^ 25, events := [] } [0xFE000001] 0x80000064
      (by decide)).1 (by decide) (by decide),
    by decide,
    (ProcessT2_sync_event { oflcorrection := 2 ^ 25, events := [] } [0xFE000001] 0x80000064
      (by decide)).2 (2 ^ 25 + 100) 0 (by decide)⟩

end EventFilter

namespace Histogramming

open EventFilter (T3Rec add64 mul64 T3WRAPAROUND UINT32_RANGE)

/-! ## One record and the histogram -/

theorem T3Rec_dtime_lt (r : Nat) : (T3Rec r).dtime < T3HISTBINS := by
  have := EventFilter.T3Rec_dtime r
  simp only [T3HISTBINS]
  omega

theorem histogram_of_regular (M : Nat) (s : State) (r : Nat) (hs : (T3Rec r).special = 0) :
    ProcessT3 M s r
      = GotPhotonT3 M s (add64 s.oflcorrection (T3Rec r).nsync) ((T3Rec r).channel + 1)
          (T3Rec r).dtime := by
  simp [ProcessT3, hs]

theorem histogram_of_special (M : Nat) (s : State) (r : Nat) (hs : (T3Rec r).special = 1) :
    ∃ s1, ProcessT3 M s r = some s1 ∧ s1.histogram = s.histogram := by
  unfold ProcessT3
  by_cases h63 : (T3Rec r).channel = 63
  · have hm : ¬ (1 ≤ (T3Rec r).channel ∧ (T3Rec r).channel ≤ 15) := by omega
    simp [hs, h63]
  · by_cases hm : 1 ≤ (T3Rec r).channel ∧ (T3Rec r).channel ≤ 15
    · simp [hs, h63, hm, GotMarkerT3]
    · simp [hs, h63, hm]

/-- Effect of one record on the table: defined exactly for the records whose cell index
lies inside the table, and then one cell is stepped modulo `2^32` by a `special = 0`
record and nothing changes otherwise. -/
theorem histogram_step (M : Nat) (s : State) (r : Nat) :
    (inTable M r → ∃ s1, ProcessT3 M s r = some s1 ∧
      ∀ c d, s1.histogram c d
        = if (T3Rec r).special = 0 ∧ (T3Rec r).channel + 1 = c ∧ (T3Rec r).dtime = d then
            (s.histogram c d + 1) % 2 ^ 32
          else s.histogram c d) ∧
    (¬ inTable M r → ProcessT3 M s r = none) := by
  rcases EventFilter.T3Rec_special_cases r with hs | hs
  · have hd := T3Rec_dtime_lt r
    constructor
    · intro hin
      have hch := hin hs
      rw [histogram_of_regular M s r hs]
      refine ⟨_, by simp only [GotPhotonT3, hch, hd, and_self, if_true]; rfl, ?_⟩
      intro c d
      simp only [UINT32_RANGE, hs, true_and]
      by_cases h : (T3Rec r).channel + 1 = c ∧ (T3Rec r).dtime = d
      · rw [if_pos h, if_pos ⟨h.1.symm, h.2.symm⟩]
      · rw [if_neg h, if_neg (fun h1 => h ⟨h1.1.symm, h1.2.symm⟩)]
    · intro hin
      have hch : ¬ (T3Rec r).channel + 1 < M := fun h => hin (fun _ => h)
      rw [histogram_of_regular M s r hs]
      simp [GotPhotonT3, hch]
  · obtain ⟨s1, h1, h2⟩ := histogram_of_special M s r hs
    constructor
    · intro _
      refine ⟨s1, h1, ?_⟩
      intro c d
      have hne : ¬ ((T3Rec r).special = 0 ∧ (T3Rec r).channel + 1 = c ∧ (T3Rec r).dtime = d) := by
        omega
      rw [if_neg hne, h2]
    · intro hin
      exact absurd (fun h0 => by omega) hin

/-- C14 (as amended): for every state of the table and every T3 record with `special = 0`
whose cell index `(raw channel + 1, dtime)` lies inside the table
(`raw channel + 1 < MAXINPCHAN`), `ProcessT3` replaces the value `v` of that one cell by
`(v + 1) mod 2^32`, which is `v + 1` unless `v = 2^32 - 1`, and leaves every other cell
unchanged; every T3 record with `special = 1` leaves the whole table unchanged; and the
table after a record does not depend on the overflow accumulator. -/
theorem ProcessT3_histogram_effect (M : Nat) (s : State) (r : Nat) :
    ((T3Rec r).special = 0 → (T3Rec r).channel + 1 < M →
      ∃ s1, ProcessT3 M s r = some s1 ∧
        s1.histogram ((T3Rec r).channel + 1) (T3Rec r).dtime
          = (s.histogram ((T3Rec r).channel + 1) (T3Rec r).dtime + 1) % 2 ^ 32 ∧
        (s.histogram ((T3Rec r).channel + 1) (T3Rec r).dtime < 2 ^ 32 - 1 →
          s1.histogram ((T3Rec r).channel + 1) (T3Rec r).dtime
            = s.histogram ((T3Rec r).channel + 1) (T3Rec r).dtime + 1) ∧
        ∀ c d, ¬ (c = (T3Rec r).channel + 1 ∧ d = (T3Rec r).dtime) →
          s1.histogram c d = s.histogram c d) ∧
    ((T3Rec r).special = 1 →
      ∃ s1, ProcessT3 M s r = some s1 ∧ s1.histogram = s.histogram) ∧
    (∀ a : Nat,
      (ProcessT3 M { s with oflcorrection := a } r).map State.histogram
        = (ProcessT3 M s r).map State.histogram) := by
  refine ⟨?_, histogram_of_special M s r, ?_⟩
  · intro hs hch
    obtain ⟨s1, h1, h2⟩ := (histogram_step M s r).1 (fun _ => hch)
    refine ⟨s1, h1, ?_, ?_, ?_⟩
    · rw [h2, if_pos ⟨hs, rfl, rfl⟩]
    · intro hlt
      rw [h2, if_pos ⟨hs, rfl, rfl⟩]
      apply Nat.mod_eq_of_lt
      omega
    · intro c d hne
      rw [h2, if_neg (fun h => hne ⟨h.2.1.symm, h.2.2.symm⟩)]
  · intro a
    by_cases hin : inTable M r
    · obtain ⟨s1, h1, h2⟩ := (histogram_step M s r).1 hin
      obtain ⟨s2, h3, h4⟩ := (histogram_step M { s with oflcorrection := a } r).1 hin
      rw [h1, h3]
      simp only [Option.map_some', Option.some.injEq]
      funext c d
      rw [h2, h4]
    · rw [(histogram_step M s r).2 hin, (histogram_step M { s with oflcorrection := a } r).2 hin]

/-- C14, witness: with a table of 64 rows, the record `0x06001400` (special 0, raw
channel 3, dtime 5) steps the cell `(4, 5)` from 0 to 1, and the marker record
`0x8A000001` changes nothing. -/
theorem ProcessT3_histogram_effect_witness :
    ((T3Rec 0x06001400).special = 0 ∧ (T3Rec 0x06001400).channel + 1 < 64 ∧
      (T3Rec 0x8A000001).special = 1 ∧
      State.cleared.histogram ((T3Rec 0x06001400).channel + 1) (T3Rec 0x06001400).dtime
        < 2 ^ 32 - 1) ∧
    (∃ s1, ProcessT3 64 State.cleared 0x06001400 = some s1 ∧
      s1.histogram ((T3Rec 0x06001400).channel + 1) (T3Rec 0x06001400).dtime
        = State.cleared.histogram ((T3Rec 0x06001400).channel + 1) (T3Rec 0x06001400).dtime
          + 1) ∧
    (∃ s1, ProcessT3 64 State.cleared 0x8A000001 = some s1 ∧
      s1.histogram = State.cleared.histogram) :=
  ⟨by decide,
    (((ProcessT3_histogram_effect 64 State.cleared 0x06001400).1 (by decide) (by decide)).imp
      fun _ h => ⟨h.1, h.2.2.1 (by decide)⟩),
    (ProcessT3_histogram_effect 64 State.cleared 0x8A000001).2.1 (by decide)⟩

/-- C14, counterexample: with a table of 64 rows and the cell `(1, 5)` at `2^32 - 1`, the
record `0x00001400` (special 0, raw channel 0, dtime 5) leaves that cell at 0, not
increased by one; and the record `0x7E000000` (special 0, raw channel 63) has its index
`64` outside the table, so that no cell of the table is increased. -/
theorem ProcessT3_histogram_wraps :
    ((T3Rec 0x00001400).special = 0 ∧ (T3Rec 0x00001400).channel + 1 = 1 ∧
      (T3Rec 0x00001400).dtime = 5 ∧
      (ProcessT3 64
          { oflcorrection := 0,
            histogram := fun c d => if c = 1 ∧ d = 5 then 2 ^ 32 - 1 else 0 }
          0x00001400).map (fun s1 => s1.histogram 1 5) = some 0) ∧
    ((T3Rec 0x7E000000).special = 0 ∧ (T3Rec 0x7E000000).channel + 1 = 64 ∧
      (ProcessT3 64 State.cleared 0x7E000000).isNone = true) := by
  decide

/-- C15 (as amended): each cell is a 32-bit count that wraps around: for every state of
the table in which the addressed cell, inside the table, holds `2^32 - 1`, a further call
of `GotPhotonT3` for that cell leaves it at 0, and leaves every other cell unchanged. -/
theorem GotPhotonT3_wraps_to_zero (M : Nat) (s : State) (NSync Channel DTime : Nat)
    (hc : Channel < M) (hd : DTime < T3HISTBINS)
    (hfull : s.histogram Channel DTime = 2 ^ 32 - 1) :
    ∃ s1, GotPhotonT3 M s NSync Channel DTime = some s1 ∧
      s1.histogram Channel DTime = 0 ∧
      ∀ c d, ¬ (c = Channel ∧ d = DTime) → s1.histogram c d = s.histogram c d := by
  refine ⟨_, by simp only [GotPhotonT3, hc, hd, and_self, if_true]; rfl, ?_, ?_⟩
  · simp only [and_self, if_true, hfull, UINT32_RANGE]
    decide
  · intro c d hne
    simp only [hne, if_false]

/-- C15, witness: the cell `(2, 7)` of a table of 64 rows, holding `2^32 - 1`. -/
theorem GotPhotonT3_wraps_to_zero_witness :
    (2 < 64 ∧ 7 < T3HISTBINS ∧
      (fun c d : Nat => if c = 2 ∧ d = 7 then 2 ^ 32 - 1 else 0) 2 7 = 2 ^ 32 - 1) ∧
    ∃ s1, GotPhotonT3 64
        { oflcorrection := 0, histogram := fun c d => if c = 2 ∧ d = 7 then 2 ^ 32 - 1 else 0 }
        0 2 7 = some s1 ∧
      s1.histogram 2 7 = 0 :=
  ⟨by decide,
    (GotPhotonT3_wraps_to_zero 64
      { oflcorrection := 0, histogram := fun c d => if c = 2 ∧ d = 7 then 2 ^ 32 - 1 else 0 }
      0 2 7 (by decide) (by decide) (by decide)).imp fun _ h => ⟨h.1, h.2.1⟩⟩

/-- C15, counterexample: with the cell `(1, 0)` at `2^32 - 1`, one more call of
`GotPhotonT3` for that cell leaves it at 0, not at `2^32 - 1`. -/
theorem GotPhotonT3_does_not_saturate :
    (GotPhotonT3 64
        { oflcorrection := 0, histogram := fun c d => if c = 1 ∧ d = 0 then 2 ^ 32 - 1 else 0 }
        0 1 0).map (fun s1 => s1.histogram 1 0) = some 0 ∧
    (GotPhotonT3 64
        { oflcorrection := 0, histogram := fun c d => if c = 1 ∧ d = 0 then 2 ^ 32 - 1 else 0 }
        0 1 0).map (fun s1 => s1.histogram 1 0) ≠ some (2 ^ 32 - 1) := by
  decide

/-! ## Streams of records and the histogram -/

theorem photonCount_cons (c d r : Nat) (rs : List Nat) :
    photonCount c d (r :: rs)
      = (if (T3Rec r).special = 0 ∧ (T3Rec r).channel + 1 = c ∧ (T3Rec r).dtime = d then 1
          else 0) + photonCount c d rs := by
  unfold photonCount
  by_cases h : (T3Rec r).special = 0 ∧ (T3Rec r).channel + 1 = c ∧ (T3Rec r).dtime = d
  · rw [List.filter_cons_of_pos (by simpa using h), List.length_cons, if_pos h]
    omega
  · rw [List.filter_cons_of_neg (by simpa using h), if_neg h]
    omega

theorem photonCount_append (c d : Nat) (a b : List Nat) :
    photonCount c d (a ++ b) = photonCount c d a + photonCount c d b := by
  simp [photonCount, List.filter_append]

theorem photonCount_replicate (c d r n : Nat)
    (h : (T3Rec r).special = 0 ∧ (T3Rec r).channel + 1 = c ∧ (T3Rec r).dtime = d) :
    photonCount c d (List.replicate n r) = n := by
  induction n with
  | zero => rfl
  | succ n ih =>
    rw [List.replicate_succ, photonCount_cons, if_pos h, ih]
    omega

theorem cleared_lt (c d : Nat) : State.cleared.histogram c d < 2 ^ 32 :=
  Nat.two_pow_pos 32

theorem ProcessRecords_cons (M : Nat) (s : State) (r : Nat) (rs : List Nat) :
    ProcessRecords M s (r :: rs) = (ProcessT3 M s r).bind fun s1 => ProcessRecords M s1 rs := by
  rw [ProcessRecords]
  cases ProcessT3 M s r <;> rfl

/-- A stream whose cell indices all lie inside the table is processed to the end, and
every cell ends at its start value plus the number of its photon records, modulo
`2^32`. -/
theorem histogram_run (M : Nat) (rs : List Nat) (s : State) (hin : ∀ r ∈ rs, inTable M r)
    (hs : ∀ c d, s.histogram c d < 2 ^ 32) :
    ∃ s1, ProcessRecords M s rs = some s1 ∧
      ∀ c d, s1.histogram c d = (s.histogram c d + photonCount c d rs) % 2 ^ 32 := by
  induction rs generalizing s with
  | nil =>
    refine ⟨s, rfl, fun c d => ?_⟩
    have := hs c d
    simp only [photonCount, List.filter_nil, List.length_nil, Nat.add_zero]
    omega
  | cons r rs ih =>
    obtain ⟨s1, h1, h2⟩ := (histogram_step M s r).1 (hin r (List.mem_cons_self r rs))
    have hs1 : ∀ c d, s1.histogram c d < 2 ^ 32 := by
      intro c d
      have := hs c d
      rw [h2]
      split <;> omega
    obtain ⟨s2, h3, h4⟩ := ih s1 (fun x hx => hin x (List.mem_cons_of_mem r hx)) hs1
    refine ⟨s2, by rw [ProcessRecords_cons, h1]; exact h3, fun c d => ?_⟩
    rw [h4, h2, photonCount_cons]
    split <;> omega

theorem inTable_of_run (M : Nat) (rs : List Nat) (s s1 : State)
    (h : ProcessRecords M s rs = some s1) : ∀ r ∈ rs, inTable M r := by
  induction rs generalizing s with
  | nil => intro r hr; cases hr
  | cons r rs ih =>
    rw [ProcessRecords_cons] at h
    by_cases hin : inTable M r
    · obtain ⟨s2, h2, _⟩ := (histogram_step M s r).1 hin
      rw [h2] at h
      intro x hx
      rcases List.mem_cons.1 hx with hx | hx
      · rw [hx]; exact hin
      · exact ih s2 h x hx
    · rw [(histogram_step M s r).2 hin] at h
      cases h

/-- C16 (as amended): for every T3 record sequence `rs` that is processed from a
zero-cleared table to the end (all cell indices inside the table), processing `rs`
followed by `rs` again from a zero-cleared table yields in every cell twice the
single-pass count modulo `2^32`, which is exactly twice the single-pass count whenever
that count is below `2^31`. -/
theorem histogram_replay (M : Nat) (rs : List Nat) (s1 : State)
    (h : ProcessRecords M State.cleared rs = some s1) :
    ∃ s2, ProcessRecords M State.cleared (rs ++ rs) = some s2 ∧
      ∀ c d, s2.histogram c d = (2 * s1.histogram c d) % 2 ^ 32 ∧
        (s1.histogram c d < 2 ^ 31 → s2.histogram c d = 2 * s1.histogram c d) := by
  have hin := inTable_of_run M rs State.cleared s1 h
  have hz := cleared_lt
  obtain ⟨t1, ht1, hc1⟩ := histogram_run M rs State.cleared hin hz
  rw [h] at ht1
  cases ht1
  obtain ⟨s2, hs2, hc2⟩ := histogram_run M (rs ++ rs) State.cleared
    (fun r hr => (List.mem_append.1 hr).elim (hin r) (hin r)) hz
  refine ⟨s2, hs2, fun c d => ?_⟩
  have e1 := hc1 c d
  have e2 := hc2 c d
  rw [photonCount_append] at e2
  have e0 : State.cleared.histogram c d = 0 := rfl
  rw [e0] at e1 e2
  constructor
  · omega
  · intro hlt
    omega

/-- C16, witness: the sequence of two photon records for the cell `(4, 5)` and a marker
record, with a table of 64 rows. -/
theorem histogram_replay_witness :
    ∃ s1, ProcessRecords 64 State.cleared [0x06001400, 0x8A000001, 0x06001400] = some s1 ∧
      ∃ s2, ProcessRecords 64 State.cleared
          ([0x06001400, 0x8A000001, 0x06001400] ++ [0x06001400, 0x8A000001, 0x06001400])
          = some s2 ∧
        ∀ c d, s2.histogram c d = (2 * s1.histogram c d) % 2 ^ 32 ∧
          (s1.histogram c d < 2 ^ 31 → s2.histogram c d = 2 * s1.histogram c d) :=
  (histogram_run 64 [0x06001400, 0x8A000001, 0x06001400] State.cleared (by decide)
      cleared_lt).imp
    fun s1 h => ⟨h.1, histogram_replay 64 [0x06001400, 0x8A000001, 0x06001400] s1 h.1⟩

/-- C16, counterexample: for the sequence of `2^31` photon records `0x00000000` (raw
channel 0, dtime 0) and a table of 64 rows, the single pass leaves `2^31` in the cell
`(1, 0)` and the double pass leaves 0, not `2 * 2^31`. -/
theorem histogram_replay_wraps :
    (ProcessRecords 64 State.cleared (List.replicate (2 ^ 31) 0x00000000)).map
        (fun s => s.histogram 1 0) = some (2 ^ 31) ∧
    (ProcessRecords 64 State.cleared
        (List.replicate (2 ^ 31) 0x00000000 ++ List.replicate (2 ^ 31) 0x00000000)).map
        (fun s => s.histogram 1 0) = some 0 ∧
    (0 : Nat) ≠ 2 * 2 ^ 31 := by
  have hrec : (T3Rec 0x00000000).special = 0 ∧ (T3Rec 0x00000000).channel + 1 = 1 ∧
      (T3Rec 0x00000000).dtime = 0 := by decide
  have hin : ∀ r ∈ List.replicate (2 ^ 31) 0x00000000, inTable 64 r := by
    intro r hr
    rw [List.eq_of_mem_replicate hr]
    intro _
    decide
  have hz := cleared_lt
  obtain ⟨s1, h1, c1⟩ := histogram_run 64 _ State.cleared hin hz
  obtain ⟨s2, h2, c2⟩ := histogram_run 64
    (List.replicate (2 ^ 31) 0x00000000 ++ List.replicate (2 ^ 31) 0x00000000) State.cleared
    (fun r hr => (List.mem_append.1 hr).elim (hin r) (hin r)) hz
  have e1 := c1 1 0
  have e2 := c2 1 0
  rw [photonCount_append] at e2
  rw [photonCount_replicate 1 0 0x00000000 (2 ^ 31) hrec] at e1 e2
  have e0 : State.cleared.histogram 1 0 = 0 := rfl
  rw [e0] at e1 e2
  refine ⟨?_, ?_, by decide⟩
  · rw [h1]
    simp only [Option.map_some', e1]
    decide
  · rw [h2]
    simp only [Option.map_some', e2]
    decide

/-! ## The output table -/

/-- C17, the code at the failing input: a device with 4 input channels (table of 64
rows) delivers the single photon record `0x06001400` (raw channel 3, dtime 5). The
record is one photon of the 4 channels and is counted in the cell `(4, 5)`, but the
output table, which prints the columns `histogram[0]` to `histogram[3]`, has 32768 rows of
4 entries that sum to 0. -/
theorem table_misses_last_channel :
    ((T3Rec 0x06001400).special = 0 ∧ (T3Rec 0x06001400).channel = 3 ∧
      (T3Rec 0x06001400).dtime = 5) ∧
    photonsOfChannels 4 [0x06001400] = 1 ∧
    (ProcessRecords 64 State.cleared [0x06001400]).map (fun s => s.histogram 4 5) = some 1 ∧
    (ProcessRecords 64 State.cleared [0x06001400]).map
        (fun s => (histogramTable 4 s).length) = some 32768 ∧
    (ProcessRecords 64 State.cleared [0x06001400]).map
        (fun s => ((histogramTable 4 s).map List.sum).sum) = some 0 := by
  have hrec : (T3Rec 0x06001400).special = 0 ∧ (T3Rec 0x06001400).channel = 3 ∧
      (T3Rec 0x06001400).dtime = 5 := by decide
  have hz := cleared_lt
  obtain ⟨s1, h1, c1⟩ := histogram_run 64 [0x06001400] State.cleared (by decide) hz
  have e0 : ∀ c d, State.cleared.histogram c d = 0 := fun _ _ => rfl
  have hcell : ∀ c d, s1.histogram c d = if c = 4 ∧ d = 5 then 1 else 0 := by
    intro c d
    rw [c1 c d, e0, photonCount_cons, hrec.1, hrec.2.1, hrec.2.2]
    by_cases h : c = 4 ∧ d = 5
    · rw [if_pos h, if_pos ⟨rfl, h.1.symm, h.2.symm⟩]
      rfl
    · rw [if_neg h, if_neg (fun h1 => h ⟨h1.2.1.symm, h1.2.2.symm⟩)]
      rfl
  refine ⟨hrec, by decide, ?_, ?_, ?_⟩
  · rw [h1]
    simp only [Option.map_some', hcell]
    rfl
  · rw [h1]
    simp [histogramTable, T3HISTBINS]
  · rw [h1]
    simp only [Option.map_some', Option.some.injEq]
    apply List.sum_eq_zero
    intro x hx
    simp only [histogramTable, List.map_map, List.mem_map, List.mem_range,
      Function.comp_apply] at hx
    obtain ⟨i, _, rfl⟩ := hx
    apply List.sum_eq_zero
    intro y hy
    simp only [List.mem_map, List.mem_range] at hy
    obtain ⟨j, hj, rfl⟩ := hy
    rw [hcell]
    have : ¬ (j = 4 ∧ i = 5) := by omega
    rw [if_neg this]

/-! ## The cell index and the bounds of the table -/

/-- Whatever the number `M` of rows of the table (from 1 to 64), the record with
`special = 0` and raw channel `M - 1` has its cell index in row `M`, outside the table,
and `ProcessT3` has no defined result on it. -/
theorem last_channel_outside_table (M : Nat) (h1 : 1 ≤ M) (h64 : M ≤ 64) (s : State) :
    (T3Rec ((M - 1) * 2 ^ 25)).special = 0 ∧ (T3Rec ((M - 1) * 2 ^ 25)).channel = M - 1 ∧
    ¬ inTable M ((M - 1) * 2 ^ 25) ∧ ProcessT3 M s ((M - 1) * 2 ^ 25) = none := by
  have hs : (T3Rec ((M - 1) * 2 ^ 25)).special = 0 := by
    rw [EventFilter.T3Rec_special]
    omega
  have hc : (T3Rec ((M - 1) * 2 ^ 25)).channel = M - 1 := by
    rw [EventFilter.T3Rec_channel]
    omega
  have hin : ¬ inTable M ((M - 1) * 2 ^ 25) := by
    intro h
    have := h hs
    omega
  exact ⟨hs, hc, hin, (histogram_step M s _).2 hin⟩

/-- C27, the code at the failing input: with a table of 64 rows, the record `0x7E001400`
(special 0, raw channel 63, dtime 5) of a 64-channel device gives the cell index
`(64, 5)`; `5 < T3HISTBINS` holds but `64 < 64` does not, the index is outside
`histogram[64][32768]`, and neither `GotPhotonT3` nor `ProcessT3` has a defined result. -/
theorem histogram_index_out_of_bounds :
    ((T3Rec 0x7E001400).special = 0 ∧ (T3Rec 0x7E001400).channel = 63 ∧
      (T3Rec 0x7E001400).dtime = 5) ∧
    (T3Rec 0x7E001400).dtime < T3HISTBINS ∧
    ¬ ((T3Rec 0x7E001400).channel + 1 < 64) ∧
    (GotPhotonT3 64 State.cleared 0 ((T3Rec 0x7E001400).channel + 1)
      (T3Rec 0x7E001400).dtime).isNone = true ∧
    (ProcessT3 64 State.cleared 0x7E001400).isNone = true := by
  decide

end Histogramming

namespace MultipleDevices

/-! ## One pass of the measurement loop -/

theorem sum_done (d : Nat → Nat) : ((List.range NDEVICES).map d).sum = d 0 + d 1 := by
  simp [NDEVICES, List.range_succ]

theorem polledDevices_append (a b : List Call) :
    polledDevices (a ++ b) = polledDevices a ++ polledDevices b := by
  induction a with
  | nil => rfl
  | cons c cs ih => cases c <;> simp [polledDevices, ih]

theorem advance_n (s : State) (k : Nat) (h : s.n = k % NDEVICES) :
    (if s.n + 1 < NDEVICES then s.n + 1 else 0) = (k + 1) % NDEVICES := by
  simp only [NDEVICES] at *
  split <;> omega

/-- A pass that stays in the loop: the next device is selected, the batch read is
appended to the file of the device polled, and the device is marked done if the batch was
empty with the status set. -/
theorem loopBody_continue (FLAG_FIFOFULL : Nat) (s : State) (p : Poll)
    (h : (loopBody FLAG_FIFOFULL s p).2 = none) :
    (loopBody FLAG_FIFOFULL s p).1.n = (if s.n + 1 < NDEVICES then s.n + 1 else 0) ∧
    (∀ j, (loopBody FLAG_FIFOFULL s p).1.fpout j
      = if j = s.n then s.fpout j ++ p.buffer.flatMap bytesOf else s.fpout j) ∧
    (∀ j, (loopBody FLAG_FIFOFULL s p).1.done j
      = if j = s.n ∧ Poll.idleAtEnd p = true then 1 else s.done j) ∧
    polledDevices (loopBody FLAG_FIFOFULL s p).1.calls = polledDevices s.calls ++ [s.n] := by
  unfold loopBody at h ⊢
  by_cases h1 : p.flagsRet < 0
  · simp [h1] at h
  · by_cases h2 : p.flags &&& FLAG_FIFOFULL ≠ 0
    · simp [h1, h2] at h
    · by_cases h3 : p.readRet < 0
      · simp [h1, h2, h3] at h
      · by_cases h4 : p.buffer = []
        · by_cases h5 : p.ctcRet < 0
          · simp [h1, h2, h3, h4, h5] at h
          · by_cases h6 : p.ctcstatus ≠ 0
            · by_cases h7 : ((List.range NDEVICES).map
                  (fun j => if j = s.n then 1 else s.done j)).sum = NDEVICES
              · simp [h1, h2, h3, h4, h5, h6, h7] at h
              · simp [h1, h2, h3, h4, h5, h6, h7, State.advance, Poll.idleAtEnd,
                  polledDevices_append, polledDevices]
            · simp [h1, h2, h3, h4, h5, h6, State.advance, Poll.idleAtEnd,
                polledDevices_append, polledDevices]
        · by_cases h8 : p.fwriteRet ≠ p.buffer.length
          · simp [h1, h2, h3, h4, h8] at h
          · have h8e : p.fwriteRet = p.buffer.length := by omega
            simp [h1, h2, h3, h4, h8e, State.advance, Poll.idleAtEnd,
              polledDevices_append, polledDevices]

/-- A pass that leaves the loop: nothing is written unless it is a short write, and the
device polled is marked done only when the loop is left because all devices are done. -/
theorem loopBody_exit (FLAG_FIFOFULL : Nat) (s : State) (p : Poll) (e : Exit)
    (h : (loopBody FLAG_FIFOFULL s p).2 = some e) :
    polledDevices (loopBody FLAG_FIFOFULL s p).1.calls = polledDevices s.calls ++ [s.n] ∧
    (e ≠ Exit.writeError → ∀ j, (loopBody FLAG_FIFOFULL s p).1.fpout j = s.fpout j) ∧
    (∀ j, (loopBody FLAG_FIFOFULL s p).1.done j
      = if j = s.n ∧ e = Exit.done then 1 else s.done j) ∧
    (e = Exit.done → Poll.idleAtEnd p = true ∧
      (loopBody FLAG_FIFOFULL s p).1.done 0 + (loopBody FLAG_FIFOFULL s p).1.done 1
        = NDEVICES) ∧
    (Poll.clean FLAG_FIFOFULL p = true → e = Exit.done) := by
  unfold loopBody at h ⊢
  by_cases h1 : p.flagsRet < 0
  · simp [h1] at h ⊢
    subst h
    simp [polledDevices_append, polledDevices, Poll.clean, h1]
  · by_cases h2 : p.flags &&& FLAG_FIFOFULL ≠ 0
    · simp [h1, h2] at h ⊢
      subst h
      simp [polledDevices_append, polledDevices, Poll.clean]
      intro _ hh
      exact absurd hh h2
    · by_cases h3 : p.readRet < 0
      · simp [h1, h2, h3] at h ⊢
        subst h
        simp [polledDevices_append, polledDevices, Poll.clean, h3]
      · by_cases h4 : p.buffer = []
        · by_cases h5 : p.ctcRet < 0
          · simp [h1, h2, h3, h4, h5] at h ⊢
            subst h
            simp [polledDevices_append, polledDevices, Poll.clean, h5]
          · by_cases h6 : p.ctcstatus ≠ 0
            · by_cases h7 : ((List.range NDEVICES).map
                  (fun j => if j = s.n then 1 else s.done j)).sum = NDEVICES
              · simp [h1, h2, h3, h4, h5, h6, h7] at h ⊢
                subst h
                rw [sum_done] at h7
                simp [polledDevices_append, polledDevices, Poll.idleAtEnd, h4, h6]
                exact h7
              · simp [h1, h2, h3, h4, h5, h6, h7] at h
            · simp [h1, h2, h3, h4, h5, h6] at h
        · by_cases h8 : p.fwriteRet ≠ p.buffer.length
          · simp [h1, h2, h3, h4, h8] at h ⊢
            subst h
            simp [polledDevices_append, polledDevices, Poll.clean, h4]
            intro _ _ _ hh
            exact absurd hh h8
          · have h8e : p.fwriteRet = p.buffer.length := by omega
            simp [h1, h2, h3, h4, h8e] at h

/-! ## The measurement loop -/

theorem measurementLoop_cons (FLAG_FIFOFULL : Nat) (p : Poll) (ps : List Poll) (s : State) :
    measurementLoop FLAG_FIFOFULL (p :: ps) s
      = if (loopBody FLAG_FIFOFULL s p).2 = none then
          measurementLoop FLAG_FIFOFULL ps (loopBody FLAG_FIFOFULL s p).1
        else loopBody FLAG_FIFOFULL s p := by
  rw [measurementLoop]
  rcases h : loopBody FLAG_FIFOFULL s p with ⟨s1, e⟩
  cases e <;> simp

/-- The state of a loop that is still running after the passes `ps`, the first of which
is pass number `k`. -/
theorem measurementLoop_running (FLAG_FIFOFULL : Nat) (ps : List Poll) (s : State) (k : Nat)
    (hn : s.n = k % NDEVICES) (h : (measurementLoop FLAG_FIFOFULL ps s).2 = none) :
    (measurementLoop FLAG_FIFOFULL ps s).1.n = (k + ps.length) % NDEVICES ∧
    (∀ j, (measurementLoop FLAG_FIFOFULL ps s).1.fpout j
      = s.fpout j ++ ((batchesFrom j k ps).flatten).flatMap bytesOf) ∧
    (∀ j, (measurementLoop FLAG_FIFOFULL ps s).1.done j = 1 ↔
      (s.done j = 1 ∨
        ∃ i p, ps[i]? = some p ∧ (k + i) % NDEVICES = j ∧ Poll.idleAtEnd p = true)) ∧
    ((∀ j, s.done j ≤ 1) → ∀ j, (measurementLoop FLAG_FIFOFULL ps s).1.done j ≤ 1) ∧
    polledDevices (measurementLoop FLAG_FIFOFULL ps s).1.calls
      = polledDevices s.calls ++ (List.range' k ps.length).map (fun i => i % NDEVICES) := by
  induction ps generalizing s k with
  | nil =>
    refine ⟨by simpa [measurementLoop] using hn, by simp [measurementLoop, batchesFrom],
      by simp [measurementLoop], fun hd => by simpa [measurementLoop] using hd,
      by simp [measurementLoop]⟩
  | cons p ps ih =>
    rw [measurementLoop_cons] at h ⊢
    by_cases hc : (loopBody FLAG_FIFOFULL s p).2 = none
    · rw [if_pos hc] at h ⊢
      obtain ⟨c1, c2, c3, c4⟩ := loopBody_continue FLAG_FIFOFULL s p hc
      rw [advance_n s k hn] at c1
      obtain ⟨i1, i2, i3, i4, i5⟩ := ih (loopBody FLAG_FIFOFULL s p).1 (k + 1) c1 h
      refine ⟨?_, ?_, ?_, ?_, ?_⟩
      · rw [i1, List.length_cons]
        congr 1
        omega
      · intro j
        rw [i2 j, c2 j, batchesFrom]
        by_cases hj : j = s.n
        · have hk : k % NDEVICES = j := by rw [hj, hn]
          subst hj
          simp [hk]
        · have hk : ¬ k % NDEVICES = j := fun hh => hj (by rw [hn, hh])
          simp [hj, hk]
      · intro j
        rw [i3 j, c3 j]
        constructor
        · rintro (hd | ⟨i, q, hi, hm, hid⟩)
          · by_cases hcase : j = s.n ∧ Poll.idleAtEnd p = true
            · refine Or.inr ⟨0, p, List.getElem?_cons_zero, ?_, hcase.2⟩
              rw [Nat.add_zero, ← hn]
              exact hcase.1.symm
            · rw [if_neg hcase] at hd
              exact Or.inl hd
          · refine Or.inr ⟨i + 1, q, by simpa using hi, ?_, hid⟩
            rw [← hm]
            congr 1
            omega
        · rintro (hd | ⟨i, q, hi, hm, hid⟩)
          · left
            split
            · rfl
            · exact hd
          · cases i with
            | zero =>
              simp only [List.getElem?_cons_zero, Option.some.injEq] at hi
              subst hi
              left
              rw [if_pos ⟨by rw [hn, ← hm, Nat.add_zero], hid⟩]
            | succ i =>
              refine Or.inr ⟨i, q, by simpa using hi, ?_, hid⟩
              rw [← hm]
              congr 1
              omega
      · intro hd
        apply i4
        intro j
        rw [c3 j]
        split
        · exact Nat.le_refl 1
        · exact hd j
      · rw [i5, c4, List.length_cons, List.range'_succ, List.map_cons, hn]
        simp
    · rw [if_neg hc] at h
      exact absurd h hc

/-- A loop that was left was left in a pass that follows a run of passes that stayed in
the loop. -/
theorem measurementLoop_exit_split (FLAG_FIFOFULL : Nat) (ps : List Poll) (s : State) (e : Exit)
    (h : (measurementLoop FLAG_FIFOFULL ps s).2 = some e) :
    ∃ pre p rest, ps = pre ++ p :: rest ∧
      (measurementLoop FLAG_FIFOFULL pre s).2 = none ∧
      (loopBody FLAG_FIFOFULL (measurementLoop FLAG_FIFOFULL pre s).1 p).2 = some e ∧
      measurementLoop FLAG_FIFOFULL ps s
        = loopBody FLAG_FIFOFULL (measurementLoop FLAG_FIFOFULL pre s).1 p := by
  induction ps generalizing s with
  | nil => simp [measurementLoop] at h
  | cons p ps ih =>
    rw [measurementLoop_cons] at h ⊢
    by_cases hc : (loopBody FLAG_FIFOFULL s p).2 = none
    · rw [if_pos hc] at h ⊢
      obtain ⟨pre, q, rest, h1, h2, h3, h4⟩ := ih (loopBody FLAG_FIFOFULL s p).1 h
      refine ⟨p :: pre, q, rest, by rw [h1]; rfl, ?_, ?_, ?_⟩
      · rw [measurementLoop_cons, if_pos hc]
        exact h2
      · rw [measurementLoop_cons, if_pos hc]
        exact h3
      · rw [measurementLoop_cons, if_pos hc]
        exact h4
    · rw [if_neg hc] at h ⊢
      exact ⟨[], p, ps, rfl, rfl, h, rfl⟩

theorem getElem?_of_prefix (pre rest : List Poll) (i : Nat) (q : Poll)
    (h : pre[i]? = some q) : (pre ++ rest)[i]? = some q := by
  obtain ⟨hlt, _⟩ := List.getElem?_eq_some.1 h
  rw [List.getElem?_append_left hlt]
  exact h

theorem getElem?_after_prefix (pre rest : List Poll) (p : Poll) :
    (pre ++ p :: rest)[pre.length]? = some p := by
  rw [List.getElem?_append_right (Nat.le_refl _)]
  simp

/-- What holds when the loop is left because all devices are done: every device has a
pass, among the passes made, that read an empty batch with the status set. -/
theorem done_exit_passes (FLAG_FIFOFULL : Nat) (rs : List Poll)
    (h : (measurementLoop FLAG_FIFOFULL rs State.start).2 = some Exit.done) :
    ∀ j, j < NDEVICES →
      ∃ i p, rs[i]? = some p ∧ i % NDEVICES = j ∧ Poll.idleAtEnd p = true := by
  obtain ⟨pre, p, rest, hsplit, hpre, hexit, _⟩ :=
    measurementLoop_exit_split FLAG_FIFOFULL rs State.start Exit.done h
  obtain ⟨r1, _, r3, r4, _⟩ :=
    measurementLoop_running FLAG_FIFOFULL pre State.start 0 rfl hpre
  obtain ⟨_, _, e3, e4, _⟩ := loopBody_exit FLAG_FIFOFULL _ p Exit.done hexit
  obtain ⟨hidle, hsum⟩ := e4 rfl
  have hle : ∀ j, (measurementLoop FLAG_FIFOFULL pre State.start).1.done j ≤ 1 :=
    r4 (fun _ => Nat.zero_le 1)
  have hle2 : ∀ j, (loopBody FLAG_FIFOFULL
      (measurementLoop FLAG_FIFOFULL pre State.start).1 p).1.done j ≤ 1 := by
    intro j
    rw [e3 j]
    split
    · exact Nat.le_refl 1
    · exact hle j
  intro j hj
  have hone : (loopBody FLAG_FIFOFULL
      (measurementLoop FLAG_FIFOFULL pre State.start).1 p).1.done j = 1 := by
    have h0 := hle2 0
    have h1 := hle2 1
    simp only [NDEVICES] at hsum hj
    have hj01 : j = 0 ∨ j = 1 := by omega
    rcases hj01 with hj0 | hj1
    · rw [hj0]; omega
    · rw [hj1]; omega
  rw [e3 j] at hone
  by_cases hcase : j = (measurementLoop FLAG_FIFOFULL pre State.start).1.n ∧ Exit.done = Exit.done
  · refine ⟨pre.length, p, by rw [hsplit]; exact getElem?_after_prefix pre rest p, ?_, hidle⟩
    rw [hcase.1, r1, Nat.zero_add]
  · rw [if_neg hcase] at hone
    rcases (r3 j).1 hone with h0 | ⟨i, q, hi, hm, hid⟩
    · exact absurd h0 Nat.zero_ne_one
    · refine ⟨i, q, by rw [hsplit]; exact getElem?_of_prefix pre (p :: rest) i q hi, ?_, hid⟩
      rw [← hm, Nat.zero_add]

/-- The devices polled by the passes made are `0, 1, 0, 1, ...`. -/
theorem polled_in_order (FLAG_FIFOFULL : Nat) (rs : List Poll) :
    ∃ m, m ≤ rs.length ∧
      polledDevices (measurementLoop FLAG_FIFOFULL rs State.start).1.calls
        = (List.range m).map (fun i => i % NDEVICES) ∧
      ((measurementLoop FLAG_FIFOFULL rs State.start).2 = none → m = rs.length) := by
  cases h : (measurementLoop FLAG_FIFOFULL rs State.start).2 with
  | none =>
    obtain ⟨_, _, _, _, r5⟩ := measurementLoop_running FLAG_FIFOFULL rs State.start 0 rfl h
    refine ⟨rs.length, Nat.le_refl _, ?_, fun _ => rfl⟩
    rw [r5, List.range_eq_range']
    rfl
  | some e =>
    obtain ⟨pre, p, rest, hsplit, hpre, hexit, heq⟩ :=
      measurementLoop_exit_split FLAG_FIFOFULL rs State.start e h
    obtain ⟨r1, _, _, _, r5⟩ :=
      measurementLoop_running FLAG_FIFOFULL pre State.start 0 rfl hpre
    obtain ⟨e1, _⟩ := loopBody_exit FLAG_FIFOFULL _ p e hexit
    refine ⟨pre.length + 1, by rw [hsplit]; simp, ?_, fun hn => by simp at hn⟩
    rw [heq, e1, r5, r1, List.range_succ, List.map_append, List.range_eq_range']
    simp [State.start, polledDevices]

/-- C22: in the multi-device loop the devices are polled in the order
`0, 1, ..., NDEVICES - 1, 0, 1, ...`; the loop is left with `Done` only if every device
has, in some pass, returned an empty batch with its end-of-acquisition status set; and
over passes without error, overrun or short write, as long as one device has no such
pass the loop keeps running and every response given is used for a poll. -/
theorem multi_device_polling (FLAG_FIFOFULL : Nat) (rs : List Poll) :
    polledDevices (measurementLoop FLAG_FIFOFULL rs State.start).1.calls
      = (List.range
          (polledDevices (measurementLoop FLAG_FIFOFULL rs State.start).1.calls).length).map
          (fun i => i % NDEVICES) ∧
    ((measurementLoop FLAG_FIFOFULL rs State.start).2 = some Exit.done →
      ∀ j, j < NDEVICES →
        ∃ i p, rs[i]? = some p ∧ i % NDEVICES = j ∧ Poll.idleAtEnd p = true) ∧
    ((∀ p ∈ rs, Poll.clean FLAG_FIFOFULL p = true) →
      (∃ j, j < NDEVICES ∧
        ∀ i p, rs[i]? = some p → i % NDEVICES = j → Poll.idleAtEnd p = false) →
      (measurementLoop FLAG_FIFOFULL rs State.start).2 = none ∧
      (polledDevices (measurementLoop FLAG_FIFOFULL rs State.start).1.calls).length
        = rs.length) := by
  obtain ⟨m, _, hm, hall⟩ := polled_in_order FLAG_FIFOFULL rs
  refine ⟨?_, done_exit_passes FLAG_FIFOFULL rs, ?_⟩
  · rw [hm]
    simp
  · intro hclean ⟨j, hj, hnone⟩
    have hrun : (measurementLoop FLAG_FIFOFULL rs State.start).2 = none := by
      cases h : (measurementLoop FLAG_FIFOFULL rs State.start).2 with
      | none => rfl
      | some e =>
        exfalso
        obtain ⟨pre, p, rest, hsplit, _, hexit, _⟩ :=
          measurementLoop_exit_split FLAG_FIFOFULL rs State.start e h
        have hp : Poll.clean FLAG_FIFOFULL p = true := hclean p (by rw [hsplit]; simp)
        have he := (loopBody_exit FLAG_FIFOFULL _ p e hexit).2.2.2.2 hp
        rw [he] at h
        obtain ⟨i, q, hi, hmod, hid⟩ := done_exit_passes FLAG_FIFOFULL rs h j hj
        rw [hnone i q hi hmod] at hid
        exact absurd hid (by decide)
    refine ⟨hrun, ?_⟩
    rw [hm, hall hrun]
    simp

/-- C22, witness: device 0 is idle at the end in pass 0 and is polled again in pass 2;
the loop is left with `Done` in pass 3, when device 1 is idle at the end too. Without
that last pass, device 1 has no such pass and the loop is still running after 3 polls. -/
theorem multi_device_polling_witness :
    ((measurementLoop 2 [Poll.drained, Poll.batch [7], Poll.batch [8], Poll.drained]
        State.start).2 = some Exit.done ∧
      ∀ j, j < NDEVICES →
        ∃ i p, [Poll.drained, Poll.batch [7], Poll.batch [8], Poll.drained][i]? = some p ∧
          i % NDEVICES = j ∧ Poll.idleAtEnd p = true) ∧
    (((∀ p ∈ [Poll.drained, Poll.batch [7], Poll.batch [8]], Poll.clean 2 p = true) ∧
        (1 < NDEVICES ∧
          ∀ i p, [Poll.drained, Poll.batch [7], Poll.batch [8]][i]? = some p →
            i % NDEVICES = 1 → Poll.idleAtEnd p = false)) ∧
      (measurementLoop 2 [Poll.drained, Poll.batch [7], Poll.batch [8]] State.start).2 = none ∧
      (polledDevices
        (measurementLoop 2 [Poll.drained, Poll.batch [7], Poll.batch [8]]
          State.start).1.calls).length
        = [Poll.drained, Poll.batch [7], Poll.batch [8]].length) :=
  have hnone : ∀ i p, [Poll.drained, Poll.batch [7], Poll.batch [8]][i]? = some p →
      i % NDEVICES = 1 → Poll.idleAtEnd p = false := by
    intro i p hi hm
    rcases i with _ | _ | _ | i
    · simp [NDEVICES] at hm
    · simp at hi
      subst hi
      decide
    · simp [NDEVICES] at hm
    · simp at hi
  ⟨⟨by decide,
      (multi_device_polling 2 [Poll.drained, Poll.batch [7], Poll.batch [8], Poll.drained]).2.1
        (by decide)⟩,
    ⟨by decide, by decide, hnone⟩,
    (multi_device_polling 2 [Poll.drained, Poll.batch [7], Poll.batch [8]]).2.2 (by decide)
      ⟨1, by decide, hnone⟩⟩

/-- C23 (as amended): each device has its own done flag and no retry counter: a pass
without error that reads an empty batch with the status set marks the device polled as
done at once and leaves the flags of the other devices as they are; while the loop is
running, device `j` is marked done exactly when one of its own passes read an empty batch
with its status set. -/
theorem multi_device_done_flag (FLAG_FIFOFULL : Nat) :
    (∀ (s : State) (p : Poll), Poll.clean FLAG_FIFOFULL p = true →
      Poll.idleAtEnd p = true →
      (loopBody FLAG_FIFOFULL s p).1.done s.n = 1 ∧
      ∀ j, j ≠ s.n → (loopBody FLAG_FIFOFULL s p).1.done j = s.done j) ∧
    (∀ rs : List Poll, (measurementLoop FLAG_FIFOFULL rs State.start).2 = none →
      ∀ j, (measurementLoop FLAG_FIFOFULL rs State.start).1.done j = 1 ↔
        ∃ i p, rs[i]? = some p ∧ i % NDEVICES = j ∧ Poll.idleAtEnd p = true) := by
  constructor
  · intro s p hc hi
    cases h : (loopBody FLAG_FIFOFULL s p).2 with
    | none =>
      obtain ⟨_, _, c3, _⟩ := loopBody_continue FLAG_FIFOFULL s p h
      refine ⟨by rw [c3, if_pos ⟨rfl, hi⟩], fun j hj => ?_⟩
      rw [c3, if_neg (fun hh => hj hh.1)]
    | some e =>
      obtain ⟨_, _, e3, _, e5⟩ := loopBody_exit FLAG_FIFOFULL s p e h
      refine ⟨by rw [e3, if_pos ⟨rfl, e5 hc⟩], fun j hj => ?_⟩
      rw [e3, if_neg (fun hh => hj hh.1)]
  · intro rs h j
    obtain ⟨_, _, r3, _, _⟩ := measurementLoop_running FLAG_FIFOFULL rs State.start 0 rfl h
    rw [r3 j]
    constructor
    · rintro (h0 | ⟨i, q, hi, hm, hid⟩)
      · exact absurd h0 Nat.zero_ne_one
      · exact ⟨i, q, hi, by rw [← hm, Nat.zero_add], hid⟩
    · rintro ⟨i, q, hi, hm, hid⟩
      exact Or.inr ⟨i, q, hi, by rw [← hm, Nat.zero_add], hid⟩

/-- C23, witness: one pass of device 0 with an empty batch and the status set marks
device 0 as done and leaves the flag of device 1 at 0. -/
theorem multi_device_done_flag_witness :
    (Poll.clean 2 Poll.drained = true ∧ Poll.idleAtEnd Poll.drained = true ∧
      (measurementLoop 2 [Poll.drained, Poll.batch [7]] State.start).2 = none) ∧
    ((loopBody 2 State.start Poll.drained).1.done State.start.n = 1 ∧
      ∀ j, j ≠ State.start.n → (loopBody 2 State.start Poll.drained).1.done j
        = State.start.done j) ∧
    ((measurementLoop 2 [Poll.drained, Poll.batch [7]] State.start).1.done 0 = 1 ↔
      ∃ i p, [Poll.drained, Poll.batch [7]][i]? = some p ∧ i % NDEVICES = 0 ∧
        Poll.idleAtEnd p = true) :=
  ⟨by decide,
    (multi_device_done_flag 2).1 State.start Poll.drained (by decide) (by decide),
    (multi_device_done_flag 2).2 [Poll.drained, Poll.batch [7]] (by decide) 0⟩

/-- C23, counterexample: a single poll of device 0 with an empty batch and the status
set marks it as done, and one such poll per device makes the loop leave with `Done`: no
retry budget is used up. -/
theorem multi_device_no_retry_budget :
    (measurementLoop 2 [Poll.drained] State.start).2 = none ∧
    (measurementLoop 2 [Poll.drained] State.start).1.done 0 = 1 ∧
    (measurementLoop 2 [Poll.drained, Poll.drained] State.start).2 = some Exit.done := by
  decide

/-! ## The output files -/

end MultipleDevices
